import Mathlib

/-!
# DDS container decoding in `src/renderer/ffr/ffr.cpp`

A shallow embedding of the DDS part of `ffr.cpp`: the pixel-format
predicates, the load-info table, `sizeDXTC`, `loadTexture` and the block
flip routines.

Conventions of the embedding.

* `uint` values are natural numbers below `2^32`; every arithmetic step that
  can wrap carries an explicit `% U32`.
* Bytes are natural numbers below `256`; memory is a list of bytes.
* The effects of `loadTexture` (the log call and the OpenGL calls) are
  recorded, in program order, in a list of `Effect`s.
-/

namespace Lumix

/-- Modulus of the `uint` type. -/
def U32 : Nat := 4294967296

namespace DDS

def DDS_MAGIC : Nat := 0x20534444
def DDSD_CAPS : Nat := 0x00000001
def DDSD_HEIGHT : Nat := 0x00000002
def DDSD_WIDTH : Nat := 0x00000004
def DDSD_PITCH : Nat := 0x00000008
def DDSD_PIXELFORMAT : Nat := 0x00001000
def DDSD_MIPMAPCOUNT : Nat := 0x00020000
def DDSD_LINEARSIZE : Nat := 0x00080000
def DDSD_DEPTH : Nat := 0x00800000
def DDPF_ALPHAPIXELS : Nat := 0x00000001
def DDPF_FOURCC : Nat := 0x00000004
def DDPF_INDEXED : Nat := 0x00000020
def DDPF_RGB : Nat := 0x00000040

/-- The multi-character constant `'1TXD'`: the bytes `D X T 1` in memory order. -/
def D3DFMT_DXT1 : Nat := 0x31545844
/-- The multi-character constant `'2TXD'`. -/
def D3DFMT_DXT2 : Nat := 0x32545844
/-- The multi-character constant `'3TXD'`. -/
def D3DFMT_DXT3 : Nat := 0x33545844
/-- The multi-character constant `'4TXD'`. -/
def D3DFMT_DXT4 : Nat := 0x34545844
/-- The multi-character constant `'5TXD'`. -/
def D3DFMT_DXT5 : Nat := 0x35545844

end DDS

/-! ### OpenGL enumerants used by the decoder (values of the OpenGL registry) -/

def GL_COMPRESSED_RGBA_S3TC_DXT1_EXT : Nat := 0x83F1
def GL_COMPRESSED_RGBA_S3TC_DXT3_EXT : Nat := 0x83F2
def GL_COMPRESSED_RGBA_S3TC_DXT5_EXT : Nat := 0x83F3
def GL_RGBA8 : Nat := 0x8058
def GL_RGB8 : Nat := 0x8051
def GL_RGB5_A1 : Nat := 0x8057
def GL_RGB5 : Nat := 0x8050
def GL_BGRA : Nat := 0x80E1
def GL_BGR : Nat := 0x80E0
def GL_RGB : Nat := 0x1907
def GL_UNSIGNED_BYTE : Nat := 0x1401
def GL_UNSIGNED_SHORT_1_5_5_5_REV : Nat := 0x8366
def GL_UNSIGNED_SHORT_5_6_5 : Nat := 0x8363
def GL_TEXTURE_2D : Nat := 0x0DE1
def GL_TEXTURE_MIN_FILTER : Nat := 0x2801
def GL_TEXTURE_MAG_FILTER : Nat := 0x2800
def GL_TEXTURE_MAX_LEVEL : Nat := 0x813D
def GL_LINEAR : Nat := 0x2601
def GL_LINEAR_MIPMAP_LINEAR : Nat := 0x2703
def GL_UNPACK_SWAP_BYTES : Nat := 0x0CF0
def GL_TRUE : Nat := 1
def GL_FALSE : Nat := 0

namespace DDS

structure PixelFormat where
  dwSize : Nat
  dwFlags : Nat
  dwFourCC : Nat
  dwRGBBitCount : Nat
  dwRBitMask : Nat
  dwGBitMask : Nat
  dwBBitMask : Nat
  dwAlphaBitMask : Nat
  deriving DecidableEq, Repr

structure Caps2 where
  dwCaps1 : Nat
  dwCaps2 : Nat
  dwDDSX : Nat
  dwReserved : Nat
  deriving DecidableEq, Repr

structure Header where
  dwMagic : Nat
  dwSize : Nat
  dwFlags : Nat
  dwHeight : Nat
  dwWidth : Nat
  dwPitchOrLinearSize : Nat
  dwDepth : Nat
  dwMipMapCount : Nat
  dwReserved1 : List Nat
  pixelFormat : PixelFormat
  caps2 : Caps2
  dwReserved2 : Nat
  deriving DecidableEq, Repr

structure LoadInfo where
  compressed : Bool
  swap : Bool
  palette : Bool
  divSize : Nat
  blockBytes : Nat
  internalFormat : Nat
  externalFormat : Nat
  type : Nat
  deriving DecidableEq, Repr

/-- `sizeDXTC`: `((w + 3) / 4) * ((h + 3) / 4) * (format == DXT1 ? 8 : 16)` in
`uint` arithmetic. -/
def sizeDXTC (w h format : Nat) : Nat :=
  ((((w + 3) % U32 / 4) * ((h + 3) % U32 / 4)) % U32
    * (if format = GL_COMPRESSED_RGBA_S3TC_DXT1_EXT then 8 else 16)) % U32

def isDXT1 (pf : PixelFormat) : Bool :=
  (pf.dwFlags &&& DDPF_FOURCC != 0) && (pf.dwFourCC == D3DFMT_DXT1)

def isDXT3 (pf : PixelFormat) : Bool :=
  (pf.dwFlags &&& DDPF_FOURCC != 0) && (pf.dwFourCC == D3DFMT_DXT3)

def isDXT5 (pf : PixelFormat) : Bool :=
  (pf.dwFlags &&& DDPF_FOURCC != 0) && (pf.dwFourCC == D3DFMT_DXT5)

def isBGRA8 (pf : PixelFormat) : Bool :=
  (pf.dwFlags &&& DDPF_RGB != 0)
    && (pf.dwFlags &&& DDPF_ALPHAPIXELS != 0)
    && (pf.dwRGBBitCount == 32)
    && (pf.dwRBitMask == 0xff0000)
    && (pf.dwGBitMask == 0xff00)
    && (pf.dwBBitMask == 0xff)
    && (pf.dwAlphaBitMask == 0xff000000)

def isBGR8 (pf : PixelFormat) : Bool :=
  (pf.dwFlags &&& DDPF_ALPHAPIXELS != 0)
    && !(pf.dwFlags &&& DDPF_ALPHAPIXELS != 0)
    && (pf.dwRGBBitCount == 24)
    && (pf.dwRBitMask == 0xff0000)
    && (pf.dwGBitMask == 0xff00)
    && (pf.dwBBitMask == 0xff)

def isBGR5A1 (pf : PixelFormat) : Bool :=
  (pf.dwFlags &&& DDPF_RGB != 0)
    && (pf.dwFlags &&& DDPF_ALPHAPIXELS != 0)
    && (pf.dwRGBBitCount == 16)
    && (pf.dwRBitMask == 0x00007c00)
    && (pf.dwGBitMask == 0x000003e0)
    && (pf.dwBBitMask == 0x0000001f)
    && (pf.dwAlphaBitMask == 0x00008000)

def isBGR565 (pf : PixelFormat) : Bool :=
  (pf.dwFlags &&& DDPF_RGB != 0)
    && !(pf.dwFlags &&& DDPF_ALPHAPIXELS != 0)
    && (pf.dwRGBBitCount == 16)
    && (pf.dwRBitMask == 0x0000f800)
    && (pf.dwGBitMask == 0x000007e0)
    && (pf.dwBBitMask == 0x0000001f)

def isINDEX8 (pf : PixelFormat) : Bool :=
  (pf.dwFlags &&& DDPF_INDEXED != 0) && (pf.dwRGBBitCount == 8)

/-! The static load-info entries; fields left out of a brace initialiser are zero. -/

def loadInfoDXT1 : LoadInfo :=
  ⟨true, false, false, 4, 8, GL_COMPRESSED_RGBA_S3TC_DXT1_EXT, 0, 0⟩
def loadInfoDXT3 : LoadInfo :=
  ⟨true, false, false, 4, 16, GL_COMPRESSED_RGBA_S3TC_DXT3_EXT, 0, 0⟩
def loadInfoDXT5 : LoadInfo :=
  ⟨true, false, false, 4, 16, GL_COMPRESSED_RGBA_S3TC_DXT5_EXT, 0, 0⟩
def loadInfoBGRA8 : LoadInfo :=
  ⟨false, false, false, 1, 4, GL_RGBA8, GL_BGRA, GL_UNSIGNED_BYTE⟩
def loadInfoBGR8 : LoadInfo :=
  ⟨false, false, false, 1, 3, GL_RGB8, GL_BGR, GL_UNSIGNED_BYTE⟩
def loadInfoBGR5A1 : LoadInfo :=
  ⟨false, true, false, 1, 2, GL_RGB5_A1, GL_BGRA, GL_UNSIGNED_SHORT_1_5_5_5_REV⟩
def loadInfoBGR565 : LoadInfo :=
  ⟨false, true, false, 1, 2, GL_RGB5, GL_RGB, GL_UNSIGNED_SHORT_5_6_5⟩
def loadInfoIndex8 : LoadInfo :=
  ⟨false, false, true, 1, 1, GL_RGB8, GL_BGRA, GL_UNSIGNED_BYTE⟩

end DDS

/-! ### Collaborators of the decoder -/

namespace Math

/-- Modelled from the spec: `Math::maximum` (engine/math_utils.h) is absent from the
sources; the spec has each level "halved, floor, clamped to a minimum of 1", so
`maximum(1, x >> 1)` is the larger of its two arguments. -/
def maximum (a b : Nat) : Nat := if a < b then b else a

end Math

/-- Modelled from the spec: `InputBlob` (engine/blob.h) is absent from the sources; the
spec has the decoder read the header "from the start of the buffer" and then, level by
level, "read that many bytes". A blob is the input bytes and a read position. -/
structure InputBlob where
  data : List Nat
  pos : Nat
  deriving DecidableEq, Repr

/-- Modelled from the spec: `InputBlob::read` hands out the next `size` bytes of the input
and moves the read position past them. The spec is silent on an input that is too short;
here a byte past the end reads as `0`. -/
def InputBlob.read (blob : InputBlob) (size : Nat) : List Nat × InputBlob :=
  ((List.range size).map (fun i => blob.data.getD (blob.pos + i) 0 % 256),
    { blob with pos := blob.pos + size })

/-- Modelled from the spec: `TextureHandle` and `INVALID_TEXTURE` (ffr.h) are absent from
the sources; the spec has every rejection "return a sentinel invalid-result", a value no
successful decode returns. -/
inductive TextureHandle
  | invalid
  | mk (value : Nat)
  deriving DecidableEq, Repr

/-- The sentinel of `TextureHandle`. -/
def INVALID_TEXTURE : TextureHandle := TextureHandle.invalid

/-- The structure `TextureInfo` (declared in ffr.h, which is absent from the sources), with
the fields that `loadTexture` assigns. -/
structure TextureInfo where
  width : Nat
  height : Nat
  depth : Nat
  layers : Nat
  mips : Nat
  is_cubemap : Bool
  deriving DecidableEq, Repr

/-- One observable call of `loadTexture`, with the `uint` values of its arguments:
the error log and the OpenGL entry points. The buffer argument of an image call is the
part of the scratch buffer that was filled for that level. -/
inductive Effect
  | log (channel message : String)
  | glGenTextures (n texture : Nat)
  | glBindTexture (target texture : Nat)
  | glDeleteTextures (n texture : Nat)
  | glCompressedTexImage2D (target level internalformat width height border imageSize : Nat)
      (data : List Nat)
  | glTexImage2D (target level internalformat width height border format type : Nat)
      (pixels : List Nat)
  | glTexParameteri (target pname param : Nat)
  | glPixelStorei (pname param : Nat)
  deriving DecidableEq, Repr

/-- What the upload boundary receives: mip level, dimensions and the buffer. -/
structure Upload where
  level : Nat
  width : Nat
  height : Nat
  pixels : List Nat
  deriving DecidableEq, Repr

/-- The upload carried by an effect: `glCompressedTexImage2D` and `glTexImage2D` are the
two upload calls. -/
def Effect.upload? : Effect → Option Upload
  | Effect.glCompressedTexImage2D _ level _ width height _ _ data =>
      some ⟨level, width, height, data⟩
  | Effect.glTexImage2D _ level _ width height _ _ _ pixels =>
      some ⟨level, width, height, pixels⟩
  | _ => none

/-- Whether an effect is an error-report call. -/
def Effect.isLog : Effect → Bool
  | Effect.log _ _ => true
  | _ => false

/-- The upload calls of a trace, in order. -/
def uploadsOf (trace : List Effect) : List Upload := trace.filterMap Effect.upload?

/-- The number of error-report calls of a trace. -/
def logCount (trace : List Effect) : Nat := (trace.filter Effect.isLog).length

/-- The little-endian `uint` stored at byte offset `off`. -/
def u32At (bytes : List Nat) (off : Nat) : Nat :=
  bytes.getD off 0 % 256 + 256 * (bytes.getD (off + 1) 0 % 256)
    + 65536 * (bytes.getD (off + 2) 0 % 256) + 16777216 * (bytes.getD (off + 3) 0 % 256)

/-- The `DDS::Header` laid over the 128 bytes that `blob.read(&hdr, sizeof(hdr))` fills. -/
def DDS.Header.ofBytes (b : List Nat) : DDS.Header where
  dwMagic := u32At b 0
  dwSize := u32At b 4
  dwFlags := u32At b 8
  dwHeight := u32At b 12
  dwWidth := u32At b 16
  dwPitchOrLinearSize := u32At b 20
  dwDepth := u32At b 24
  dwMipMapCount := u32At b 28
  dwReserved1 := (List.range 11).map (fun i => u32At b (32 + 4 * i))
  pixelFormat :=
    { dwSize := u32At b 76
      dwFlags := u32At b 80
      dwFourCC := u32At b 84
      dwRGBBitCount := u32At b 88
      dwRBitMask := u32At b 92
      dwGBitMask := u32At b 96
      dwBBitMask := u32At b 100
      dwAlphaBitMask := u32At b 104 }
  caps2 :=
    { dwCaps1 := u32At b 108
      dwCaps2 := u32At b 112
      dwDDSX := u32At b 116
      dwReserved := u32At b 120 }
  dwReserved2 := u32At b 124

namespace ffr

open DDS

/-- The values returned and observable after a call of `loadTexture`: the handle, the
calls made in program order, and what was written through `info` (`none` when nothing was
written: a null `info`, or a rejection). -/
structure LoadResult where
  handle : TextureHandle
  trace : List Effect
  info : Option TextureInfo
  deriving DecidableEq, Repr

/-- The local variables of `loadTexture` that a mip loop updates, with the calls made so
far. -/
structure MipState where
  blob : InputBlob
  width : Nat
  height : Nat
  size : Nat
  trace : List Effect
  deriving DecidableEq, Repr

/-- The `if / else if` chain of `loadTexture` that picks `li`; `none` is the final `else`
that returns `INVALID_TEXTURE`. -/
def selectLoadInfo (pf : PixelFormat) : Option LoadInfo :=
  if isDXT1 pf then some loadInfoDXT1
  else if isDXT3 pf then some loadInfoDXT3
  else if isDXT5 pf then some loadInfoDXT5
  else if isBGRA8 pf then some loadInfoBGRA8
  else if isBGR8 pf then some loadInfoBGR8
  else if isBGR5A1 pf then some loadInfoBGR5A1
  else if isBGR565 pf then some loadInfoBGR565
  else if isINDEX8 pf then some loadInfoIndex8
  else none

/-- Body of the loop of the compressed branch, iteration `ix`. -/
def compressedStep (li : LoadInfo) (st : MipState) (ix : Nat) : MipState :=
  let data := (st.blob.read st.size).1
  let width := Math.maximum 1 (st.width >>> 1)
  let height := Math.maximum 1 (st.height >>> 1)
  { blob := (st.blob.read st.size).2
    width := width
    height := height
    size := sizeDXTC width height li.internalFormat
    trace := st.trace ++
      [ Effect.glCompressedTexImage2D GL_TEXTURE_2D ix li.internalFormat st.width st.height 0
          st.size data,
        Effect.glTexParameteri GL_TEXTURE_2D GL_TEXTURE_MIN_FILTER GL_LINEAR_MIPMAP_LINEAR,
        Effect.glTexParameteri GL_TEXTURE_2D GL_TEXTURE_MAG_FILTER GL_LINEAR ] }

/-- Body of the loop of the paletted branch, iteration `ix`: every byte read is replaced
by its palette entry. -/
def paletteStep (li : LoadInfo) (palette : List Nat) (st : MipState) (ix : Nat) : MipState :=
  let data := (st.blob.read st.size).1
  let unpacked := data.map (fun index => palette.getD index 0)
  let width := Math.maximum 1 (st.width >>> 1)
  let height := Math.maximum 1 (st.height >>> 1)
  { blob := (st.blob.read st.size).2
    width := width
    height := height
    size := ((width * height) % U32 * li.blockBytes) % U32
    trace := st.trace ++
      [ Effect.glTexImage2D GL_TEXTURE_2D ix li.internalFormat st.width st.height 0
          li.externalFormat li.type unpacked ] }

/-- Body of the loop of the direct branch, iteration `ix`. -/
def directStep (li : LoadInfo) (st : MipState) (ix : Nat) : MipState :=
  let data := (st.blob.read st.size).1
  let width := Math.maximum 1 (st.width >>> 1)
  let height := Math.maximum 1 (st.height >>> 1)
  { blob := (st.blob.read st.size).2
    width := width
    height := height
    size := ((width * height) % U32 * li.blockBytes) % U32
    trace := st.trace ++
      [ Effect.glTexImage2D GL_TEXTURE_2D ix li.internalFormat st.width st.height 0
          li.externalFormat li.type data ] }

/-- A loop `for (uint ix = 0; ix < mipMapCount; ++ix)`. -/
def mipLoop (step : MipState → Nat → MipState) (mipMapCount : Nat) (st : MipState) : MipState :=
  (List.range mipMapCount).foldl step st

/-- The 256 `uint` entries of `palette` after `blob.read(palette, 4 * 256)`. -/
def paletteOf (bytes : List Nat) : List Nat :=
  (List.range 256).map (fun i => u32At bytes (4 * i))

/-- The tail of `loadTexture` after the mip loops: the `GL_TEXTURE_MAX_LEVEL` call, the
write through `info` and the returned handle. -/
def finish (texture mipMapCount : Nat) (info : Bool) (st : MipState) : LoadResult :=
  { handle := TextureHandle.mk texture
    trace := st.trace ++
      [Effect.glTexParameteri GL_TEXTURE_2D GL_TEXTURE_MAX_LEVEL ((mipMapCount + U32 - 1) % U32)]
    info := if info then some ⟨st.width, st.height, 1, 1, mipMapCount, false⟩ else none }

/-- The value `(hdr.dwFlags & DDSD_MIPMAPCOUNT) ? hdr.dwMipMapCount : 1` assigned to
`mipMapCount`. -/
def mipMapCountOf (hdr : Header) : Nat :=
  if hdr.dwFlags &&& DDSD_MIPMAPCOUNT ≠ 0 then hdr.dwMipMapCount else 1

/-- Return `INVALID_TEXTURE` having made the calls `trace`. -/
def reject (trace : List Effect) : LoadResult :=
  { handle := INVALID_TEXTURE, trace := trace, info := none }

/-- The part of `loadTexture` after `li` is chosen. `texture` is the name that
`glGenTextures` hands out, `blob` the input positioned after the header. -/
def loadWith (hdr : Header) (li : LoadInfo) (blob : InputBlob) (texture : Nat) (info : Bool) :
    LoadResult :=
  let width := hdr.dwWidth
  let height := hdr.dwHeight
  if texture = 0 then reject [Effect.glGenTextures 1 texture]
  else
    let trace := [Effect.glGenTextures 1 texture, Effect.glBindTexture GL_TEXTURE_2D texture]
    let mipMapCount := mipMapCountOf hdr
    if li.compressed then
      let size := sizeDXTC width height li.internalFormat
      if size ≠ hdr.dwPitchOrLinearSize ∨ hdr.dwFlags &&& DDSD_LINEARSIZE = 0 then
        reject (trace ++ [Effect.glDeleteTextures 1 texture])
      else
        finish texture mipMapCount info
          (mipLoop (compressedStep li) mipMapCount ⟨blob, width, height, size, trace⟩)
    else if li.palette then
      if hdr.dwFlags &&& DDSD_PITCH = 0 ∨ hdr.pixelFormat.dwRGBBitCount ≠ 8 then
        reject (trace ++ [Effect.glDeleteTextures 1 texture])
      else
        let size := (hdr.dwPitchOrLinearSize * height) % U32
        if size ≠ ((width * height) % U32 * li.blockBytes) % U32 then
          reject (trace ++ [Effect.glDeleteTextures 1 texture])
        else
          let palette := paletteOf (blob.read (4 * 256)).1
          finish texture mipMapCount info
            (mipLoop (paletteStep li palette) mipMapCount
              ⟨(blob.read (4 * 256)).2, width, height, size, trace⟩)
    else
      let trace1 :=
        if li.swap then trace ++ [Effect.glPixelStorei GL_UNPACK_SWAP_BYTES GL_TRUE] else trace
      let size := ((width * height) % U32 * li.blockBytes) % U32
      let st := mipLoop (directStep li) mipMapCount ⟨blob, width, height, size, trace1⟩
      finish texture mipMapCount info
        { st with trace := st.trace ++ [Effect.glPixelStorei GL_UNPACK_SWAP_BYTES GL_FALSE] }

/-- The header that `loadTexture` reads from the start of `input`. -/
def headerOf (input : List Nat) : Header :=
  Header.ofBytes ((InputBlob.mk input 0).read 128).1

/-- `loadTexture(input, input_size, info)`: `input` is the byte buffer, `texture` the name
that `glGenTextures` hands out (`0` when it fails), `info` whether the `info` pointer is
non-null. -/
def loadTexture (input : List Nat) (texture : Nat) (info : Bool) : LoadResult :=
  let hdr := headerOf input
  let blob := ((InputBlob.mk input 0).read 128).2
  if hdr.dwMagic ≠ DDS_MAGIC ∨ hdr.dwSize ≠ 124
      ∨ hdr.dwFlags &&& DDSD_PIXELFORMAT = 0 ∨ hdr.dwFlags &&& DDSD_CAPS = 0 then
    reject [Effect.log "renderer" "Wrong dds format or corrupted dds."]
  else
    match selectLoadInfo hdr.pixelFormat with
    | none => reject []
    | some li => loadWith hdr li blob texture info

/-! ### Quantities the statements below are phrased with -/

/-- The dimension of mip level `k` as the loops compute it: `k` times
`x = Math::maximum(1, x >> 1)`, starting from `x`. -/
def mipDim (x : Nat) : Nat → Nat
  | 0 => x
  | k + 1 => Math.maximum 1 (mipDim x k >>> 1)

/-- The value of the local `size` at the start of level `k`: `size0` at level 0, and
`sz` of the level's dimensions afterwards. -/
def levelSize (sz : Nat → Nat → Nat) (size0 w h : Nat) (k : Nat) : Nat :=
  if k = 0 then size0 else sz (mipDim w k) (mipDim h k)

/-- The `size` formula of the paletted and direct branches, `width * height * blockBytes`
in `uint` arithmetic. -/
def linearSize (blockBytes w h : Nat) : Nat := ((w * h) % U32 * blockBytes) % U32

/-- The read position at the start of level `k` when the first level starts at `pos0`. -/
def levelPos (sz : Nat → Nat → Nat) (size0 w h pos0 : Nat) (k : Nat) : Nat :=
  pos0 + ((List.range k).map (levelSize sz size0 w h)).sum

/-- The `n` bytes of `input` from offset `off` on, as `InputBlob::read` hands them out. -/
def bytesAt (input : List Nat) (off n : Nat) : List Nat :=
  ((InputBlob.mk input off).read n).1

/-- The four bytes of a `uint`, least significant first. -/
def le32 (v : Nat) : List Nat :=
  [v % 256, v / 256 % 256, v / 65536 % 256, v / 16777216 % 256]

/-- The 128 bytes of a DDS header with the given fields; the fields not listed are zero. -/
def headerBytes (magic size flags height width pitch mips pfFlags fourCC bitCount
    rMask gMask bMask aMask : Nat) : List Nat :=
  le32 magic ++ le32 size ++ le32 flags ++ le32 height ++ le32 width ++ le32 pitch
    ++ le32 0 ++ le32 mips ++ List.replicate 44 0
    ++ le32 32 ++ le32 pfFlags ++ le32 fourCC ++ le32 bitCount
    ++ le32 rMask ++ le32 gMask ++ le32 bMask ++ le32 aMask
    ++ List.replicate 20 0

/-- A DXT1 container of 8 by 8 texels, flags `PIXELFORMAT | CAPS | LINEARSIZE`, no mip
count, with the given `dwPitchOrLinearSize`, followed by 32 payload bytes `1 .. 32`. -/
def dxt1_8x8 (pitch : Nat) : List Nat :=
  headerBytes DDS_MAGIC 124 (DDSD_PIXELFORMAT ||| DDSD_CAPS ||| DDSD_LINEARSIZE) 8 8 pitch 0
    DDPF_FOURCC D3DFMT_DXT1 0 0 0 0 0 ++ (List.range 32).map (fun i => i + 1)

/-- A valid header (flags `PIXELFORMAT | CAPS`) of 4 by 4 texels whose pixel format has no
flag, no tag, bit count 0 and zero masks. -/
def unknownFormat : List Nat :=
  headerBytes DDS_MAGIC 124 (DDSD_PIXELFORMAT ||| DDSD_CAPS) 4 4 0 0 0 0 0 0 0 0 0

/-- A paletted container of 4 by 4 texels: flags `PIXELFORMAT | CAPS | PITCH`, pitch 4,
8 bits per pixel; palette entry `i` is the `uint` `i + 256 * (255 - i)`; the 16 indices
are `7 * j % 256` after the 1024 palette bytes. -/
def index8_4x4 : List Nat :=
  headerBytes DDS_MAGIC 124 (DDSD_PIXELFORMAT ||| DDSD_CAPS ||| DDSD_PITCH) 4 4 4 0
    DDPF_INDEXED 0 8 0 0 0 0
    ++ (List.range 256).flatMap (fun i => [i, 255 - i, 0, 0])
    ++ (List.range 16).map (fun j => 7 * j % 256)

end ffr

end Lumix
namespace Lumix

namespace DDS

/-! ### Block flip engine

Memory is a list of bytes and a pointer is a byte offset into it. A read outside the
list yields `0` and a write outside the list is dropped, so that every routine is total;
the statements about the routines are made for buffers that hold the blocks accessed. -/

/-- The `n` bytes of `mem` from offset `off` on. -/
def readBytes (mem : List Nat) (off n : Nat) : List Nat :=
  (List.range n).map (fun i => mem.getD (off + i) 0)

/-- Store `bytes` into `mem` from offset `off` on. -/
def writeBytes (mem : List Nat) (off : Nat) : List Nat → List Nat
  | [] => mem
  | b :: bs => writeBytes (mem.set off b) (off + 1) bs

/-- `memcpy(dst, src, n)` between two buffers: returns the new contents of `dst`. -/
def memcpy (dst : List Nat) (dstOff : Nat) (src : List Nat) (srcOff n : Nat) : List Nat :=
  writeBytes dst dstOff (readBytes src srcOff n)

/-- `swapMemory(mem1, mem2, size)` for `size >= 0`: three `memcpy` calls through a scratch
buffer, which is the 2048-byte array `tmp` on the stack when `size < 2048` and an
`Array<u8>` resized to `size` otherwise. The source's `int size` reaches `memcpy` converted
to `size_t`, so a call with a negative size has no defined result: such a call is not an
instance of this definition, and the one call whose size can be negative, in the loop of
`flipCompressedTexture`, is a failure there. -/
def swapMemory (mem : List Nat) (mem1 mem2 : Nat) (size : Nat) : List Nat :=
  if size < 2048 then
    let tmp := memcpy (List.replicate 2048 0) 0 mem mem1 size
    let mem := memcpy mem mem1 mem mem2 size
    memcpy mem mem2 tmp 0 size
  else
    let tmp := memcpy (List.replicate size 0) 0 mem mem1 size
    let mem := memcpy mem mem1 mem mem2 size
    memcpy mem mem2 tmp 0 size

/-- The loop of `flipBlockDXTC1` with `n` iterations left; `curblock` is the offset of the
current `DXTColBlock` (`col0` at 0, `col1` at 2, `row[0..3]` at 4..7). -/
def flipBlockDXTC1Loop : Nat → List Nat → Nat → List Nat
  | 0, mem, _ => mem
  | n + 1, mem, curblock =>
    let mem := swapMemory mem (curblock + 4) (curblock + 7) 1
    let mem := swapMemory mem (curblock + 5) (curblock + 6) 1
    flipBlockDXTC1Loop n mem (curblock + 8)

/-- `flipBlockDXTC1(line, numBlocks)`. -/
def flipBlockDXTC1 (mem : List Nat) (line : Nat) (numBlocks : Int) : List Nat :=
  flipBlockDXTC1Loop numBlocks.toNat mem line

/-- The loop of `flipBlockDXTC3` with `n` iterations left: the `DXT3AlphaBlock` (four
`uint16_t` rows) at `curblock`, followed by the `DXTColBlock` at `curblock + 8`. -/
def flipBlockDXTC3Loop : Nat → List Nat → Nat → List Nat
  | 0, mem, _ => mem
  | n + 1, mem, curblock =>
    let alphablock := curblock
    let mem := swapMemory mem (alphablock + 0) (alphablock + 6) 2
    let mem := swapMemory mem (alphablock + 2) (alphablock + 4) 2
    let curblock := curblock + 8
    let mem := swapMemory mem (curblock + 4) (curblock + 7) 1
    let mem := swapMemory mem (curblock + 5) (curblock + 6) 1
    flipBlockDXTC3Loop n mem (curblock + 8)

/-- `flipBlockDXTC3(line, numBlocks)`. -/
def flipBlockDXTC3 (mem : List Nat) (line : Nat) (numBlocks : Int) : List Nat :=
  flipBlockDXTC3Loop numBlocks.toNat mem line

/-- The `uint` that `memcpy(&bits, p, 3)` leaves in a zeroed `bits` (little-endian). -/
def read24 (mem : List Nat) (off : Nat) : Nat :=
  mem.getD off 0 + 256 * mem.getD (off + 1) 0 + 65536 * mem.getD (off + 2) 0

/-- The `uint` read through a `uint*` at offset `off` (little-endian). -/
def read32 (mem : List Nat) (off : Nat) : Nat :=
  mem.getD off 0 + 256 * mem.getD (off + 1) 0 + 65536 * mem.getD (off + 2) 0
    + 16777216 * mem.getD (off + 3) 0

/-- Store the `uint` `v` through a `uint*` at offset `off` (little-endian). -/
def write32 (mem : List Nat) (off v : Nat) : List Nat :=
  writeBytes mem off [v % 256, v / 256 % 256, v / 65536 % 256, v / 16777216 % 256]

/-- The statement `*out_bits = *out_bits | v` with `out_bits` at offset `off`. -/
def orAt32 (mem : List Nat) (off v : Nat) : List Nat :=
  write32 mem off ((read32 mem off ||| v) % U32)

/-- `flipDXT5Alpha(block)`: `alpha0` at 0, `alpha1` at 1, `row[0..5]` at 2..7. -/
def flipDXT5Alpha (mem : List Nat) (block : Nat) : List Nat :=
  let mask := 0x00000007
  let bits := read24 mem (block + 2)
  let t00 := (bits &&& mask) % 256
  let bits := bits >>> 3
  let t01 := (bits &&& mask) % 256
  let bits := bits >>> 3
  let t02 := (bits &&& mask) % 256
  let bits := bits >>> 3
  let t03 := (bits &&& mask) % 256
  let bits := bits >>> 3
  let t10 := (bits &&& mask) % 256
  let bits := bits >>> 3
  let t11 := (bits &&& mask) % 256
  let bits := bits >>> 3
  let t12 := (bits &&& mask) % 256
  let bits := bits >>> 3
  let t13 := (bits &&& mask) % 256
  let bits := read24 mem (block + 5)
  let t20 := (bits &&& mask) % 256
  let bits := bits >>> 3
  let t21 := (bits &&& mask) % 256
  let bits := bits >>> 3
  let t22 := (bits &&& mask) % 256
  let bits := bits >>> 3
  let t23 := (bits &&& mask) % 256
  let bits := bits >>> 3
  let t30 := (bits &&& mask) % 256
  let bits := bits >>> 3
  let t31 := (bits &&& mask) % 256
  let bits := bits >>> 3
  let t32 := (bits &&& mask) % 256
  let bits := bits >>> 3
  let t33 := (bits &&& mask) % 256
  let out_bits := block + 2
  let mem := orAt32 mem out_bits (t30 <<< 0)
  let mem := orAt32 mem out_bits (t31 <<< 3)
  let mem := orAt32 mem out_bits (t32 <<< 6)
  let mem := orAt32 mem out_bits (t33 <<< 9)
  let mem := orAt32 mem out_bits (t20 <<< 12)
  let mem := orAt32 mem out_bits (t21 <<< 15)
  let mem := orAt32 mem out_bits (t22 <<< 18)
  let mem := orAt32 mem out_bits (t23 <<< 21)
  let out_bits := block + 5
  let mem := write32 mem out_bits (read32 mem out_bits &&& 0xff000000)
  let mem := orAt32 mem out_bits (t10 <<< 0)
  let mem := orAt32 mem out_bits (t11 <<< 3)
  let mem := orAt32 mem out_bits (t12 <<< 6)
  let mem := orAt32 mem out_bits (t13 <<< 9)
  let mem := orAt32 mem out_bits (t00 <<< 12)
  let mem := orAt32 mem out_bits (t01 <<< 15)
  let mem := orAt32 mem out_bits (t02 <<< 18)
  let mem := orAt32 mem out_bits (t03 <<< 21)
  mem

/-- The loop of `flipBlockDXTC5` with `n` iterations left: the `DXT5AlphaBlock` at
`curblock`, followed by the `DXTColBlock` at `curblock + 8`. -/
def flipBlockDXTC5Loop : Nat → List Nat → Nat → List Nat
  | 0, mem, _ => mem
  | n + 1, mem, curblock =>
    let alphablock := curblock
    let mem := flipDXT5Alpha mem alphablock
    let curblock := curblock + 8
    let mem := swapMemory mem (curblock + 4) (curblock + 7) 1
    let mem := swapMemory mem (curblock + 5) (curblock + 6) 1
    flipBlockDXTC5Loop n mem (curblock + 8)

/-- `flipBlockDXTC5(line, numBlocks)`. -/
def flipBlockDXTC5 (mem : List Nat) (line : Nat) (numBlocks : Int) : List Nat :=
  flipBlockDXTC5Loop numBlocks.toNat mem line

/-- The `int` that 32-bit two's complement arithmetic yields for the exact value `x`: an
`int` product that overflows wraps around. -/
def wrapInt (x : Int) : Int := (x + 2147483648) % 4294967296 - 2147483648

/-- The `while (top < bottom)` loop of `flipCompressedTexture`; `top` and `bottom` are
offsets from `surface`. The result is `none` when the call does not return a surface: the
call `swapMemory(bottom, top, linesize)` is reached with a negative `linesize`, which
`memcpy` receives converted to `size_t`. The loop is run for at most `fuel` iterations and
the result is `none` as well when it has not finished by then. -/
def flipRows (flipBlocksFunction : List Nat → Nat → Int → List Nat) (xblocks linesize : Int)
    (fuel : Nat) (surface : List Nat) (top bottom : Int) : Option (List Nat) :=
  if top < bottom then
    match fuel with
    | 0 => none
    | fuel + 1 =>
      let surface := flipBlocksFunction surface top.toNat xblocks
      let surface := flipBlocksFunction surface bottom.toNat xblocks
      if linesize < 0 then none
      else
        let surface := swapMemory surface bottom.toNat top.toNat linesize.toNat
        flipRows flipBlocksFunction xblocks linesize fuel surface (top + linesize)
          (bottom - linesize)
  else some surface

/-- `flipCompressedTexture(w, h, format, surface)`: the contents of `surface` afterwards,
for `int` values `w` and `h`. The two `int` products, `xblocks * blocksize` and
`(yblocks - 1) * linesize`, are taken in 32-bit arithmetic; the pointers `top` and `bottom`
are offsets from `surface`. The loop gets one unit of fuel per byte between `top` and
`bottom`, which is enough whenever the line size is positive, so that the result is `none`
exactly when `swapMemory` is reached with a negative size. An unknown format leaves the
surface as it is. -/
def flipCompressedTexture (w h : Int) (format : Nat) (surface : List Nat) :
    Option (List Nat) :=
  let xblocks := w >>> 2
  let yblocks := h >>> 2
  let sel : Option (Int × (List Nat → Nat → Int → List Nat)) :=
    if format = GL_COMPRESSED_RGBA_S3TC_DXT1_EXT then some (8, flipBlockDXTC1)
    else if format = GL_COMPRESSED_RGBA_S3TC_DXT3_EXT then some (16, flipBlockDXTC3)
    else if format = GL_COMPRESSED_RGBA_S3TC_DXT5_EXT then some (16, flipBlockDXTC5)
    else none
  match sel with
  | none => some surface
  | some (blocksize, flipBlocksFunction) =>
    let linesize := wrapInt (xblocks * blocksize)
    let bottom := wrapInt ((yblocks - 1) * linesize)
    flipRows flipBlocksFunction xblocks linesize bottom.toNat surface 0 bottom

/-- The surface after `flipCompressedTexture` is applied twice with the same arguments. -/
def flipCompressedTextureTwice (w h : Int) (format : Nat) (surface : List Nat) :
    Option (List Nat) :=
  (flipCompressedTexture w h format surface).bind (flipCompressedTexture w h format)

/-- A surface of 32 bytes: a first 16-byte block whose index bytes 2..4 are `255` and 5..7
are `0` and whose last eight bytes are `1 .. 8`, followed by 16 zero bytes. -/
def twoBlockRows : List Nat :=
  [0, 0, 255, 255, 255, 0, 0, 0, 1, 2, 3, 4, 5, 6, 7, 8] ++ List.replicate 16 0

/-! ### Definitions used to state the properties of the flip routines -/

/-- Where byte `j` of the buffer comes from after two regions of `n` bytes at `a` and `b`
are exchanged. -/
def swapIdx (a b n j : Nat) : Nat :=
  if a ≤ j ∧ j < a + n then b + (j - a)
  else if b ≤ j ∧ j < b + n then a + (j - b)
  else j

/-- Where byte `j` of the buffer comes from when the `len` bytes at `line` are rearranged
by `p` (byte `o` of the line taken from offset `p o` of the line) and the rest is kept. -/
def lineIdx (p : Nat → Nat) (line len j : Nat) : Nat :=
  if line ≤ j ∧ j < line + len then line + p (j - line) else j

/-- The vertical flip of a line of DXT1 blocks, as a source offset for each byte: in every
8-byte block, `row[0]` and `row[3]` (offsets 4 and 7) and `row[1]` and `row[2]` (offsets 5
and 6) change places. -/
def srcDXT1 (o : Nat) : Nat :=
  if o % 8 = 4 then o + 3
  else if o % 8 = 5 then o + 1
  else if o % 8 = 6 then o - 1
  else if o % 8 = 7 then o - 3
  else o

/-- The vertical flip of a line of DXT3 blocks, as a source offset for each byte: in every
16-byte block the two-byte alpha rows 0 and 3, and 1 and 2, change places, and so do
`row[0]`, `row[3]` and `row[1]`, `row[2]` of the colour block (offsets 12..15). -/
def srcDXT3 (o : Nat) : Nat :=
  if o % 16 < 2 then o + 6
  else if o % 16 < 4 then o + 2
  else if o % 16 < 6 then o - 2
  else if o % 16 < 8 then o - 6
  else if o % 16 = 12 then o + 3
  else if o % 16 = 13 then o + 1
  else if o % 16 = 14 then o - 1
  else if o % 16 = 15 then o - 3
  else o

/-- A line rearranged by `p`. -/
def permuteLine (p : Nat → Nat) (row : List Nat) : List Nat :=
  (List.range row.length).map (fun o => row.getD (p o) 0)

/-- A block-line routine `F` called with `xblocks` blocks acts on the `len` bytes at `line`
alone: it keeps the length of the buffer and every byte outside the line, and turns the
line into `g` of the line. -/
structure RowLocal (F : List Nat → Nat → Int → List Nat) (xblocks : Int) (len : Nat)
    (g : List Nat → List Nat) : Prop where
  length : ∀ mem line, (F mem line xblocks).length = mem.length
  outside : ∀ mem line j, line + len ≤ mem.length → (j < line ∨ line + len ≤ j) →
    (F mem line xblocks).getD j 0 = mem.getD j 0
  inside : ∀ mem line, line + len ≤ mem.length →
    readBytes (F mem line xblocks) line len = g (readBytes mem line len)

/-! ### Definitions used to state the properties of the block routines -/

/-- The three-bit index `k` of a 24-bit index group, as `flipDXT5Alpha` extracts it into
`tmp_bits`: `(u8)((bits >> 3k) & 7)`. -/
def groupIndex (bits k : Nat) : Nat := ((bits >>> (3 * k)) &&& 0x00000007) % 256

/-- The word that `flipDXT5Alpha` ORs into an index group from the eight indices of the
other group: indices 4..7 (the second row of that group) at bits 0..11 and indices 0..3
(its first row) at bits 12..23. -/
def swappedRows (bits : Nat) : Nat :=
  groupIndex bits 4 <<< 0 ||| groupIndex bits 5 <<< 3 ||| groupIndex bits 6 <<< 6
    ||| groupIndex bits 7 <<< 9 ||| groupIndex bits 0 <<< 12 ||| groupIndex bits 1 <<< 15
    ||| groupIndex bits 2 <<< 18 ||| groupIndex bits 3 <<< 21

/-- The 48 index bits of a DXT5 alpha block: the little-endian value of bytes 2..7. -/
def alphaBits (blk : List Nat) : Nat :=
  blk.getD 2 0 + 2 ^ 8 * blk.getD 3 0 + 2 ^ 16 * blk.getD 4 0 + 2 ^ 24 * blk.getD 5 0
    + 2 ^ 32 * blk.getD 6 0 + 2 ^ 40 * blk.getD 7 0

/-- The three-bit index at row `r`, column `c` of the 4 by 4 grid: bits
`3 * (4 * r + c) ..` of the 48 index bits. -/
def alphaIndex (blk : List Nat) (r c : Nat) : Nat :=
  (alphaBits blk >>> (3 * (4 * r + c))) &&& 7

/-- The 4 by 4 grid of indices of an alpha block, row by row. -/
def alphaGrid (blk : List Nat) : List (List Nat) :=
  (List.range 4).map (fun r => (List.range 4).map (fun c => alphaIndex blk r c))

/-- The 16 indices of an alpha block in storage order. -/
def alphaIndices (blk : List Nat) : List Nat :=
  (List.range 16).map (fun k => (alphaBits blk >>> (3 * k)) &&& 7)

/-- A DXT5 block whose alpha endpoints are 200 and 100, whose index grid has the rows
`1 2 3 4`, `5 6 7 0`, `0 1 0 1`, `2 0 2 0`, and whose colour block is `1 .. 8`. -/
def gridBlock : List Nat := [200, 100, 209, 88, 31, 8, 34, 8, 1, 2, 3, 4, 5, 6, 7, 8]

/-- A block-line loop `L` over blocks of `bs` bytes: each iteration is the one-block
routine `L 1` applied at the current block, which keeps the length of the buffer and every
byte outside the block and acts on the block alone. -/
structure BlockStep (L : Nat → List Nat → Nat → List Nat) (bs : Nat) : Prop where
  zero : ∀ mem cur, L 0 mem cur = mem
  succ : ∀ n mem cur, L (n + 1) mem cur = L n (L 1 mem cur) (cur + bs)
  length : ∀ mem cur, (L 1 mem cur).length = mem.length
  outside : ∀ mem cur j, cur + bs ≤ mem.length → (j < cur ∨ cur + bs ≤ j) →
    (L 1 mem cur).getD j 0 = mem.getD j 0
  window : ∀ mem cur, cur + bs ≤ mem.length →
    readBytes (L 1 mem cur) cur bs = L 1 (readBytes mem cur bs) 0

/-- The `blocksize` that the `switch` of `flipCompressedTexture` sets for `format`. -/
def blockSize (format : Nat) : Nat :=
  if format = GL_COMPRESSED_RGBA_S3TC_DXT1_EXT then 8
  else if format = GL_COMPRESSED_RGBA_S3TC_DXT3_EXT then 16
  else if format = GL_COMPRESSED_RGBA_S3TC_DXT5_EXT then 16
  else 0

/-- The per-block vertical flip of `format`: the block-line routine that the `switch` of
`flipCompressedTexture` selects for `format`, run on the one block `blk` by itself. -/
def flipBlock (format : Nat) (blk : List Nat) : List Nat :=
  if format = GL_COMPRESSED_RGBA_S3TC_DXT1_EXT then flipBlockDXTC1 blk 0 1
  else if format = GL_COMPRESSED_RGBA_S3TC_DXT3_EXT then flipBlockDXTC3 blk 0 1
  else if format = GL_COMPRESSED_RGBA_S3TC_DXT5_EXT then flipBlockDXTC5 blk 0 1
  else blk

/-- The block at row `r`, column `c` of a surface whose rows hold `xb` blocks of `bs`
bytes. -/
def blockAt (surface : List Nat) (bs xb r c : Nat) : List Nat :=
  readBytes surface ((r * xb + c) * bs) bs

/-- A surface of one DXT1 block: endpoints `0`, index rows `1, 2, 3, 4`. -/
def oneBlockDXT1 : List Nat := [0, 0, 0, 0, 1, 2, 3, 4]

/-- The value `x` is representable as a 32-bit `int`. -/
def fitsInt (x : Int) : Prop := -2147483648 ≤ x ∧ x < 2147483648

instance (x : Int) : Decidable (fitsInt x) := by
  unfold fitsInt; infer_instance

/-- The three `memcpy` calls that both branches of `swapMemory` make, with a scratch buffer
`tmp` of `tmpSize` bytes: 2048 on the stack branch, `size` on the heap branch. -/
def swapThrough (tmpSize : Nat) (mem : List Nat) (mem1 mem2 n : Nat) : List Nat :=
  let tmp := memcpy (List.replicate tmpSize 0) 0 mem mem1 n
  let mem := memcpy mem mem1 mem mem2 n
  memcpy mem mem2 tmp 0 n

/-- The exchange of two regions as the spec words it: the `n` bytes at `a` hold the former
`n` bytes at `b` and conversely, every other byte is as before. -/
def exchangeRegions (mem : List Nat) (a b n : Nat) : List Nat :=
  (List.range mem.length).map (fun j =>
    if a ≤ j ∧ j < a + n then mem.getD (b + (j - a)) 0
    else if b ≤ j ∧ j < b + n then mem.getD (a + (j - b)) 0
    else mem.getD j 0)

/-- A surface of two zeroed DXT1 blocks. -/
def twoZeroBlocks : List Nat := List.replicate 16 0

/-- The 24-bit value `x` with its two 12-bit halves exchanged: the two index rows of the
upper half come first. -/
def mirrored (x : Nat) : Nat := (x >>> 12) ||| ((x &&& 0xFFF) <<< 12)

end DDS

end Lumix
namespace Lumix

namespace ffr

open DDS

/-! ### Definitions used to state the properties of `loadTexture` -/

/-- The uploads of a mip loop over `n` levels that starts with dimensions `w`, `h`, size
`size0` and read position `pos0` in `data`. -/
def mipUploads (sz : Nat → Nat → Nat) (px : List Nat → List Nat) (data : List Nat)
    (size0 w h pos0 n : Nat) : List Upload :=
  (List.range n).map (fun k =>
    (⟨k, mipDim w k, mipDim h k,
      px (bytesAt data (levelPos sz size0 w h pos0 k) (levelSize sz size0 w h k))⟩ : Upload))

/-- A header passes the validation at the top of `loadTexture`. -/
def validHeader (hdr : Header) : Prop :=
  hdr.dwMagic = DDS_MAGIC ∧ hdr.dwSize = 124
    ∧ hdr.dwFlags &&& DDSD_PIXELFORMAT ≠ 0 ∧ hdr.dwFlags &&& DDSD_CAPS ≠ 0

instance (hdr : Header) : Decidable (validHeader hdr) := by
  unfold validHeader; infer_instance

/-- What the three loop bodies have in common: the read, the halving of the dimensions, the
recomputed `size`, and exactly one upload (level `ix`, the dimensions on entry, the bytes
read passed through `px`) and no log call. -/
structure StepSpec (step : MipState → Nat → MipState) (sz : Nat → Nat → Nat)
    (px : List Nat → List Nat) : Prop where
  blob : ∀ st ix, (step st ix).blob = (st.blob.read st.size).2
  width : ∀ st ix, (step st ix).width = Math.maximum 1 (st.width >>> 1)
  height : ∀ st ix, (step st ix).height = Math.maximum 1 (st.height >>> 1)
  size : ∀ st ix, (step st ix).size = sz (step st ix).width (step st ix).height
  uploads : ∀ st ix, uploadsOf (step st ix).trace
    = uploadsOf st.trace ++ [⟨ix, st.width, st.height, px (st.blob.read st.size).1⟩]
  logs : ∀ st ix, logCount (step st ix).trace = logCount st.trace

/-- The outcome of `loadWith`: which of its paths is taken, and the handle, the log count,
the uploads and the value written through `info` on that path. -/
inductive LoadPath (hdr : Header) (li : LoadInfo) (blob : InputBlob) (texture : Nat)
    (info : Bool) (r : LoadResult) : Prop
  | noTexture (ht : texture = 0) (hr : r = reject [Effect.glGenTextures 1 texture])
  | deleted (ht : texture ≠ 0)
      (hbad : (li.compressed = true ∧
          (sizeDXTC hdr.dwWidth hdr.dwHeight li.internalFormat ≠ hdr.dwPitchOrLinearSize
            ∨ hdr.dwFlags &&& DDSD_LINEARSIZE = 0))
        ∨ (li.compressed = false ∧ li.palette = true ∧
          (hdr.dwFlags &&& DDSD_PITCH = 0 ∨ hdr.pixelFormat.dwRGBBitCount ≠ 8
            ∨ (hdr.dwPitchOrLinearSize * hdr.dwHeight) % U32
                ≠ linearSize li.blockBytes hdr.dwWidth hdr.dwHeight)))
      (hr : r = reject [Effect.glGenTextures 1 texture,
        Effect.glBindTexture GL_TEXTURE_2D texture, Effect.glDeleteTextures 1 texture])
  | compressed (ht : texture ≠ 0) (hc : li.compressed = true)
      (hsize : sizeDXTC hdr.dwWidth hdr.dwHeight li.internalFormat = hdr.dwPitchOrLinearSize)
      (hflag : hdr.dwFlags &&& DDSD_LINEARSIZE ≠ 0)
      (hh : r.handle = TextureHandle.mk texture)
      (hl : logCount r.trace = 0)
      (hu : uploadsOf r.trace = mipUploads (fun w h => sizeDXTC w h li.internalFormat) id
        blob.data (sizeDXTC hdr.dwWidth hdr.dwHeight li.internalFormat) hdr.dwWidth
        hdr.dwHeight blob.pos (mipMapCountOf hdr))
      (hi : r.info = if info then some ⟨mipDim hdr.dwWidth (mipMapCountOf hdr),
        mipDim hdr.dwHeight (mipMapCountOf hdr), 1, 1, mipMapCountOf hdr, false⟩ else none)
  | paletted (ht : texture ≠ 0) (hc : li.compressed = false) (hp : li.palette = true)
      (hflag : hdr.dwFlags &&& DDSD_PITCH ≠ 0) (hbits : hdr.pixelFormat.dwRGBBitCount = 8)
      (hsize : (hdr.dwPitchOrLinearSize * hdr.dwHeight) % U32
        = linearSize li.blockBytes hdr.dwWidth hdr.dwHeight)
      (hh : r.handle = TextureHandle.mk texture)
      (hl : logCount r.trace = 0)
      (hu : uploadsOf r.trace = mipUploads (linearSize li.blockBytes)
        (fun data => data.map (fun index => (paletteOf (bytesAt blob.data blob.pos 1024)).getD index 0))
        blob.data ((hdr.dwPitchOrLinearSize * hdr.dwHeight) % U32) hdr.dwWidth
        hdr.dwHeight (blob.pos + 1024) (mipMapCountOf hdr))
      (hi : r.info = if info then some ⟨mipDim hdr.dwWidth (mipMapCountOf hdr),
        mipDim hdr.dwHeight (mipMapCountOf hdr), 1, 1, mipMapCountOf hdr, false⟩ else none)
  | direct (ht : texture ≠ 0) (hc : li.compressed = false) (hp : li.palette = false)
      (hh : r.handle = TextureHandle.mk texture)
      (hl : logCount r.trace = 0)
      (hu : uploadsOf r.trace = mipUploads (linearSize li.blockBytes) id
        blob.data (linearSize li.blockBytes hdr.dwWidth hdr.dwHeight) hdr.dwWidth
        hdr.dwHeight blob.pos (mipMapCountOf hdr))
      (hi : r.info = if info then some ⟨mipDim hdr.dwWidth (mipMapCountOf hdr),
        mipDim hdr.dwHeight (mipMapCountOf hdr), 1, 1, mipMapCountOf hdr, false⟩ else none)

/-- The classifier as the spec words it: an ordered list of (predicate, identity) pairs. -/
def classifierTable : List ((PixelFormat → Bool) × LoadInfo) :=
  [ (isDXT1, loadInfoDXT1), (isDXT3, loadInfoDXT3), (isDXT5, loadInfoDXT5),
    (isBGRA8, loadInfoBGRA8), (isBGR8, loadInfoBGR8), (isBGR5A1, loadInfoBGR5A1),
    (isBGR565, loadInfoBGR565), (isINDEX8, loadInfoIndex8) ]

/-- The load-info of the first predicate of `classifierTable` that holds, if any. -/
def firstMatch (pf : PixelFormat) : Option LoadInfo :=
  (classifierTable.find? (fun e => e.1 pf)).map Prod.snd

/-- A descriptor with the FOURCC flag and the DXT1 tag that also declares 24 bits per pixel
with the masks ff0000/ff00/ff. -/
def taggedBGR8 : PixelFormat :=
  { dwSize := 32, dwFlags := 0x4, dwFourCC := 0x31545844, dwRGBBitCount := 24,
    dwRBitMask := 0xff0000, dwGBitMask := 0xff00, dwBBitMask := 0xff, dwAlphaBitMask := 0 }

/-- A descriptor with the FOURCC and INDEXED flags, the DXT1 tag and 8 bits per pixel. -/
def taggedIndex8 : PixelFormat :=
  { dwSize := 32, dwFlags := 0x24, dwFourCC := 0x31545844, dwRGBBitCount := 8,
    dwRBitMask := 0, dwGBitMask := 0, dwBBitMask := 0, dwAlphaBitMask := 0 }

/-- The number of bytes read for level `k` in the compressed and direct branches:
`sizeDXTC` of the level's dimensions for a compressed format, and
`width * height * blockBytes` in `uint` arithmetic otherwise. -/
def levelBytes (li : LoadInfo) (w h k : Nat) : Nat :=
  if li.compressed then sizeDXTC (mipDim w k) (mipDim h k) li.internalFormat
  else linearSize li.blockBytes (mipDim w k) (mipDim h k)

/-- A DXT1 container of width 0 and height 4 with two mip levels: flags
`PIXELFORMAT | CAPS | LINEARSIZE | MIPMAPCOUNT`, `dwPitchOrLinearSize = 0`, followed by the
8 payload bytes `1 .. 8`. -/
def dxt1_0x4 : List Nat :=
  headerBytes DDS_MAGIC 124
    (DDSD_PIXELFORMAT ||| DDSD_CAPS ||| DDSD_LINEARSIZE ||| DDSD_MIPMAPCOUNT) 4 0 0 2
    DDPF_FOURCC D3DFMT_DXT1 0 0 0 0 0 ++ (List.range 8).map (fun i => i + 1)

/-- A 32-bit BGRA container of width 0 and height 4 with two mip levels: flags
`PIXELFORMAT | CAPS | MIPMAPCOUNT`, followed by the 8 payload bytes `1 .. 8`. -/
def bgra8_0x4 : List Nat :=
  headerBytes DDS_MAGIC 124 (DDSD_PIXELFORMAT ||| DDSD_CAPS ||| DDSD_MIPMAPCOUNT) 4 0 0 2
    (DDPF_RGB ||| DDPF_ALPHAPIXELS) 0 32 0xff0000 0xff00 0xff 0xff000000
    ++ (List.range 8).map (fun i => i + 1)

/-- A paletted container of width 0 and height 4 with two mip levels: flags
`PIXELFORMAT | CAPS | PITCH | MIPMAPCOUNT`, pitch 0, 8 bits per pixel, the palette of
`index8_4x4`, followed by the 2 index bytes `3, 5`. -/
def index8_0x4 : List Nat :=
  headerBytes DDS_MAGIC 124 (DDSD_PIXELFORMAT ||| DDSD_CAPS ||| DDSD_PITCH ||| DDSD_MIPMAPCOUNT)
    4 0 0 2 DDPF_INDEXED 0 8 0 0 0 0
    ++ (List.range 256).flatMap (fun i => [i, 255 - i, 0, 0])
    ++ [3, 5]

/-- A 32-bit BGRA header of 65536 by 65536 texels with three mip levels: flags
`PIXELFORMAT | CAPS | MIPMAPCOUNT`; no payload follows. -/
def bgra8_65536 : List Nat :=
  headerBytes DDS_MAGIC 124 (DDSD_PIXELFORMAT ||| DDSD_CAPS ||| DDSD_MIPMAPCOUNT) 65536 65536
    0 3 (DDPF_RGB ||| DDPF_ALPHAPIXELS) 0 32 0xff0000 0xff00 0xff 0xff000000

/-- The exact byte count of a level of `w` by `h` texels, without the wrap of the `uint`
arithmetic: `ceil(w/4) * ceil(h/4)` blocks of 8 or 16 bytes for a compressed format,
`w * h * blockBytes` otherwise. -/
def exactBytes (li : LoadInfo) (w h : Nat) : Nat :=
  if li.compressed then
    ((w + 3) / 4) * ((h + 3) / 4)
      * (if li.internalFormat = GL_COMPRESSED_RGBA_S3TC_DXT1_EXT then 8 else 16)
  else w * h * li.blockBytes

/-- The level, the dimensions and the number of bytes of each upload in a trace. -/
def uploadSizes (trace : List Effect) : List (Nat × Nat × Nat × Nat) :=
  (uploadsOf trace).map (fun u => (u.level, u.width, u.height, u.pixels.length))

end ffr

end Lumix
set_option maxRecDepth 100000

namespace Lumix

namespace ffr

open DDS

/-! ### Traces -/

theorem uploadsOf_append (a b : List Effect) :
    uploadsOf (a ++ b) = uploadsOf a ++ uploadsOf b := by
  simp [uploadsOf, List.filterMap_append]

theorem logCount_append (a b : List Effect) : logCount (a ++ b) = logCount a + logCount b := by
  simp [logCount, List.filter_append]

theorem reject_handle (tr : List Effect) : (reject tr).handle = INVALID_TEXTURE := rfl

theorem reject_trace (tr : List Effect) : (reject tr).trace = tr := rfl

theorem finish_handle (t m : Nat) (i : Bool) (st : MipState) :
    (finish t m i st).handle = TextureHandle.mk t := rfl

theorem finish_uploads (t m : Nat) (i : Bool) (st : MipState) :
    uploadsOf (finish t m i st).trace = uploadsOf st.trace := by
  simp [finish, uploadsOf_append, uploadsOf, Effect.upload?]

theorem finish_logCount (t m : Nat) (i : Bool) (st : MipState) :
    logCount (finish t m i st).trace = logCount st.trace := by
  simp [finish, logCount_append, logCount, Effect.isLog]

/-! ### The mip loops -/

theorem mipLoop_zero (step : MipState → Nat → MipState) (st : MipState) :
    mipLoop step 0 st = st := rfl

theorem mipLoop_succ (step : MipState → Nat → MipState) (n : Nat) (st : MipState) :
    mipLoop step (n + 1) st = step (mipLoop step n st) n := by
  simp [mipLoop, List.range_succ, List.foldl_append]

theorem compressedStep_spec (li : LoadInfo) :
    StepSpec (compressedStep li) (fun w h => sizeDXTC w h li.internalFormat) id where
  blob _ _ := rfl
  width _ _ := rfl
  height _ _ := rfl
  size _ _ := rfl
  uploads st ix := by simp [compressedStep, uploadsOf_append, uploadsOf, Effect.upload?]
  logs st ix := by simp [compressedStep, logCount_append, logCount, Effect.isLog]

theorem paletteStep_spec (li : LoadInfo) (palette : List Nat) :
    StepSpec (paletteStep li palette) (linearSize li.blockBytes)
      (fun data => data.map (fun index => palette.getD index 0)) where
  blob _ _ := rfl
  width _ _ := rfl
  height _ _ := rfl
  size _ _ := rfl
  uploads st ix := by simp [paletteStep, uploadsOf_append, uploadsOf, Effect.upload?]
  logs st ix := by simp [paletteStep, logCount_append, logCount, Effect.isLog]

theorem directStep_spec (li : LoadInfo) :
    StepSpec (directStep li) (linearSize li.blockBytes) id where
  blob _ _ := rfl
  width _ _ := rfl
  height _ _ := rfl
  size _ _ := rfl
  uploads st ix := by simp [directStep, uploadsOf_append, uploadsOf, Effect.upload?]
  logs st ix := by simp [directStep, logCount_append, logCount, Effect.isLog]

section Loop

variable {step : MipState → Nat → MipState} {sz : Nat → Nat → Nat} {px : List Nat → List Nat}

theorem mipLoop_width (hs : StepSpec step sz px) (n : Nat) (st : MipState) :
    (mipLoop step n st).width = mipDim st.width n := by
  induction n with
  | zero => rfl
  | succ n ih => rw [mipLoop_succ, hs.width, ih]; rfl

theorem mipLoop_height (hs : StepSpec step sz px) (n : Nat) (st : MipState) :
    (mipLoop step n st).height = mipDim st.height n := by
  induction n with
  | zero => rfl
  | succ n ih => rw [mipLoop_succ, hs.height, ih]; rfl

theorem mipLoop_size (hs : StepSpec step sz px) (n : Nat) (st : MipState) :
    (mipLoop step n st).size = levelSize sz st.size st.width st.height n := by
  cases n with
  | zero => rfl
  | succ n =>
    rw [mipLoop_succ, hs.size, ← mipLoop_succ step n st, mipLoop_width hs, mipLoop_height hs]
    simp [levelSize]

theorem mipLoop_data (hs : StepSpec step sz px) (n : Nat) (st : MipState) :
    (mipLoop step n st).blob.data = st.blob.data := by
  induction n with
  | zero => rfl
  | succ n ih => rw [mipLoop_succ, hs.blob]; exact ih

theorem mipLoop_pos (hs : StepSpec step sz px) (n : Nat) (st : MipState) :
    (mipLoop step n st).blob.pos = levelPos sz st.size st.width st.height st.blob.pos n := by
  induction n with
  | zero => simp [mipLoop_zero, levelPos]
  | succ n ih =>
    rw [mipLoop_succ, hs.blob]
    show (mipLoop step n st).blob.pos + (mipLoop step n st).size = _
    rw [ih, mipLoop_size hs]
    simp [levelPos, List.range_succ, Nat.add_assoc]

theorem mipLoop_logCount (hs : StepSpec step sz px) (n : Nat) (st : MipState) :
    logCount (mipLoop step n st).trace = logCount st.trace := by
  induction n with
  | zero => rfl
  | succ n ih => rw [mipLoop_succ, hs.logs, ih]

/-- The uploads of a mip loop of `n` levels: one per level `k < n`, in increasing order of
`k`, each with the dimensions of level `k` and the bytes read at the level's position. -/
theorem mipLoop_uploads (hs : StepSpec step sz px) (n : Nat) (st : MipState) :
    uploadsOf (mipLoop step n st).trace = uploadsOf st.trace ++
      (List.range n).map (fun k =>
        (⟨k, mipDim st.width k, mipDim st.height k,
          px (bytesAt st.blob.data (levelPos sz st.size st.width st.height st.blob.pos k)
            (levelSize sz st.size st.width st.height k))⟩ : Upload)) := by
  induction n with
  | zero => simp [mipLoop_zero]
  | succ n ih =>
    rw [mipLoop_succ, hs.uploads, ih, List.range_succ, List.map_append, List.append_assoc]
    congr 2
    simp only [List.map_cons, List.map_nil, mipLoop_width hs, mipLoop_height hs,
      mipLoop_size hs, bytesAt]
    congr 4
    rw [← mipLoop_pos hs, ← mipLoop_data hs n st]

end Loop

theorem loadTexture_of_invalid (input : List Nat) (texture : Nat) (info : Bool)
    (h : ¬ validHeader (headerOf input)) :
    loadTexture input texture info
      = reject [Effect.log "renderer" "Wrong dds format or corrupted dds."] := by
  have h' : (headerOf input).dwMagic ≠ DDS_MAGIC ∨ (headerOf input).dwSize ≠ 124
      ∨ (headerOf input).dwFlags &&& DDSD_PIXELFORMAT = 0
      ∨ (headerOf input).dwFlags &&& DDSD_CAPS = 0 := by
    unfold validHeader at h
    by_contra hc
    simp only [not_or] at hc
    exact h ⟨not_not.mp hc.1, not_not.mp hc.2.1, hc.2.2.1, hc.2.2.2⟩
  simp only [loadTexture]
  rw [if_pos h']

theorem loadTexture_of_valid (input : List Nat) (texture : Nat) (info : Bool)
    (h : validHeader (headerOf input)) :
    loadTexture input texture info
      = match selectLoadInfo (headerOf input).pixelFormat with
        | none => reject []
        | some li => loadWith (headerOf input) li ((InputBlob.mk input 0).read 128).2 texture info := by
  have h' : ¬ ((headerOf input).dwMagic ≠ DDS_MAGIC ∨ (headerOf input).dwSize ≠ 124
      ∨ (headerOf input).dwFlags &&& DDSD_PIXELFORMAT = 0
      ∨ (headerOf input).dwFlags &&& DDSD_CAPS = 0) := by
    obtain ⟨h1, h2, h3, h4⟩ := h
    simp only [not_or]
    exact ⟨not_not.mpr h1, not_not.mpr h2, h3, h4⟩
  simp only [loadTexture]
  rw [if_neg h']

theorem loadTexture_of_selected (input : List Nat) (texture : Nat) (info : Bool) (li : LoadInfo)
    (hv : validHeader (headerOf input))
    (hsel : selectLoadInfo (headerOf input).pixelFormat = some li) :
    loadTexture input texture info
      = loadWith (headerOf input) li (InputBlob.mk input 128) texture info := by
  rw [loadTexture_of_valid input texture info hv, hsel]
  rfl

theorem loadTexture_of_unselected (input : List Nat) (texture : Nat) (info : Bool)
    (hv : validHeader (headerOf input))
    (hsel : selectLoadInfo (headerOf input).pixelFormat = none) :
    loadTexture input texture info = reject [] := by
  rw [loadTexture_of_valid input texture info hv, hsel]

theorem loadWith_path (hdr : Header) (li : LoadInfo) (blob : InputBlob) (texture : Nat)
    (info : Bool) : LoadPath hdr li blob texture info (loadWith hdr li blob texture info) := by
  by_cases ht : texture = 0
  · exact LoadPath.noTexture ht (by simp [loadWith, ht])
  by_cases hc : li.compressed = true
  · by_cases hbad : sizeDXTC hdr.dwWidth hdr.dwHeight li.internalFormat ≠ hdr.dwPitchOrLinearSize
        ∨ hdr.dwFlags &&& DDSD_LINEARSIZE = 0
    · exact LoadPath.deleted ht (Or.inl ⟨hc, hbad⟩) (by simp only [loadWith, if_neg ht, if_pos hc, if_pos hbad]; rfl)
    · have hr : loadWith hdr li blob texture info = finish texture (mipMapCountOf hdr) info
          (mipLoop (compressedStep li) (mipMapCountOf hdr)
            ⟨blob, hdr.dwWidth, hdr.dwHeight, sizeDXTC hdr.dwWidth hdr.dwHeight li.internalFormat,
              [Effect.glGenTextures 1 texture, Effect.glBindTexture GL_TEXTURE_2D texture]⟩) := by
        simp only [loadWith, if_neg ht, if_pos hc, if_neg hbad]
      simp only [not_or, not_not] at hbad
      refine LoadPath.compressed ht hc hbad.1 hbad.2 (by rw [hr]; rfl) ?_ ?_ ?_
      · rw [hr, finish_logCount, mipLoop_logCount (compressedStep_spec li)]; rfl
      · rw [hr, finish_uploads, mipLoop_uploads (compressedStep_spec li)]
        simp [uploadsOf, Effect.upload?, mipUploads]
      · rw [hr]
        simp only [finish, mipLoop_width (compressedStep_spec li),
          mipLoop_height (compressedStep_spec li)]
  simp only [Bool.not_eq_true] at hc
  by_cases hp : li.palette = true
  · by_cases hbad1 : hdr.dwFlags &&& DDSD_PITCH = 0 ∨ hdr.pixelFormat.dwRGBBitCount ≠ 8
    · refine LoadPath.deleted ht (Or.inr ⟨hc, hp, ?_⟩) (by simp only [loadWith, if_neg ht, hc, if_pos hp, if_pos hbad1]; rfl)
      rcases hbad1 with h | h
      · exact Or.inl h
      · exact Or.inr (Or.inl h)
    by_cases hbad2 : (hdr.dwPitchOrLinearSize * hdr.dwHeight) % U32
        ≠ ((hdr.dwWidth * hdr.dwHeight) % U32 * li.blockBytes) % U32
    · exact LoadPath.deleted ht (Or.inr ⟨hc, hp, Or.inr (Or.inr hbad2)⟩)
        (by simp only [loadWith, if_neg ht, hc, if_pos hp, if_neg hbad1, if_pos hbad2]; rfl)
    · have hr : loadWith hdr li blob texture info = finish texture (mipMapCountOf hdr) info
          (mipLoop (paletteStep li (paletteOf (blob.read (4 * 256)).1)) (mipMapCountOf hdr)
            ⟨(blob.read (4 * 256)).2, hdr.dwWidth, hdr.dwHeight,
              (hdr.dwPitchOrLinearSize * hdr.dwHeight) % U32,
              [Effect.glGenTextures 1 texture, Effect.glBindTexture GL_TEXTURE_2D texture]⟩) := by
        simp only [loadWith, if_neg ht, hc, if_pos hp, if_neg hbad1, if_neg hbad2]
        rfl
      simp only [not_or, not_not] at hbad1 hbad2
      refine LoadPath.paletted ht hc hp hbad1.1 hbad1.2 hbad2 (by rw [hr]; rfl) ?_ ?_ ?_
      · rw [hr, finish_logCount, mipLoop_logCount (paletteStep_spec li _)]; rfl
      · rw [hr, finish_uploads, mipLoop_uploads (paletteStep_spec li _)]
        simp [uploadsOf, Effect.upload?, mipUploads, InputBlob.read, bytesAt]
      · rw [hr]
        simp only [finish, mipLoop_width (paletteStep_spec li _),
          mipLoop_height (paletteStep_spec li _)]
  · simp only [Bool.not_eq_true] at hp
    have hr : loadWith hdr li blob texture info = finish texture (mipMapCountOf hdr) info
        { mipLoop (directStep li) (mipMapCountOf hdr)
            ⟨blob, hdr.dwWidth, hdr.dwHeight, linearSize li.blockBytes hdr.dwWidth hdr.dwHeight,
              if li.swap then [Effect.glGenTextures 1 texture,
                Effect.glBindTexture GL_TEXTURE_2D texture]
                  ++ [Effect.glPixelStorei GL_UNPACK_SWAP_BYTES GL_TRUE]
              else [Effect.glGenTextures 1 texture, Effect.glBindTexture GL_TEXTURE_2D texture]⟩
          with trace := (mipLoop (directStep li) (mipMapCountOf hdr)
            ⟨blob, hdr.dwWidth, hdr.dwHeight, linearSize li.blockBytes hdr.dwWidth hdr.dwHeight,
              if li.swap then [Effect.glGenTextures 1 texture,
                Effect.glBindTexture GL_TEXTURE_2D texture]
                  ++ [Effect.glPixelStorei GL_UNPACK_SWAP_BYTES GL_TRUE]
              else [Effect.glGenTextures 1 texture, Effect.glBindTexture GL_TEXTURE_2D texture]⟩).trace
            ++ [Effect.glPixelStorei GL_UNPACK_SWAP_BYTES GL_FALSE] } := by
      simp only [loadWith, if_neg ht, hc, hp]
      rfl
    refine LoadPath.direct ht hc hp (by rw [hr]; rfl) ?_ ?_ ?_
    · rw [hr, finish_logCount]
      simp only [logCount_append, mipLoop_logCount (directStep_spec li)]
      cases li.swap <;> rfl
    · rw [hr, finish_uploads]
      simp only [uploadsOf_append, mipLoop_uploads (directStep_spec li)]
      cases li.swap <;> simp [uploadsOf, Effect.upload?, mipUploads]
    · rw [hr]
      simp only [finish, mipLoop_width (directStep_spec li),
        mipLoop_height (directStep_spec li)]

theorem maximum_eq_max (a b : Nat) : Math.maximum a b = max a b := by
  unfold Math.maximum
  split <;> omega

theorem mipDim_succ (x k : Nat) : mipDim x (k + 1) = max 1 (mipDim x k / 2) := by
  show Math.maximum 1 (mipDim x k >>> 1) = _
  rw [maximum_eq_max, Nat.shiftRight_eq_div_pow, pow_one]

theorem mipDim_eq (x k : Nat) (hx : 1 ≤ x) : mipDim x k = max 1 (x / 2 ^ k) := by
  induction k with
  | zero => simp [mipDim]; omega
  | succ k ih =>
    rw [mipDim_succ, ih, pow_succ, ← Nat.div_div_eq_div_mul]
    rcases Nat.eq_zero_or_pos (x / 2 ^ k) with h0 | hpos
    · rw [h0]; simp
    · rw [max_eq_right hpos]

theorem selectLoadInfo_eq_firstMatch (pf : PixelFormat) : selectLoadInfo pf = firstMatch pf := by
  unfold selectLoadInfo firstMatch classifierTable
  simp only [List.find?]
  cases isDXT1 pf <;> cases isDXT3 pf <;> cases isDXT5 pf <;> cases isBGRA8 pf <;>
    cases isBGR8 pf <;> cases isBGR5A1 pf <;> cases isBGR565 pf <;> cases isINDEX8 pf <;> rfl

theorem loadWith_rejected_uploads (hdr : Header) (li : LoadInfo) (blob : InputBlob)
    (texture : Nat) (info : Bool)
    (h : (loadWith hdr li blob texture info).handle = INVALID_TEXTURE) :
    uploadsOf (loadWith hdr li blob texture info).trace = [] := by
  rcases loadWith_path hdr li blob texture info with
    ⟨_, hr⟩ | ⟨_, _, hr⟩ | ⟨_, _, _, _, hh, _, _⟩ | ⟨_, _, _, _, _, _, hh, _, _⟩ | ⟨_, _, _, hh, _, _⟩
  · rw [hr]; rfl
  · rw [hr]; rfl
  · rw [hh] at h; cases h
  · rw [hh] at h; cases h
  · rw [hh] at h; cases h

theorem loadTexture_rejected_uploads (input : List Nat) (texture : Nat) (info : Bool)
    (h : (loadTexture input texture info).handle = INVALID_TEXTURE) :
    uploadsOf (loadTexture input texture info).trace = [] := by
  by_cases hv : validHeader (headerOf input)
  · rw [loadTexture_of_valid input texture info hv] at h ⊢
    cases hsel : selectLoadInfo (headerOf input).pixelFormat with
    | none => rfl
    | some li =>
      rw [hsel] at h
      exact loadWith_rejected_uploads _ _ _ _ _ h
  · rw [loadTexture_of_invalid input texture info hv]; rfl

theorem mipUploads_getElem? (sz : Nat → Nat → Nat) (px : List Nat → List Nat) (data : List Nat)
    (size0 w h pos0 n k : Nat) (hk : k < n) :
    (mipUploads sz px data size0 w h pos0 n)[k]? = some ⟨k, mipDim w k, mipDim h k,
      px (bytesAt data (levelPos sz size0 w h pos0 k) (levelSize sz size0 w h k))⟩ := by
  simp [mipUploads, List.getElem?_map, List.getElem?_range hk]

/-- C1: an input whose header has a wrong magic, a wrong declared size, or lacks the
pixel-format or the caps flag makes `loadTexture` return `INVALID_TEXTURE` with no upload
call, whatever the rest of the input, the texture name and `info` are. -/
theorem loadTexture_bad_header (input : List Nat) (texture : Nat) (info : Bool)
    (h : (headerOf input).dwMagic ≠ 0x20534444 ∨ (headerOf input).dwSize ≠ 124
      ∨ (headerOf input).dwFlags &&& DDSD_PIXELFORMAT = 0
      ∨ (headerOf input).dwFlags &&& DDSD_CAPS = 0) :
    (loadTexture input texture info).handle = INVALID_TEXTURE
      ∧ uploadsOf (loadTexture input texture info).trace = [] := by
  have hv : ¬ validHeader (headerOf input) := by
    rintro ⟨h1, h2, h3, h4⟩
    rcases h with h | h | h | h
    · exact h h1
    · exact h h2
    · exact h3 h
    · exact h4 h
  rw [loadTexture_of_invalid input texture info hv]
  exact ⟨rfl, rfl⟩

/-- Witness of C1: a DXT1 container that is well formed except for a declared size of 123. -/
theorem loadTexture_bad_header_witness :
    (loadTexture (headerBytes DDS_MAGIC 123 (DDSD_PIXELFORMAT ||| DDSD_CAPS ||| DDSD_LINEARSIZE)
        8 8 32 0 DDPF_FOURCC D3DFMT_DXT1 0 0 0 0 0) 1 true).handle = INVALID_TEXTURE
      ∧ uploadsOf (loadTexture (headerBytes DDS_MAGIC 123
        (DDSD_PIXELFORMAT ||| DDSD_CAPS ||| DDSD_LINEARSIZE)
        8 8 32 0 DDPF_FOURCC D3DFMT_DXT1 0 0 0 0 0) 1 true).trace = [] :=
  loadTexture_bad_header _ 1 true (Or.inr (Or.inl (by decide)))

/-- The eight predicates spelled out: flag bits, tag, bit count and channel masks. -/
theorem classifier_patterns (pf : PixelFormat) :
    (isDXT1 pf = true ↔ pf.dwFlags &&& 0x4 ≠ 0 ∧ pf.dwFourCC = 0x31545844)
      ∧ (isDXT3 pf = true ↔ pf.dwFlags &&& 0x4 ≠ 0 ∧ pf.dwFourCC = 0x33545844)
      ∧ (isDXT5 pf = true ↔ pf.dwFlags &&& 0x4 ≠ 0 ∧ pf.dwFourCC = 0x35545844)
      ∧ (isBGRA8 pf = true ↔ pf.dwFlags &&& 0x40 ≠ 0 ∧ pf.dwFlags &&& 0x1 ≠ 0
          ∧ pf.dwRGBBitCount = 32 ∧ pf.dwRBitMask = 0xff0000 ∧ pf.dwGBitMask = 0xff00
          ∧ pf.dwBBitMask = 0xff ∧ pf.dwAlphaBitMask = 0xff000000)
      ∧ (isBGR8 pf = true → pf.dwRGBBitCount = 24 ∧ pf.dwRBitMask = 0xff0000
          ∧ pf.dwGBitMask = 0xff00 ∧ pf.dwBBitMask = 0xff)
      ∧ (isBGR5A1 pf = true ↔ pf.dwFlags &&& 0x40 ≠ 0 ∧ pf.dwFlags &&& 0x1 ≠ 0
          ∧ pf.dwRGBBitCount = 16 ∧ pf.dwRBitMask = 0x7c00 ∧ pf.dwGBitMask = 0x3e0
          ∧ pf.dwBBitMask = 0x1f ∧ pf.dwAlphaBitMask = 0x8000)
      ∧ (isBGR565 pf = true ↔ pf.dwFlags &&& 0x40 ≠ 0 ∧ pf.dwFlags &&& 0x1 = 0
          ∧ pf.dwRGBBitCount = 16 ∧ pf.dwRBitMask = 0xf800 ∧ pf.dwGBitMask = 0x7e0
          ∧ pf.dwBBitMask = 0x1f)
      ∧ (isINDEX8 pf = true ↔ pf.dwFlags &&& 0x20 ≠ 0 ∧ pf.dwRGBBitCount = 8) := by
  refine ⟨?_, ?_, ?_, ?_, ?_, ?_, ?_, ?_⟩
  · simp [isDXT1, DDPF_FOURCC, D3DFMT_DXT1]
  · simp [isDXT3, DDPF_FOURCC, D3DFMT_DXT3]
  · simp [isDXT5, DDPF_FOURCC, D3DFMT_DXT5]
  · simp [isBGRA8, DDPF_RGB, DDPF_ALPHAPIXELS, and_assoc]
  · simp [isBGR8, DDPF_ALPHAPIXELS]
  · simp [isBGR5A1, DDPF_RGB, DDPF_ALPHAPIXELS, and_assoc]
  · simp [isBGR565, DDPF_RGB, DDPF_ALPHAPIXELS, and_assoc]
  · simp [isINDEX8, DDPF_INDEXED]

/-- C2: for a header that passes validation, `loadTexture` continues with the load-info of
the first predicate that holds in the order isDXT1, isDXT3, isDXT5, isBGRA8, isBGR8,
isBGR5A1, isBGR565, isINDEX8, and when none holds it returns `INVALID_TEXTURE` with no
upload call. The predicates are the tag with the FOURCC flag (DXT1, DXT3, DXT5), RGB and
alpha flags with 32 bits and masks ff0000/ff00/ff/ff000000, RGB and alpha flags with 16
bits and masks 7c00/3e0/1f/8000, RGB flag without alpha with 16 bits and masks f800/7e0/1f,
and the INDEXED flag with 8 bits; isBGR8 holds only for 24 bits with masks ff0000/ff00/ff. -/
theorem loadTexture_selects_first_match (input : List Nat) (texture : Nat) (info : Bool)
    (hv : validHeader (headerOf input)) :
    selectLoadInfo (headerOf input).pixelFormat = firstMatch (headerOf input).pixelFormat
      ∧ (∀ li, firstMatch (headerOf input).pixelFormat = some li →
          loadTexture input texture info
            = loadWith (headerOf input) li ((InputBlob.mk input 0).read 128).2 texture info)
      ∧ (firstMatch (headerOf input).pixelFormat = none →
          (loadTexture input texture info).handle = INVALID_TEXTURE
            ∧ uploadsOf (loadTexture input texture info).trace = [])
      ∧ ((isDXT1 (headerOf input).pixelFormat = true ↔
            (headerOf input).pixelFormat.dwFlags &&& 0x4 ≠ 0
              ∧ (headerOf input).pixelFormat.dwFourCC = 0x31545844)
        ∧ (isDXT3 (headerOf input).pixelFormat = true ↔
            (headerOf input).pixelFormat.dwFlags &&& 0x4 ≠ 0
              ∧ (headerOf input).pixelFormat.dwFourCC = 0x33545844)
        ∧ (isDXT5 (headerOf input).pixelFormat = true ↔
            (headerOf input).pixelFormat.dwFlags &&& 0x4 ≠ 0
              ∧ (headerOf input).pixelFormat.dwFourCC = 0x35545844)
        ∧ (isBGRA8 (headerOf input).pixelFormat = true ↔
            (headerOf input).pixelFormat.dwFlags &&& 0x40 ≠ 0
              ∧ (headerOf input).pixelFormat.dwFlags &&& 0x1 ≠ 0
              ∧ (headerOf input).pixelFormat.dwRGBBitCount = 32
              ∧ (headerOf input).pixelFormat.dwRBitMask = 0xff0000
              ∧ (headerOf input).pixelFormat.dwGBitMask = 0xff00
              ∧ (headerOf input).pixelFormat.dwBBitMask = 0xff
              ∧ (headerOf input).pixelFormat.dwAlphaBitMask = 0xff000000)
        ∧ (isBGR8 (headerOf input).pixelFormat = true →
            (headerOf input).pixelFormat.dwRGBBitCount = 24
              ∧ (headerOf input).pixelFormat.dwRBitMask = 0xff0000
              ∧ (headerOf input).pixelFormat.dwGBitMask = 0xff00
              ∧ (headerOf input).pixelFormat.dwBBitMask = 0xff)
        ∧ (isBGR5A1 (headerOf input).pixelFormat = true ↔
            (headerOf input).pixelFormat.dwFlags &&& 0x40 ≠ 0
              ∧ (headerOf input).pixelFormat.dwFlags &&& 0x1 ≠ 0
              ∧ (headerOf input).pixelFormat.dwRGBBitCount = 16
              ∧ (headerOf input).pixelFormat.dwRBitMask = 0x7c00
              ∧ (headerOf input).pixelFormat.dwGBitMask = 0x3e0
              ∧ (headerOf input).pixelFormat.dwBBitMask = 0x1f
              ∧ (headerOf input).pixelFormat.dwAlphaBitMask = 0x8000)
        ∧ (isBGR565 (headerOf input).pixelFormat = true ↔
            (headerOf input).pixelFormat.dwFlags &&& 0x40 ≠ 0
              ∧ (headerOf input).pixelFormat.dwFlags &&& 0x1 = 0
              ∧ (headerOf input).pixelFormat.dwRGBBitCount = 16
              ∧ (headerOf input).pixelFormat.dwRBitMask = 0xf800
              ∧ (headerOf input).pixelFormat.dwGBitMask = 0x7e0
              ∧ (headerOf input).pixelFormat.dwBBitMask = 0x1f)
        ∧ (isINDEX8 (headerOf input).pixelFormat = true ↔
            (headerOf input).pixelFormat.dwFlags &&& 0x20 ≠ 0
              ∧ (headerOf input).pixelFormat.dwRGBBitCount = 8)) := by
  refine ⟨selectLoadInfo_eq_firstMatch _, ?_, ?_, classifier_patterns _⟩
  · intro li hli
    rw [loadTexture_of_valid input texture info hv, selectLoadInfo_eq_firstMatch, hli]
  · intro hnone
    rw [loadTexture_of_valid input texture info hv, selectLoadInfo_eq_firstMatch, hnone]
    exact ⟨rfl, rfl⟩

/-- Witness of C2: the 8 by 8 DXT1 container. -/
theorem loadTexture_selects_first_match_witness :
    validHeader (headerOf (dxt1_8x8 32))
      ∧ firstMatch (headerOf (dxt1_8x8 32)).pixelFormat = some loadInfoDXT1
      ∧ loadTexture (dxt1_8x8 32) 1 true
        = loadWith (headerOf (dxt1_8x8 32)) loadInfoDXT1
            ((InputBlob.mk (dxt1_8x8 32) 0).read 128).2 1 true :=
  ⟨by decide, by decide,
    (loadTexture_selects_first_match (dxt1_8x8 32) 1 true (by decide)).2.1 loadInfoDXT1
      (by decide)⟩

theorem sizeDXTC_eq_blockBytes (w h : Nat) (li : LoadInfo)
    (hli : li = loadInfoDXT1 ∨ li = loadInfoDXT3 ∨ li = loadInfoDXT5) :
    sizeDXTC w h li.internalFormat
      = (((w + 3) % U32 / 4) * ((h + 3) % U32 / 4) * li.blockBytes) % U32 := by
  rcases hli with h | h | h <;> subst h <;>
    simp [sizeDXTC, loadInfoDXT1, loadInfoDXT3, loadInfoDXT5, GL_COMPRESSED_RGBA_S3TC_DXT1_EXT,
      GL_COMPRESSED_RGBA_S3TC_DXT3_EXT, GL_COMPRESSED_RGBA_S3TC_DXT5_EXT, Nat.mod_mul_mod]

theorem compressed_of_dxt (li : LoadInfo)
    (hli : li = loadInfoDXT1 ∨ li = loadInfoDXT3 ∨ li = loadInfoDXT5) : li.compressed = true := by
  rcases hli with h | h | h <;> subst h <;> rfl

/-- C3, counterexample: a valid DXT1 header of 131072 by 65536 texels with the linear-size
flag and `dwPitchOrLinearSize = 0`. The exact product `ceil(w/4) * ceil(h/4) * 8` is `2^32`,
which is not the declared `0`, yet the container is accepted and level 0 is uploaded. -/
theorem loadTexture_compressed_size_wraps :
    validHeader (headerOf (headerBytes DDS_MAGIC 124
        (DDSD_PIXELFORMAT ||| DDSD_CAPS ||| DDSD_LINEARSIZE) 65536 131072 0 0
        DDPF_FOURCC D3DFMT_DXT1 0 0 0 0 0))
      ∧ selectLoadInfo (headerOf (headerBytes DDS_MAGIC 124
        (DDSD_PIXELFORMAT ||| DDSD_CAPS ||| DDSD_LINEARSIZE) 65536 131072 0 0
        DDPF_FOURCC D3DFMT_DXT1 0 0 0 0 0)).pixelFormat = some loadInfoDXT1
      ∧ (headerOf (headerBytes DDS_MAGIC 124
        (DDSD_PIXELFORMAT ||| DDSD_CAPS ||| DDSD_LINEARSIZE) 65536 131072 0 0
        DDPF_FOURCC D3DFMT_DXT1 0 0 0 0 0)).dwPitchOrLinearSize
          ≠ ((131072 + 3) / 4) * ((65536 + 3) / 4) * 8
      ∧ (loadTexture (headerBytes DDS_MAGIC 124
        (DDSD_PIXELFORMAT ||| DDSD_CAPS ||| DDSD_LINEARSIZE) 65536 131072 0 0
        DDPF_FOURCC D3DFMT_DXT1 0 0 0 0 0) 1 false).handle = TextureHandle.mk 1
      ∧ uploadsOf (loadTexture (headerBytes DDS_MAGIC 124
        (DDSD_PIXELFORMAT ||| DDSD_CAPS ||| DDSD_LINEARSIZE) 65536 131072 0 0
        DDPF_FOURCC D3DFMT_DXT1 0 0 0 0 0) 1 false).trace = [⟨0, 131072, 65536, []⟩] := by
  decide

/-- C3, amended: for a validated header classified as DXT1, DXT3 or DXT5, if
`dwPitchOrLinearSize` differs from `((w+3)/4) * ((h+3)/4) * blockBytes` computed in `uint`
arithmetic (`w + 3`, `h + 3` and the product reduced modulo `2^32`), or the linear-size flag
is clear, `loadTexture` returns `INVALID_TEXTURE` with no upload call; and when
`w + 3`, `h + 3` and the exact product are below `2^32` the `uint` value is the exact
product `ceil(w/4) * ceil(h/4) * blockBytes`. -/
theorem loadTexture_compressed_size_mismatch (input : List Nat) (texture : Nat) (info : Bool)
    (li : LoadInfo) (hv : validHeader (headerOf input))
    (hsel : selectLoadInfo (headerOf input).pixelFormat = some li)
    (hli : li = loadInfoDXT1 ∨ li = loadInfoDXT3 ∨ li = loadInfoDXT5) :
    (((headerOf input).dwPitchOrLinearSize
          ≠ ((((headerOf input).dwWidth + 3) % U32 / 4)
              * (((headerOf input).dwHeight + 3) % U32 / 4) * li.blockBytes) % U32
        ∨ (headerOf input).dwFlags &&& DDSD_LINEARSIZE = 0) →
      (loadTexture input texture info).handle = INVALID_TEXTURE
        ∧ uploadsOf (loadTexture input texture info).trace = [])
    ∧ ((headerOf input).dwWidth + 3 < U32 → (headerOf input).dwHeight + 3 < U32 →
        (((headerOf input).dwWidth + 3) / 4) * (((headerOf input).dwHeight + 3) / 4)
          * li.blockBytes < U32 →
        ((((headerOf input).dwWidth + 3) % U32 / 4)
            * (((headerOf input).dwHeight + 3) % U32 / 4) * li.blockBytes) % U32
          = (((headerOf input).dwWidth + 3) / 4) * (((headerOf input).dwHeight + 3) / 4)
            * li.blockBytes) := by
  constructor
  · intro hbad
    rw [← sizeDXTC_eq_blockBytes _ _ li hli] at hbad
    have hrej : (loadTexture input texture info).handle = INVALID_TEXTURE := by
      rw [loadTexture_of_selected input texture info li hv hsel]
      rcases loadWith_path (headerOf input) li (InputBlob.mk input 128) texture info
        with ⟨_, hr⟩ | ⟨_, _, hr⟩ | ⟨_, _, hsize, hflag, _, _, _⟩ | ⟨_, hc, _, _, _, _, _, _, _⟩
          | ⟨_, hc, _, _, _, _⟩
      · rw [hr]; rfl
      · rw [hr]; rfl
      · rcases hbad with h | h
        · exact absurd hsize.symm h
        · exact absurd h hflag
      · rw [compressed_of_dxt li hli] at hc; cases hc
      · rw [compressed_of_dxt li hli] at hc; cases hc
    exact ⟨hrej, loadTexture_rejected_uploads input texture info hrej⟩
  · intro hw hh hp
    rw [Nat.mod_eq_of_lt hw, Nat.mod_eq_of_lt hh, Nat.mod_eq_of_lt hp]

/-- Witness of C3: DXT1, 8 by 8, `dwPitchOrLinearSize = 31` is rejected with no upload. -/
theorem loadTexture_compressed_size_mismatch_witness :
    validHeader (headerOf (dxt1_8x8 31))
      ∧ (headerOf (dxt1_8x8 31)).dwPitchOrLinearSize = 31
      ∧ (loadTexture (dxt1_8x8 31) 1 true).handle = INVALID_TEXTURE
      ∧ uploadsOf (loadTexture (dxt1_8x8 31) 1 true).trace = [] :=
  ⟨by decide, by decide,
    (loadTexture_compressed_size_mismatch (dxt1_8x8 31) 1 true loadInfoDXT1 (by decide)
      (by decide) (Or.inl rfl)).1 (Or.inl (by decide))⟩

/-- What an accepted call writes through a non-null `info`: the values of `width` and
`height` after the mip loop (the header's dimensions halved `mipMapCount` times), depth 1,
layers 1, the mip count, and not a cube map. -/
theorem loadTexture_info_accepted (input : List Nat) (texture : Nat)
    (hacc : (loadTexture input texture true).handle ≠ INVALID_TEXTURE) :
    (loadTexture input texture true).info
      = some ⟨mipDim (headerOf input).dwWidth (mipMapCountOf (headerOf input)),
          mipDim (headerOf input).dwHeight (mipMapCountOf (headerOf input)), 1, 1,
          mipMapCountOf (headerOf input), false⟩ := by
  by_cases hv : validHeader (headerOf input)
  · cases hsel : selectLoadInfo (headerOf input).pixelFormat with
    | none =>
      rw [loadTexture_of_unselected input texture true hv hsel] at hacc
      exact absurd rfl hacc
    | some li =>
      rw [loadTexture_of_selected input texture true li hv hsel] at hacc ⊢
      rcases loadWith_path (headerOf input) li (InputBlob.mk input 128) texture true with
        ⟨_, hr⟩ | ⟨_, _, hr⟩ | ⟨_, _, _, _, _, _, _, hi⟩ | ⟨_, _, _, _, _, _, _, _, _, hi⟩
          | ⟨_, _, _, _, _, _, hi⟩
      · rw [hr] at hacc; exact absurd rfl hacc
      · rw [hr] at hacc; exact absurd rfl hacc
      · simpa using hi
      · simpa using hi
      · simpa using hi
  · rw [loadTexture_of_invalid input texture true hv] at hacc
    exact absurd rfl hacc

/-- C4, the code: an accepted call with a non-null `info` writes the values left in
`width` and `height` by the mip loop, that is the header's dimensions halved `mipMapCount`
times (with depth 1, layers 1, `mips = mipMapCount`, not a cube map). At the spec's
scenario, the 8 by 8 DXT1 container with one level, the header holds width 8 and height 8,
the call is accepted and `info` receives width 4 and height 4. -/
theorem loadTexture_info_after_loop :
    (∀ (input : List Nat) (texture : Nat),
        (loadTexture input texture true).handle ≠ INVALID_TEXTURE →
        (loadTexture input texture true).info
          = some ⟨mipDim (headerOf input).dwWidth (mipMapCountOf (headerOf input)),
              mipDim (headerOf input).dwHeight (mipMapCountOf (headerOf input)), 1, 1,
              mipMapCountOf (headerOf input), false⟩)
      ∧ (headerOf (dxt1_8x8 32)).dwWidth = 8 ∧ (headerOf (dxt1_8x8 32)).dwHeight = 8
      ∧ (loadTexture (dxt1_8x8 32) 1 true).handle = TextureHandle.mk 1
      ∧ (loadTexture (dxt1_8x8 32) 1 true).info = some ⟨4, 4, 1, 1, 1, false⟩ :=
  ⟨loadTexture_info_accepted, by decide, by decide, by decide, by decide⟩

theorem bytesAt_length (input : List Nat) (off n : Nat) : (bytesAt input off n).length = n := by
  simp [bytesAt, InputBlob.read]

theorem levelSize_self (sz : Nat → Nat → Nat) (w h k : Nat) :
    levelSize sz (sz w h) w h k = sz (mipDim w k) (mipDim h k) := by
  cases k with
  | zero => rfl
  | succ k => simp [levelSize]

/-- C8, counterexample: the 4 by 4 paletted container has the pitch flag, 8 bits per pixel
and `pitch * height = width * height * 1`, yet `loadTexture` returns `INVALID_TEXTURE` when
`glGenTextures` hands out the name 0. -/
theorem loadTexture_index8_no_texture :
    validHeader (headerOf index8_4x4)
      ∧ selectLoadInfo (headerOf index8_4x4).pixelFormat = some loadInfoIndex8
      ∧ (headerOf index8_4x4).dwFlags &&& DDSD_PITCH ≠ 0
      ∧ (headerOf index8_4x4).pixelFormat.dwRGBBitCount = 8
      ∧ (headerOf index8_4x4).dwPitchOrLinearSize * (headerOf index8_4x4).dwHeight
          = (headerOf index8_4x4).dwWidth * (headerOf index8_4x4).dwHeight * 1
      ∧ (loadTexture index8_4x4 0 true).handle = INVALID_TEXTURE := by
  decide

/-- C8, amended: for a validated header classified as 8-bit indexed, `loadTexture` returns
`INVALID_TEXTURE` with no upload call if the pitch flag is clear, or bits-per-pixel is not
8, or `dwPitchOrLinearSize * height` differs from `width * height * blockBytes`
(`blockBytes = 1`, both products in `uint` arithmetic); otherwise the container is accepted
exactly when `glGenTextures` hands out a non-zero texture name, and rejected with no upload
call when it hands out 0. -/
theorem loadTexture_index8_validation (input : List Nat) (texture : Nat) (info : Bool)
    (hv : validHeader (headerOf input))
    (hsel : selectLoadInfo (headerOf input).pixelFormat = some loadInfoIndex8) :
    (((headerOf input).dwFlags &&& DDSD_PITCH = 0
          ∨ (headerOf input).pixelFormat.dwRGBBitCount ≠ 8
          ∨ ((headerOf input).dwPitchOrLinearSize * (headerOf input).dwHeight) % U32
              ≠ (((headerOf input).dwWidth * (headerOf input).dwHeight) % U32 * 1) % U32) →
        (loadTexture input texture info).handle = INVALID_TEXTURE
          ∧ uploadsOf (loadTexture input texture info).trace = [])
      ∧ (¬ ((headerOf input).dwFlags &&& DDSD_PITCH = 0
          ∨ (headerOf input).pixelFormat.dwRGBBitCount ≠ 8
          ∨ ((headerOf input).dwPitchOrLinearSize * (headerOf input).dwHeight) % U32
              ≠ (((headerOf input).dwWidth * (headerOf input).dwHeight) % U32 * 1) % U32) →
        (texture ≠ 0 → (loadTexture input texture info).handle = TextureHandle.mk texture)
          ∧ (texture = 0 → (loadTexture input texture info).handle = INVALID_TEXTURE
              ∧ uploadsOf (loadTexture input texture info).trace = [])) := by
  have hbb : ∀ w h, linearSize loadInfoIndex8.blockBytes w h = ((w * h) % U32 * 1) % U32 :=
    fun _ _ => rfl
  rw [loadTexture_of_selected input texture info _ hv hsel]
  rcases loadWith_path (headerOf input) loadInfoIndex8 (InputBlob.mk input 128) texture info
    with ⟨ht, hr⟩ | ⟨ht, hbad, hr⟩ | ⟨_, hc, _, _, _, _, _⟩
      | ⟨ht, _, _, hflag, hbits, hsize, hh, _, _⟩ | ⟨_, _, hp, _, _, _⟩
  · rw [hr]
    exact ⟨fun _ => ⟨rfl, rfl⟩, fun _ => ⟨fun h => absurd ht h, fun _ => ⟨rfl, rfl⟩⟩⟩
  · rw [hr]
    refine ⟨fun _ => ⟨rfl, rfl⟩, fun hgood => absurd ?_ hgood⟩
    rcases hbad with ⟨hc, _⟩ | ⟨_, _, hb⟩
    · cases hc
    · rw [hbb] at hb; exact hb
  · cases hc
  · rw [hbb] at hsize
    refine ⟨fun hbad => ?_, fun _ => ⟨fun _ => hh, fun h => absurd h ht⟩⟩
    rcases hbad with h | h | h
    · exact absurd h hflag
    · exact absurd hbits h
    · exact absurd hsize h
  · cases hp

/-- Witness of C8: the 4 by 4 paletted container is accepted with texture name 1, and the
same header with the pitch flag clear is rejected with no upload. -/
theorem loadTexture_index8_validation_witness :
    (loadTexture index8_4x4 1 true).handle = TextureHandle.mk 1
      ∧ (loadTexture (headerBytes DDS_MAGIC 124 (DDSD_PIXELFORMAT ||| DDSD_CAPS) 4 4 4 0
          DDPF_INDEXED 0 8 0 0 0 0) 1 true).handle = INVALID_TEXTURE
      ∧ uploadsOf (loadTexture (headerBytes DDS_MAGIC 124 (DDSD_PIXELFORMAT ||| DDSD_CAPS) 4 4 4 0
          DDPF_INDEXED 0 8 0 0 0 0) 1 true).trace = [] :=
  ⟨((loadTexture_index8_validation index8_4x4 1 true (by decide) (by decide)).2
      (by decide)).1 (by decide),
    (loadTexture_index8_validation (headerBytes DDS_MAGIC 124 (DDSD_PIXELFORMAT ||| DDSD_CAPS)
      4 4 4 0 DDPF_INDEXED 0 8 0 0 0 0) 1 true (by decide) (by decide)).1
      (Or.inl (by decide))⟩

/-- The number of error-report calls of `loadTexture`: one when the header check fails,
none on every other path. -/
theorem loadTexture_logCount (input : List Nat) (texture : Nat) (info : Bool) :
    logCount (loadTexture input texture info).trace
      = if validHeader (headerOf input) then 0 else 1 := by
  by_cases hv : validHeader (headerOf input)
  · rw [if_pos hv]
    cases hsel : selectLoadInfo (headerOf input).pixelFormat with
    | none => rw [loadTexture_of_unselected input texture info hv hsel]; rfl
    | some li =>
      rw [loadTexture_of_selected input texture info li hv hsel]
      rcases loadWith_path (headerOf input) li (InputBlob.mk input 128) texture info with
        ⟨_, hr⟩ | ⟨_, _, hr⟩ | ⟨_, _, _, _, _, hl, _, _⟩ | ⟨_, _, _, _, _, _, _, hl, _, _⟩
          | ⟨_, _, _, _, hl, _, _⟩
      · rw [hr]; rfl
      · rw [hr]; rfl
      · exact hl
      · exact hl
      · exact hl
  · rw [if_neg hv, loadTexture_of_invalid input texture info hv]; rfl

/-- C9, the code: `loadTexture` makes one error-report call when the header check fails
and none on any other path. So a bad header is rejected with one log call, but a valid
header with an unrecognized pixel format, a DXT1 container whose declared size is 31, and a
paletted container without the pitch flag are each rejected with no log call. -/
theorem loadTexture_rejections_logged :
    (∀ (input : List Nat) (texture : Nat) (info : Bool),
        logCount (loadTexture input texture info).trace
          = if validHeader (headerOf input) then 0 else 1)
      ∧ ((loadTexture [] 1 true).handle = INVALID_TEXTURE
        ∧ logCount (loadTexture [] 1 true).trace = 1)
      ∧ (validHeader (headerOf unknownFormat)
        ∧ (loadTexture unknownFormat 1 true).handle = INVALID_TEXTURE
        ∧ logCount (loadTexture unknownFormat 1 true).trace = 0)
      ∧ (validHeader (headerOf (dxt1_8x8 31))
        ∧ (loadTexture (dxt1_8x8 31) 1 true).handle = INVALID_TEXTURE
        ∧ logCount (loadTexture (dxt1_8x8 31) 1 true).trace = 0)
      ∧ (validHeader (headerOf (headerBytes DDS_MAGIC 124 (DDSD_PIXELFORMAT ||| DDSD_CAPS)
          4 4 4 0 DDPF_INDEXED 0 8 0 0 0 0))
        ∧ (loadTexture (headerBytes DDS_MAGIC 124 (DDSD_PIXELFORMAT ||| DDSD_CAPS) 4 4 4 0
          DDPF_INDEXED 0 8 0 0 0 0) 1 true).handle = INVALID_TEXTURE
        ∧ logCount (loadTexture (headerBytes DDS_MAGIC 124 (DDSD_PIXELFORMAT ||| DDSD_CAPS)
          4 4 4 0 DDPF_INDEXED 0 8 0 0 0 0) 1 true).trace = 0) :=
  ⟨loadTexture_logCount, by decide⟩

/-! ### The classifier, the size formula and the uploaded slices -/

theorem isBGR8_false (pf : PixelFormat) : isBGR8 pf = false := by
  unfold isBGR8
  cases (pf.dwFlags &&& DDPF_ALPHAPIXELS != 0) <;> simp

theorem selectLoadInfo_of_24bpp (pf : PixelFormat) (h : pf.dwRGBBitCount = 24) :
    selectLoadInfo pf
      = if isDXT1 pf then some loadInfoDXT1
        else if isDXT3 pf then some loadInfoDXT3
        else if isDXT5 pf then some loadInfoDXT5
        else none := by
  have h1 : isBGRA8 pf = false := by simp [isBGRA8, h]
  have h2 : isBGR5A1 pf = false := by simp [isBGR5A1, h]
  have h3 : isBGR565 pf = false := by simp [isBGR565, h]
  have h4 : isINDEX8 pf = false := by simp [isINDEX8, h]
  simp [selectLoadInfo, h1, h2, h3, h4, isBGR8_false]

/-- C17, counterexample: a descriptor with 24 bits per pixel and the masks ff0000/ff00/ff
that carries the FOURCC flag and the DXT1 tag is classified as DXT1, by a branch before
the isBGR8 test: it is neither rejected nor classified by a later branch. -/
theorem bgr8_descriptor_classified_dxt1 :
    taggedBGR8.dwRGBBitCount = 24 ∧ taggedBGR8.dwRBitMask = 0xff0000
      ∧ taggedBGR8.dwGBitMask = 0xff00 ∧ taggedBGR8.dwBBitMask = 0xff
      ∧ selectLoadInfo taggedBGR8 = some loadInfoDXT1
      ∧ selectLoadInfo taggedBGR8 ≠ none
      ∧ selectLoadInfo taggedBGR8 ≠ some loadInfoBGR5A1
      ∧ selectLoadInfo taggedBGR8 ≠ some loadInfoBGR565
      ∧ selectLoadInfo taggedBGR8 ≠ some loadInfoIndex8 := by
  decide

theorem isDXT1_iff (pf : PixelFormat) :
    isDXT1 pf = true ↔ pf.dwFlags &&& DDPF_FOURCC ≠ 0 ∧ pf.dwFourCC = D3DFMT_DXT1 := by
  simp [isDXT1]

theorem isDXT3_iff (pf : PixelFormat) :
    isDXT3 pf = true ↔ pf.dwFlags &&& DDPF_FOURCC ≠ 0 ∧ pf.dwFourCC = D3DFMT_DXT3 := by
  simp [isDXT3]

theorem isDXT5_iff (pf : PixelFormat) :
    isDXT5 pf = true ↔ pf.dwFlags &&& DDPF_FOURCC ≠ 0 ∧ pf.dwFourCC = D3DFMT_DXT5 := by
  simp [isDXT5]

/-- What the chain of `loadTexture` makes of a descriptor with 24 bits per pixel, in terms
of its flags and its tag. -/
theorem selectLoadInfo_of_24bpp_tag (pf : PixelFormat) (h : pf.dwRGBBitCount = 24) :
    selectLoadInfo pf
      = if pf.dwFlags &&& DDPF_FOURCC ≠ 0 ∧ pf.dwFourCC = D3DFMT_DXT1 then some loadInfoDXT1
        else if pf.dwFlags &&& DDPF_FOURCC ≠ 0 ∧ pf.dwFourCC = D3DFMT_DXT3 then
          some loadInfoDXT3
        else if pf.dwFlags &&& DDPF_FOURCC ≠ 0 ∧ pf.dwFourCC = D3DFMT_DXT5 then
          some loadInfoDXT5
        else none := by
  rw [selectLoadInfo_of_24bpp pf h]
  by_cases h1 : isDXT1 pf = true
  · rw [if_pos h1, if_pos ((isDXT1_iff pf).mp h1)]
  by_cases h3 : isDXT3 pf = true
  · rw [if_neg h1, if_pos h3, if_neg (fun hx => h1 ((isDXT1_iff pf).mpr hx)),
      if_pos ((isDXT3_iff pf).mp h3)]
  by_cases h5 : isDXT5 pf = true
  · rw [if_neg h1, if_neg h3, if_pos h5, if_neg (fun hx => h1 ((isDXT1_iff pf).mpr hx)),
      if_neg (fun hx => h3 ((isDXT3_iff pf).mpr hx)), if_pos ((isDXT5_iff pf).mp h5)]
  · rw [if_neg h1, if_neg h3, if_neg h5, if_neg (fun hx => h1 ((isDXT1_iff pf).mpr hx)),
      if_neg (fun hx => h3 ((isDXT3_iff pf).mpr hx)),
      if_neg (fun hx => h5 ((isDXT5_iff pf).mpr hx))]

/-- C17, amended: isBGR8 is false for every descriptor, so the chain of `loadTexture` never
selects `loadInfoBGR8`; a descriptor with 24 bits per pixel and the masks ff0000/ff00/ff is
classified as DXT1, DXT3 or DXT5 when it carries the FOURCC flag with that tag (branches
before the isBGR8 test) and is rejected otherwise; neither the 32-bit branch nor a later
branch (BGR5A1, BGR565, INDEX8) takes it. -/
theorem isBGR8_never_selected (pf : PixelFormat) :
    isBGR8 pf = false
      ∧ selectLoadInfo pf ≠ some loadInfoBGR8
      ∧ (pf.dwRGBBitCount = 24 → pf.dwRBitMask = 0xff0000 → pf.dwGBitMask = 0xff00 →
          pf.dwBBitMask = 0xff →
          selectLoadInfo pf
              = (if pf.dwFlags &&& DDPF_FOURCC ≠ 0 ∧ pf.dwFourCC = D3DFMT_DXT1 then
                  some loadInfoDXT1
                else if pf.dwFlags &&& DDPF_FOURCC ≠ 0 ∧ pf.dwFourCC = D3DFMT_DXT3 then
                  some loadInfoDXT3
                else if pf.dwFlags &&& DDPF_FOURCC ≠ 0 ∧ pf.dwFourCC = D3DFMT_DXT5 then
                  some loadInfoDXT5
                else none)
            ∧ selectLoadInfo pf ≠ some loadInfoBGRA8
            ∧ selectLoadInfo pf ≠ some loadInfoBGR5A1
            ∧ selectLoadInfo pf ≠ some loadInfoBGR565
            ∧ selectLoadInfo pf ≠ some loadInfoIndex8) := by
  refine ⟨isBGR8_false pf, ?_, ?_⟩
  · unfold selectLoadInfo
    rw [isBGR8_false]
    cases isDXT1 pf <;> cases isDXT3 pf <;> cases isDXT5 pf <;> cases isBGRA8 pf <;>
      cases isBGR5A1 pf <;> cases isBGR565 pf <;> cases isINDEX8 pf <;> decide
  · intro h24 _ _ _
    refine ⟨selectLoadInfo_of_24bpp_tag pf h24, ?_⟩
    rw [selectLoadInfo_of_24bpp pf h24]
    cases isDXT1 pf <;> cases isDXT3 pf <;> cases isDXT5 pf <;> decide

/-- Witness of C17: the 24-bit BGR descriptor with the RGB flag only is rejected, and the
one with the FOURCC flag and the DXT1 tag is classified as DXT1. -/
theorem isBGR8_never_selected_witness :
    selectLoadInfo ⟨32, 0x40, 0, 24, 0xff0000, 0xff00, 0xff, 0⟩ = none
      ∧ selectLoadInfo taggedBGR8 = some loadInfoDXT1 :=
  ⟨((isBGR8_never_selected ⟨32, 0x40, 0, 24, 0xff0000, 0xff00, 0xff, 0⟩).2.2 rfl rfl rfl
      rfl).1.trans (by decide),
    ((isBGR8_never_selected taggedBGR8).2.2 rfl rfl rfl rfl).1.trans (by decide)⟩

/-- C18, counterexample: a descriptor with the FOURCC and INDEXED flags, the DXT1 tag and
8 bits per pixel satisfies both isDXT1 and isINDEX8. -/
theorem isDXT1_and_isINDEX8 :
    isDXT1 taggedIndex8 = true ∧ isINDEX8 taggedIndex8 = true := by
  decide

/-- C18, amended: no descriptor satisfies more than one of isDXT1, isDXT3, isDXT5, and no
descriptor satisfies more than one of isBGRA8, isBGR8, isBGR5A1, isBGR565, isINDEX8; so at
most two of the eight hold, one of each group, and some descriptor does satisfy one of
each group. Whenever a tag pattern holds, the chain of `loadTexture` takes it, whatever
mask pattern holds as well. -/
theorem classifier_groups_exclusive (pf : PixelFormat) :
    List.count true [isDXT1 pf, isDXT3 pf, isDXT5 pf] ≤ 1
      ∧ List.count true [isBGRA8 pf, isBGR8 pf, isBGR5A1 pf, isBGR565 pf, isINDEX8 pf] ≤ 1
      ∧ List.count true [isDXT1 pf, isDXT3 pf, isDXT5 pf, isBGRA8 pf, isBGR8 pf, isBGR5A1 pf,
          isBGR565 pf, isINDEX8 pf] ≤ 2
      ∧ (∃ q, isDXT1 q = true ∧ isINDEX8 q = true ∧ selectLoadInfo q = some loadInfoDXT1)
      ∧ (isDXT1 pf = true → selectLoadInfo pf = some loadInfoDXT1)
      ∧ (isDXT3 pf = true → selectLoadInfo pf = some loadInfoDXT3)
      ∧ (isDXT5 pf = true → selectLoadInfo pf = some loadInfoDXT5) := by
  have t13 : isDXT1 pf = true → isDXT3 pf = false := by
    simp only [isDXT1, isDXT3, D3DFMT_DXT1, D3DFMT_DXT3, Bool.and_eq_true, beq_iff_eq,
      Bool.and_eq_false_imp]
    rintro ⟨_, h⟩ _
    rw [h]; decide
  have t15 : isDXT1 pf = true → isDXT5 pf = false := by
    simp only [isDXT1, isDXT5, D3DFMT_DXT1, D3DFMT_DXT5, Bool.and_eq_true, beq_iff_eq,
      Bool.and_eq_false_imp]
    rintro ⟨_, h⟩ _
    rw [h]; decide
  have t35 : isDXT3 pf = true → isDXT5 pf = false := by
    simp only [isDXT3, isDXT5, D3DFMT_DXT3, D3DFMT_DXT5, Bool.and_eq_true, beq_iff_eq,
      Bool.and_eq_false_imp]
    rintro ⟨_, h⟩ _
    rw [h]; decide
  have b32 : isBGRA8 pf = true → pf.dwRGBBitCount = 32 := by
    simp only [isBGRA8, Bool.and_eq_true, beq_iff_eq]; tauto
  have b16a : isBGR5A1 pf = true → pf.dwRGBBitCount = 16 ∧ pf.dwRBitMask = 0x7c00 := by
    simp only [isBGR5A1, Bool.and_eq_true, beq_iff_eq]; tauto
  have b16 : isBGR565 pf = true → pf.dwRGBBitCount = 16 ∧ pf.dwRBitMask = 0xf800 := by
    simp only [isBGR565, Bool.and_eq_true, beq_iff_eq]; tauto
  have b8 : isINDEX8 pf = true → pf.dwRGBBitCount = 8 := by
    simp only [isINDEX8, Bool.and_eq_true, beq_iff_eq]; tauto
  have hb := isBGR8_false pf
  have counts : List.count true [isDXT1 pf, isDXT3 pf, isDXT5 pf] ≤ 1
      ∧ List.count true [isBGRA8 pf, isBGR8 pf, isBGR5A1 pf, isBGR565 pf, isINDEX8 pf] ≤ 1
      ∧ List.count true [isDXT1 pf, isDXT3 pf, isDXT5 pf, isBGRA8 pf, isBGR8 pf, isBGR5A1 pf,
          isBGR565 pf, isINDEX8 pf] ≤ 2 := by
    rw [hb]
    cases h1 : isDXT1 pf <;> cases h3 : isDXT3 pf <;> cases h5 : isDXT5 pf <;>
      cases ha : isBGRA8 pf <;> cases h5a : isBGR5A1 pf <;> cases h565 : isBGR565 pf <;>
      cases hi : isINDEX8 pf <;>
      first
        | decide
        | (exfalso; simp_all)
  have hsel1 : isDXT1 pf = true → selectLoadInfo pf = some loadInfoDXT1 := by
    intro h; simp [selectLoadInfo, h]
  have hsel3 : isDXT3 pf = true → selectLoadInfo pf = some loadInfoDXT3 := by
    intro h
    have h1 : isDXT1 pf = false := by
      cases h' : isDXT1 pf
      · rfl
      · rw [t13 h'] at h; cases h
    simp [selectLoadInfo, h, h1]
  have hsel5 : isDXT5 pf = true → selectLoadInfo pf = some loadInfoDXT5 := by
    intro h
    have h1 : isDXT1 pf = false := by
      cases h' : isDXT1 pf
      · rfl
      · rw [t15 h'] at h; cases h
    have h3 : isDXT3 pf = false := by
      cases h' : isDXT3 pf
      · rfl
      · rw [t35 h'] at h; cases h
    simp [selectLoadInfo, h, h1, h3]
  exact ⟨counts.1, counts.2.1, counts.2.2, ⟨taggedIndex8, by decide, by decide, by decide⟩,
    hsel1, hsel3, hsel5⟩

/-- C19: for `w + 3 < 2^32` and `h + 3 < 2^32`, `sizeDXTC w h format` is
`ceil(w/4) * ceil(h/4) * B` modulo `2^32`, with `B = 8` for the DXT1 format and 16
otherwise (`(w + 3) / 4` is `w / 4` rounded up); and `B` of the internal format of each
compressed load-info entry is its `blockBytes`: 8 for DXT1, 16 for DXT3 and DXT5. -/
theorem sizeDXTC_formula (w h format : Nat) (hw : w + 3 < U32) (hh : h + 3 < U32) :
    sizeDXTC w h format
        = (((w + 3) / 4) * ((h + 3) / 4)
            * (if format = GL_COMPRESSED_RGBA_S3TC_DXT1_EXT then 8 else 16)) % U32
      ∧ (w + 3) / 4 = w / 4 + (if w % 4 = 0 then 0 else 1)
      ∧ (h + 3) / 4 = h / 4 + (if h % 4 = 0 then 0 else 1)
      ∧ (loadInfoDXT1.blockBytes = 8
          ∧ (if loadInfoDXT1.internalFormat = GL_COMPRESSED_RGBA_S3TC_DXT1_EXT then 8 else 16)
            = loadInfoDXT1.blockBytes)
      ∧ (loadInfoDXT3.blockBytes = 16
          ∧ (if loadInfoDXT3.internalFormat = GL_COMPRESSED_RGBA_S3TC_DXT1_EXT then 8 else 16)
            = loadInfoDXT3.blockBytes)
      ∧ (loadInfoDXT5.blockBytes = 16
          ∧ (if loadInfoDXT5.internalFormat = GL_COMPRESSED_RGBA_S3TC_DXT1_EXT then 8 else 16)
            = loadInfoDXT5.blockBytes) := by
  refine ⟨?_, ?_, ?_, by decide, by decide, by decide⟩
  · unfold sizeDXTC
    rw [Nat.mod_eq_of_lt hw, Nat.mod_eq_of_lt hh, Nat.mod_mul_mod]
  · split <;> omega
  · split <;> omega

/-- Witness of C19: 8 by 8 texels in DXT1 take 32 bytes, 9 by 5 texels in DXT5 take 96. -/
theorem sizeDXTC_formula_witness :
    sizeDXTC 8 8 GL_COMPRESSED_RGBA_S3TC_DXT1_EXT = 32
      ∧ sizeDXTC 9 5 GL_COMPRESSED_RGBA_S3TC_DXT5_EXT = 96 :=
  ⟨(sizeDXTC_formula 8 8 GL_COMPRESSED_RGBA_S3TC_DXT1_EXT (by decide) (by decide)).1,
    (sizeDXTC_formula 9 5 GL_COMPRESSED_RGBA_S3TC_DXT5_EXT (by decide) (by decide)).1⟩

theorem mipDim_bounds (x k : Nat) (hx : 1 ≤ x) : 1 ≤ mipDim x k ∧ mipDim x k ≤ x := by
  rw [mipDim_eq x k hx]
  have := Nat.div_le_self x (2 ^ k)
  omega

/-- When the dimensions are at least 1 and the exact byte count of level 0 is below `2^32`,
the byte count read for level `k` is the exact byte count of that level, which is at most
that of level 0. -/
theorem levelBytes_eq_exactBytes (li : LoadInfo) (w h k : Nat) (hw : 1 ≤ w) (hh : 1 ≤ h)
    (hw3 : w + 3 < U32) (hh3 : h + 3 < U32) (hx : exactBytes li w h < U32) :
    levelBytes li w h k = exactBytes li (mipDim w k) (mipDim h k)
      ∧ exactBytes li (mipDim w k) (mipDim h k) ≤ exactBytes li w h := by
  obtain ⟨hw1, hwk⟩ := mipDim_bounds w k hw
  obtain ⟨hh1, hhk⟩ := mipDim_bounds h k hh
  have hle : exactBytes li (mipDim w k) (mipDim h k) ≤ exactBytes li w h := by
    unfold exactBytes
    split
    · exact Nat.mul_le_mul_right _ (Nat.mul_le_mul
        (Nat.div_le_div_right (by omega)) (Nat.div_le_div_right (by omega)))
    · exact Nat.mul_le_mul_right _ (Nat.mul_le_mul hwk hhk)
  refine ⟨?_, hle⟩
  have hlt : exactBytes li (mipDim w k) (mipDim h k) < U32 := lt_of_le_of_lt hle hx
  unfold levelBytes
  unfold exactBytes at hlt ⊢
  by_cases hc : li.compressed = true
  · rw [if_pos hc] at hlt ⊢
    rw [if_pos hc]
    unfold sizeDXTC
    rw [Nat.mod_eq_of_lt (by omega : mipDim w k + 3 < U32),
      Nat.mod_eq_of_lt (by omega : mipDim h k + 3 < U32), Nat.mod_mul_mod,
      Nat.mod_eq_of_lt hlt]
  · rw [if_neg hc] at hlt ⊢
    rw [if_neg hc]
    unfold linearSize
    rw [Nat.mod_mul_mod, Nat.mod_eq_of_lt hlt]

/-- The `k`-th upload of an accepted container carries `levelBytes` bytes: the value of the
local `size` when level `k` is read, in all three branches. -/
theorem loadTexture_level_bytes (input : List Nat) (texture : Nat) (info : Bool)
    (li : LoadInfo) (k : Nat)
    (hv : validHeader (headerOf input))
    (hsel : selectLoadInfo (headerOf input).pixelFormat = some li)
    (hacc : (loadTexture input texture info).handle ≠ INVALID_TEXTURE)
    (hk : k < mipMapCountOf (headerOf input)) :
    ∃ u, (uploadsOf (loadTexture input texture info).trace)[k]? = some u
      ∧ u.level = k
      ∧ u.pixels.length = levelBytes li (headerOf input).dwWidth (headerOf input).dwHeight k := by
  rw [loadTexture_of_selected input texture info li hv hsel] at hacc ⊢
  rcases loadWith_path (headerOf input) li (InputBlob.mk input 128) texture info with
    ⟨_, hr⟩ | ⟨_, _, hr⟩ | ⟨_, hc, _, _, _, _, hu, _⟩ | ⟨_, hc, hp, _, _, hsize, _, _, hu, _⟩
      | ⟨_, hc, _, _, _, hu, _⟩
  · rw [hr] at hacc; exact absurd rfl hacc
  · rw [hr] at hacc; exact absurd rfl hacc
  · rw [hu]
    refine ⟨_, mipUploads_getElem? _ _ _ _ _ _ _ _ _ hk, rfl, ?_⟩
    simp only [levelSize_self (fun w h => sizeDXTC w h li.internalFormat), id,
      bytesAt_length, levelBytes, hc, if_true]
  · rw [hu, hsize]
    refine ⟨_, mipUploads_getElem? _ _ _ _ _ _ _ _ _ hk, rfl, ?_⟩
    simp only [levelSize_self, List.length_map, bytesAt_length, levelBytes, hc]
    simp
  · rw [hu]
    refine ⟨_, mipUploads_getElem? _ _ _ _ _ _ _ _ _ hk, rfl, ?_⟩
    simp only [levelSize_self, id, bytesAt_length, levelBytes, hc]
    simp

/-- An accepted direct container: a valid header whose format is neither compressed nor
paletted is accepted whenever a texture name is handed out. -/
theorem loadTexture_direct_accepted (input : List Nat) (texture : Nat) (info : Bool)
    (li : LoadInfo) (hv : validHeader (headerOf input))
    (hsel : selectLoadInfo (headerOf input).pixelFormat = some li)
    (hc : li.compressed = false) (hp : li.palette = false) (ht : texture ≠ 0) :
    (loadTexture input texture info).handle = TextureHandle.mk texture := by
  rw [loadTexture_of_selected input texture info li hv hsel]
  rcases loadWith_path (headerOf input) li (InputBlob.mk input 128) texture info with
    ⟨ht0, _⟩ | ⟨_, hbad, _⟩ | ⟨_, hc1, _, _, hh, _, _, _⟩
      | ⟨_, _, hp1, _, _, _, hh, _, _, _⟩ | ⟨_, _, _, hh, _, _, _⟩
  · exact absurd ht0 ht
  · rcases hbad with ⟨h, _⟩ | ⟨_, h, _⟩
    · rw [hc] at h; cases h
    · rw [hp] at h; cases h
  · rw [hc] at hc1; cases hc1
  · rw [hp] at hp1; cases hp1
  · exact hh

theorem bgra8_65536_sizes :
    ∃ u0 u2, (uploadsOf (loadTexture bgra8_65536 1 false).trace)[0]? = some u0
      ∧ (uploadsOf (loadTexture bgra8_65536 1 false).trace)[2]? = some u2
      ∧ u0.pixels.length = 0 ∧ u2.pixels.length = 1073741824 := by
  have hv : validHeader (headerOf bgra8_65536) := by decide
  have hsel : selectLoadInfo (headerOf bgra8_65536).pixelFormat = some loadInfoBGRA8 := by
    decide
  have hh : (loadTexture bgra8_65536 1 false).handle = TextureHandle.mk 1 :=
    loadTexture_direct_accepted bgra8_65536 1 false loadInfoBGRA8 hv hsel rfl rfl (by decide)
  have hacc : (loadTexture bgra8_65536 1 false).handle ≠ INVALID_TEXTURE := by
    rw [hh]; decide
  have hm : mipMapCountOf (headerOf bgra8_65536) = 3 := by decide
  obtain ⟨u0, h0, _, hl0⟩ := loadTexture_level_bytes bgra8_65536 1 false loadInfoBGRA8 0 hv hsel
    hacc (by rw [hm]; decide)
  obtain ⟨u2, h2, _, hl2⟩ := loadTexture_level_bytes bgra8_65536 1 false loadInfoBGRA8 2 hv hsel
    hacc (by rw [hm]; decide)
  have e0 : levelBytes loadInfoBGRA8 (headerOf bgra8_65536).dwWidth
      (headerOf bgra8_65536).dwHeight 0 = 0 := by decide
  have e2 : levelBytes loadInfoBGRA8 (headerOf bgra8_65536).dwWidth
      (headerOf bgra8_65536).dwHeight 2 = 1073741824 := by decide
  exact ⟨u0, u2, h0, h2, hl0.trans e0, hl2.trans e2⟩

theorem loadTexture_sizes_bounded (input : List Nat) (texture : Nat) (info : Bool)
    (li : LoadInfo) (k : Nat)
    (hv : validHeader (headerOf input))
    (hsel : selectLoadInfo (headerOf input).pixelFormat = some li)
    (hacc : (loadTexture input texture info).handle ≠ INVALID_TEXTURE)
    (hw : 1 ≤ (headerOf input).dwWidth) (hh : 1 ≤ (headerOf input).dwHeight)
    (hw3 : (headerOf input).dwWidth + 3 < U32) (hh3 : (headerOf input).dwHeight + 3 < U32)
    (hx : exactBytes li (headerOf input).dwWidth (headerOf input).dwHeight < U32)
    (hk : k < mipMapCountOf (headerOf input)) :
    ∃ u0 uk, (uploadsOf (loadTexture input texture info).trace)[0]? = some u0
      ∧ (uploadsOf (loadTexture input texture info).trace)[k]? = some uk
      ∧ uk.pixels.length ≤ u0.pixels.length := by
  obtain ⟨u0, h0, _, hl0⟩ := loadTexture_level_bytes input texture info li 0 hv hsel hacc
    (by omega)
  obtain ⟨uk, h1, _, hlk⟩ := loadTexture_level_bytes input texture info li k hv hsel hacc hk
  refine ⟨u0, uk, h0, h1, ?_⟩
  have a0 := levelBytes_eq_exactBytes li _ _ 0 hw hh hw3 hh3 hx
  have ak := levelBytes_eq_exactBytes li _ _ k hw hh hw3 hh3 hx
  rw [hl0, hlk, a0.1, ak.1]
  exact ak.2

/-- C22, the code: for an accepted container whose width and height are at least 1 and
whose exact level-0 byte count is below `2^32`, no level is read with more bytes than
level 0. With width 0 the byte count of level 0 is 0 and level 1 is read with 8 bytes (DXT1,
32-bit BGRA) or 2 bytes (paletted); and for 65536 by 65536 texels of 32-bit BGRA the counts
of levels 0 and 1 wrap to 0 while level 2 is read with `2^30` bytes. -/
theorem loadTexture_level_sizes :
    (∀ (input : List Nat) (texture : Nat) (info : Bool) (li : LoadInfo) (k : Nat),
        validHeader (headerOf input) →
        selectLoadInfo (headerOf input).pixelFormat = some li →
        (loadTexture input texture info).handle ≠ INVALID_TEXTURE →
        1 ≤ (headerOf input).dwWidth → 1 ≤ (headerOf input).dwHeight →
        (headerOf input).dwWidth + 3 < U32 → (headerOf input).dwHeight + 3 < U32 →
        exactBytes li (headerOf input).dwWidth (headerOf input).dwHeight < U32 →
        k < mipMapCountOf (headerOf input) →
        ∃ u0 uk, (uploadsOf (loadTexture input texture info).trace)[0]? = some u0
          ∧ (uploadsOf (loadTexture input texture info).trace)[k]? = some uk
          ∧ uk.pixels.length ≤ u0.pixels.length)
      ∧ (loadTexture dxt1_0x4 1 false).handle = TextureHandle.mk 1
      ∧ uploadSizes (loadTexture dxt1_0x4 1 false).trace = [(0, 0, 4, 0), (1, 1, 2, 8)]
      ∧ (loadTexture index8_0x4 1 false).handle = TextureHandle.mk 1
      ∧ uploadSizes (loadTexture index8_0x4 1 false).trace = [(0, 0, 4, 0), (1, 1, 2, 2)]
      ∧ (loadTexture bgra8_0x4 1 false).handle = TextureHandle.mk 1
      ∧ uploadSizes (loadTexture bgra8_0x4 1 false).trace = [(0, 0, 4, 0), (1, 1, 2, 8)]
      ∧ (∃ u0 u2, (uploadsOf (loadTexture bgra8_65536 1 false).trace)[0]? = some u0
          ∧ (uploadsOf (loadTexture bgra8_65536 1 false).trace)[2]? = some u2
          ∧ u0.pixels.length = 0 ∧ u2.pixels.length = 1073741824) :=
  ⟨loadTexture_sizes_bounded, by decide, by decide, by decide, by decide, by decide, by decide,
    bgra8_65536_sizes⟩

end ffr

end Lumix
namespace Lumix

namespace DDS

/-! ### Memory lemmas -/

theorem writeBytes_length (mem : List Nat) (off : Nat) (bs : List Nat) :
    (writeBytes mem off bs).length = mem.length := by
  induction bs generalizing mem off with
  | nil => rfl
  | cons b bs ih => simp [writeBytes, ih]

theorem getD_set (mem : List Nat) (off b j : Nat) (h : off < mem.length) :
    (mem.set off b).getD j 0 = if j = off then b else mem.getD j 0 := by
  simp only [List.getD_eq_getElem?_getD, List.getElem?_set]
  by_cases hj : off = j
  · subst hj; simp [h]
  · have : ¬ j = off := fun h => hj h.symm
    simp [hj, this]

theorem writeBytes_getD (mem : List Nat) (off : Nat) (bs : List Nat) (j : Nat)
    (h : off + bs.length ≤ mem.length) :
    (writeBytes mem off bs).getD j 0
      = if off ≤ j ∧ j < off + bs.length then bs.getD (j - off) 0 else mem.getD j 0 := by
  induction bs generalizing mem off with
  | nil =>
    have hn : ¬ (off ≤ j ∧ j < off + ([] : List Nat).length) := by
      simp only [List.length_nil]; omega
    rw [writeBytes, if_neg hn]
  | cons b bs ih =>
    simp only [List.length_cons] at h
    have hlen : (mem.set off b).length = mem.length := by simp
    rw [writeBytes, ih (mem.set off b) (off + 1) (by rw [hlen]; omega),
      getD_set mem off b j (by omega)]
    by_cases h1 : off + 1 ≤ j ∧ j < off + 1 + bs.length
    · have h2 : off ≤ j ∧ j < off + (b :: bs).length := by
        simp only [List.length_cons]; omega
      rw [if_pos h1, if_pos h2]
      have : j - off = (j - (off + 1)) + 1 := by omega
      rw [this, List.getD_cons_succ]
    · rw [if_neg h1]
      by_cases h3 : j = off
      · subst h3
        simp
      · have h2 : ¬ (off ≤ j ∧ j < off + (b :: bs).length) := by
          simp only [List.length_cons]; omega
        rw [if_neg h3, if_neg h2]

theorem readBytes_length (mem : List Nat) (off n : Nat) : (readBytes mem off n).length = n := by
  simp [readBytes]

theorem readBytes_getD (mem : List Nat) (off n i : Nat) :
    (readBytes mem off n).getD i 0 = if i < n then mem.getD (off + i) 0 else 0 := by
  by_cases hi : i < n
  · simp [readBytes, List.getD_eq_getElem?_getD, List.getElem?_map, List.getElem?_range hi, hi]
  · have hnone : (List.range n)[i]? = none := by
      rw [List.getElem?_eq_none_iff]; simpa using hi
    simp [readBytes, List.getD_eq_getElem?_getD, List.getElem?_map, hi, hnone]

theorem list_eq_of_getD (a b : List Nat) (hl : a.length = b.length)
    (h : ∀ j, j < a.length → a.getD j 0 = b.getD j 0) : a = b := by
  apply List.ext_getElem hl
  intro j h1 h2
  have := h j h1
  simpa [List.getD_eq_getElem?_getD, List.getElem?_eq_getElem h1, List.getElem?_eq_getElem h2]
    using this

theorem readBytes_writeBytes_scratch (N : Nat) (bs : List Nat) (h : bs.length ≤ N) :
    readBytes (writeBytes (List.replicate N 0) 0 bs) 0 bs.length = bs := by
  apply list_eq_of_getD _ _ (readBytes_length _ _ _)
  intro j hj
  rw [readBytes_length] at hj
  rw [readBytes_getD, if_pos hj, writeBytes_getD _ _ _ _ (by simpa using h)]
  simp [hj]

/-- Both branches of `swapMemory` perform the same two stores: the bytes at `mem2` go to
`mem1`, then the saved bytes of `mem1` go to `mem2`. -/
theorem swapMemory_eq (mem : List Nat) (a b : Nat) (size : Nat) :
    swapMemory mem a b size
      = writeBytes (writeBytes mem a (readBytes mem b size)) b (readBytes mem a size) := by
  have key : ∀ N, size ≤ N →
      readBytes (memcpy (List.replicate N 0) 0 mem a size) 0 size = readBytes mem a size := by
    intro N hN
    have := readBytes_writeBytes_scratch N (readBytes mem a size)
      (by rw [readBytes_length]; exact hN)
    rw [readBytes_length] at this
    exact this
  unfold swapMemory
  split
  · next hlt =>
    simp only [memcpy]
    have := key 2048 (by omega)
    simp only [memcpy] at this
    rw [this]
  · simp only [memcpy]
    have := key size (le_refl _)
    simp only [memcpy] at this
    rw [this]

theorem swapMemory_length (mem : List Nat) (a b : Nat) (size : Nat) :
    (swapMemory mem a b size).length = mem.length := by
  rw [swapMemory_eq, writeBytes_length, writeBytes_length]

/-- `swapMemory` on two disjoint regions inside the buffer exchanges them and leaves every
other byte as it is. -/
theorem swapMemory_getD (mem : List Nat) (a b n j : Nat)
    (ha : a + n ≤ mem.length) (hb : b + n ≤ mem.length) (hd : a + n ≤ b ∨ b + n ≤ a) :
    (swapMemory mem a b n).getD j 0
      = if a ≤ j ∧ j < a + n then mem.getD (b + (j - a)) 0
        else if b ≤ j ∧ j < b + n then mem.getD (a + (j - b)) 0
        else mem.getD j 0 := by
  rw [swapMemory_eq,
    writeBytes_getD _ _ _ _ (by rw [writeBytes_length, readBytes_length]; exact hb),
    writeBytes_getD _ _ _ _ (by rw [readBytes_length]; exact ha)]
  simp only [readBytes_length, readBytes_getD]
  by_cases h1 : a ≤ j ∧ j < a + n
  · have h2 : ¬ (b ≤ j ∧ j < b + n) := by omega
    have h3 : j - a < n := by omega
    simp only [if_neg h2, if_pos h1, if_pos h3]
  · by_cases h2 : b ≤ j ∧ j < b + n
    · have h3 : j - b < n := by omega
      simp only [if_pos h2, if_neg h1, if_pos h3]
    · simp only [if_neg h2, if_neg h1]

theorem swapMemory_getD_idx (mem : List Nat) (a b n j : Nat)
    (ha : a + n ≤ mem.length) (hb : b + n ≤ mem.length) (hd : a + n ≤ b ∨ b + n ≤ a) :
    (swapMemory mem a b n).getD j 0 = mem.getD (swapIdx a b n j) 0 := by
  rw [swapMemory_getD mem a b n j ha hb hd]
  unfold swapIdx
  split_ifs <;> rfl

theorem swapMemory_one_getD (mem : List Nat) (a b j : Nat)
    (ha : a + 1 ≤ mem.length) (hb : b + 1 ≤ mem.length) (hd : a ≠ b) :
    (swapMemory mem a b 1).getD j 0 = mem.getD (swapIdx a b 1 j) 0 :=
  swapMemory_getD_idx mem a b 1 j ha hb (by omega)

theorem swapMemory_two_getD (mem : List Nat) (a b j : Nat)
    (ha : a + 2 ≤ mem.length) (hb : b + 2 ≤ mem.length) (hd : a + 2 ≤ b ∨ b + 2 ≤ a) :
    (swapMemory mem a b 2).getD j 0 = mem.getD (swapIdx a b 2 j) 0 :=
  swapMemory_getD_idx mem a b 2 j ha hb hd

theorem swapIdx_one (a b j : Nat) :
    swapIdx a b 1 j = if j = a then b else if j = b then a else j := by
  unfold swapIdx
  split_ifs <;> omega

theorem swapIdx_of_lt (a b n j : Nat) (h1 : j < a) (h2 : j < b) : swapIdx a b n j = j := by
  unfold swapIdx
  rw [if_neg (by omega), if_neg (by omega)]

theorem swapIdx_of_ge (a b n j : Nat) (h1 : a + n ≤ j) (h2 : b + n ≤ j) :
    swapIdx a b n j = j := by
  unfold swapIdx
  rw [if_neg (by omega), if_neg (by omega)]

theorem srcDXT1_add (o : Nat) : srcDXT1 (o + 8) = srcDXT1 o + 8 := by
  unfold srcDXT1
  have h : (o + 8) % 8 = o % 8 := by omega
  rw [h]
  split_ifs <;> omega

theorem srcDXT1_bounds (o : Nat) : o / 8 * 8 ≤ srcDXT1 o ∧ srcDXT1 o < o / 8 * 8 + 8 := by
  unfold srcDXT1
  split_ifs <;> omega

theorem srcDXT1_invol (o : Nat) : srcDXT1 (srcDXT1 o) = o := by
  have h : srcDXT1 o % 8 = if o % 8 = 4 then 7 else if o % 8 = 5 then 6
      else if o % 8 = 6 then 5 else if o % 8 = 7 then 4 else o % 8 := by
    unfold srcDXT1
    split_ifs <;> omega
  have h' : srcDXT1 o = if o % 8 = 4 then o + 3 else if o % 8 = 5 then o + 1
      else if o % 8 = 6 then o - 1 else if o % 8 = 7 then o - 3 else o := rfl
  rw [srcDXT1, h]
  split_ifs at h' ⊢ <;> omega

theorem lineIdx_of_lt (p : Nat → Nat) (line len j : Nat) (h : j < line) :
    lineIdx p line len j = j := by
  unfold lineIdx
  rw [if_neg (by omega)]

theorem lineIdx_of_ge (p : Nat → Nat) (line len j : Nat) (h : line + len ≤ j) :
    lineIdx p line len j = j := by
  unfold lineIdx
  rw [if_neg (by omega)]

theorem lineIdx_of_mem (p : Nat → Nat) (line len j : Nat) (h1 : line ≤ j) (h2 : j < line + len) :
    lineIdx p line len j = line + p (j - line) := by
  unfold lineIdx
  rw [if_pos ⟨h1, h2⟩]

/-- One iteration of `flipBlockDXTC1` as a rearrangement of the block at `cur`. -/
theorem dxt1_block_idx (cur j : Nat) :
    swapIdx (cur + 4) (cur + 7) 1 (swapIdx (cur + 5) (cur + 6) 1 j)
      = lineIdx srcDXT1 cur 8 j := by
  rcases Nat.lt_or_ge j cur with h | h
  · rw [swapIdx_of_lt (cur + 5) (cur + 6) 1 j (by omega) (by omega),
      swapIdx_of_lt _ _ _ _ (by omega) (by omega), lineIdx_of_lt _ _ _ _ h]
  rcases Nat.lt_or_ge j (cur + 8) with h8 | h8
  · rw [lineIdx_of_mem _ _ _ _ h h8]
    obtain ⟨k, rfl⟩ : ∃ k, j = cur + k := ⟨j - cur, by omega⟩
    have hk : k < 8 := by omega
    rw [Nat.add_sub_cancel_left]
    simp only [swapIdx_one]
    interval_cases k <;> simp [srcDXT1]
  · rw [swapIdx_of_ge (cur + 5) (cur + 6) 1 j (by omega) (by omega),
      swapIdx_of_ge _ _ _ _ (by omega) (by omega), lineIdx_of_ge _ _ _ _ h8]

theorem lineIdx_srcDXT1_succ (cur n j : Nat) :
    lineIdx srcDXT1 cur 8 (lineIdx srcDXT1 (cur + 8) (8 * n) j)
      = lineIdx srcDXT1 cur (8 * (n + 1)) j := by
  rcases Nat.lt_or_ge j cur with h | h
  · rw [lineIdx_of_lt _ (cur + 8) _ j (by omega), lineIdx_of_lt _ _ _ _ h,
      lineIdx_of_lt _ _ _ _ h]
  rcases Nat.lt_or_ge j (cur + 8) with h8 | h8
  · rw [lineIdx_of_lt _ (cur + 8) _ j h8, lineIdx_of_mem _ _ _ _ h h8,
      lineIdx_of_mem _ _ _ _ h (by omega)]
  rcases Nat.lt_or_ge j (cur + 8 + 8 * n) with hn | hn
  · rw [lineIdx_of_mem _ (cur + 8) _ j h8 hn]
    have hb := srcDXT1_bounds (j - (cur + 8))
    rw [lineIdx_of_ge _ cur 8 _ (by omega), lineIdx_of_mem _ _ _ _ h (by omega)]
    have : j - cur = (j - (cur + 8)) + 8 := by omega
    rw [this, srcDXT1_add]
    omega
  · rw [lineIdx_of_ge _ (cur + 8) _ j hn, lineIdx_of_ge _ cur 8 _ (by omega),
      lineIdx_of_ge _ _ _ _ (by omega)]

theorem flipBlockDXTC1Loop_length (n : Nat) (mem : List Nat) (cur : Nat) :
    (flipBlockDXTC1Loop n mem cur).length = mem.length := by
  induction n generalizing mem cur with
  | zero => rfl
  | succ n ih => simp only [flipBlockDXTC1Loop, ih, swapMemory_length]

theorem flipBlockDXTC1Loop_getD (n : Nat) (mem : List Nat) (cur j : Nat)
    (h : cur + 8 * n ≤ mem.length) :
    (flipBlockDXTC1Loop n mem cur).getD j 0 = mem.getD (lineIdx srcDXT1 cur (8 * n) j) 0 := by
  induction n generalizing mem cur j with
  | zero =>
    rw [flipBlockDXTC1Loop]
    rcases Nat.lt_or_ge j cur with h | h
    · rw [lineIdx_of_lt _ _ _ _ h]
    · rw [lineIdx_of_ge _ _ _ _ (by omega)]
  | succ n ih =>
    simp only [flipBlockDXTC1Loop]
    rw [ih _ _ _ (by simp only [swapMemory_length]; omega),
      swapMemory_one_getD _ _ _ _ (by simp only [swapMemory_length]; omega)
        (by simp only [swapMemory_length]; omega) (by omega),
      swapMemory_one_getD _ _ _ _ (by omega) (by omega) (by omega),
      dxt1_block_idx, lineIdx_srcDXT1_succ]

theorem srcDXT3_add (o : Nat) : srcDXT3 (o + 16) = srcDXT3 o + 16 := by
  unfold srcDXT3
  have h : (o + 16) % 16 = o % 16 := by omega
  rw [h]
  split_ifs <;> omega

theorem srcDXT3_bounds (o : Nat) : o / 16 * 16 ≤ srcDXT3 o ∧ srcDXT3 o < o / 16 * 16 + 16 := by
  unfold srcDXT3
  split_ifs <;> omega

theorem srcDXT3_decomp (o : Nat) : srcDXT3 o = o / 16 * 16 + srcDXT3 (o % 16) := by
  unfold srcDXT3
  have h : o % 16 % 16 = o % 16 := by omega
  rw [h]
  split_ifs <;> omega

theorem srcDXT3_small (m : Nat) (hm : m < 16) :
    srcDXT3 m < 16 ∧ srcDXT3 (srcDXT3 m) = m := by
  interval_cases m <;> exact ⟨by decide, by decide⟩

theorem srcDXT3_invol (o : Nat) : srcDXT3 (srcDXT3 o) = o := by
  have hm : o % 16 < 16 := Nat.mod_lt _ (by decide)
  obtain ⟨h1, h2⟩ := srcDXT3_small (o % 16) hm
  have hd := srcDXT3_decomp o
  have hq : srcDXT3 o / 16 = o / 16 := by omega
  have hr : srcDXT3 o % 16 = srcDXT3 (o % 16) := by omega
  rw [srcDXT3_decomp (srcDXT3 o), hq, hr, h2]
  omega

theorem swapIdx_shift (c a b n k : Nat) :
    swapIdx (c + a) (c + b) n (c + k) = c + swapIdx a b n k := by
  unfold swapIdx
  split_ifs <;> omega

/-- One iteration of `flipBlockDXTC3` as a rearrangement of the block at `cur`. -/
theorem dxt3_block_idx (cur j : Nat) :
    swapIdx cur (cur + 6) 2 (swapIdx (cur + 2) (cur + 4) 2
        (swapIdx (cur + 12) (cur + 15) 1 (swapIdx (cur + 13) (cur + 14) 1 j)))
      = lineIdx srcDXT3 cur 16 j := by
  rcases Nat.lt_or_ge j cur with h | h
  · rw [swapIdx_of_lt (cur + 13) (cur + 14) 1 j (by omega) (by omega),
      swapIdx_of_lt (cur + 12) (cur + 15) 1 j (by omega) (by omega),
      swapIdx_of_lt (cur + 2) (cur + 4) 2 j (by omega) (by omega),
      swapIdx_of_lt _ _ _ _ (by omega) (by omega), lineIdx_of_lt _ _ _ _ h]
  rcases Nat.lt_or_ge j (cur + 16) with h8 | h8
  · rw [lineIdx_of_mem _ _ _ _ h h8]
    obtain ⟨k, rfl⟩ : ∃ k, j = cur + k := ⟨j - cur, by omega⟩
    have hk : k < 16 := by omega
    rw [Nat.add_sub_cancel_left, swapIdx_shift, swapIdx_shift, swapIdx_shift]
    have h0 := swapIdx_shift cur 0 6 2 (swapIdx 2 4 2 (swapIdx 12 15 1 (swapIdx 13 14 1 k)))
    rw [Nat.add_zero] at h0
    rw [h0]
    congr 1
    interval_cases k <;> decide
  · rw [swapIdx_of_ge (cur + 13) (cur + 14) 1 j (by omega) (by omega),
      swapIdx_of_ge (cur + 12) (cur + 15) 1 j (by omega) (by omega),
      swapIdx_of_ge (cur + 2) (cur + 4) 2 j (by omega) (by omega),
      swapIdx_of_ge _ _ _ _ (by omega) (by omega), lineIdx_of_ge _ _ _ _ h8]

theorem lineIdx_srcDXT3_succ (cur n j : Nat) :
    lineIdx srcDXT3 cur 16 (lineIdx srcDXT3 (cur + 16) (16 * n) j)
      = lineIdx srcDXT3 cur (16 * (n + 1)) j := by
  rcases Nat.lt_or_ge j cur with h | h
  · rw [lineIdx_of_lt _ (cur + 16) _ j (by omega), lineIdx_of_lt _ _ _ _ h,
      lineIdx_of_lt _ _ _ _ h]
  rcases Nat.lt_or_ge j (cur + 16) with h8 | h8
  · rw [lineIdx_of_lt _ (cur + 16) _ j h8, lineIdx_of_mem _ _ _ _ h h8,
      lineIdx_of_mem _ _ _ _ h (by omega)]
  rcases Nat.lt_or_ge j (cur + 16 + 16 * n) with hn | hn
  · rw [lineIdx_of_mem _ (cur + 16) _ j h8 hn]
    have hb := srcDXT3_bounds (j - (cur + 16))
    rw [lineIdx_of_ge _ cur 16 _ (by omega), lineIdx_of_mem _ _ _ _ h (by omega)]
    have : j - cur = (j - (cur + 16)) + 16 := by omega
    rw [this, srcDXT3_add]
    omega
  · rw [lineIdx_of_ge _ (cur + 16) _ j hn, lineIdx_of_ge _ cur 16 _ (by omega),
      lineIdx_of_ge _ _ _ _ (by omega)]

theorem flipBlockDXTC3Loop_length (n : Nat) (mem : List Nat) (cur : Nat) :
    (flipBlockDXTC3Loop n mem cur).length = mem.length := by
  induction n generalizing mem cur with
  | zero => rfl
  | succ n ih => simp only [flipBlockDXTC3Loop, ih, swapMemory_length]

theorem flipBlockDXTC3Loop_getD (n : Nat) (mem : List Nat) (cur j : Nat)
    (h : cur + 16 * n ≤ mem.length) :
    (flipBlockDXTC3Loop n mem cur).getD j 0 = mem.getD (lineIdx srcDXT3 cur (16 * n) j) 0 := by
  induction n generalizing mem cur j with
  | zero =>
    rw [flipBlockDXTC3Loop]
    rcases Nat.lt_or_ge j cur with h | h
    · rw [lineIdx_of_lt _ _ _ _ h]
    · rw [lineIdx_of_ge _ _ _ _ (by omega)]
  | succ n ih =>
    simp only [flipBlockDXTC3Loop, Nat.add_zero, Nat.add_assoc, Nat.reduceAdd]
    rw [ih _ _ _ (by simp only [swapMemory_length]; omega),
      swapMemory_one_getD _ _ _ _ (by simp only [swapMemory_length]; omega)
        (by simp only [swapMemory_length]; omega) (by omega),
      swapMemory_one_getD _ _ _ _ (by simp only [swapMemory_length]; omega)
        (by simp only [swapMemory_length]; omega) (by omega),
      swapMemory_two_getD _ _ _ _ (by simp only [swapMemory_length]; omega)
        (by simp only [swapMemory_length]; omega) (by omega),
      swapMemory_two_getD _ _ _ _ (by omega) (by omega) (by omega),
      dxt3_block_idx, lineIdx_srcDXT3_succ]

theorem readBytes_ext (m m' : List Nat) (a a' n : Nat)
    (h : ∀ i, i < n → m.getD (a + i) 0 = m'.getD (a' + i) 0) :
    readBytes m a n = readBytes m' a' n := by
  apply list_eq_of_getD _ _ (by rw [readBytes_length, readBytes_length])
  intro i hi
  rw [readBytes_length] at hi
  rw [readBytes_getD, readBytes_getD, if_pos hi, if_pos hi, h i hi]

theorem getD_of_readBytes_eq (m m' : List Nat) (a a' n i : Nat)
    (h : readBytes m a n = readBytes m' a' n) (hi : i < n) :
    m.getD (a + i) 0 = m'.getD (a' + i) 0 := by
  have h1 : (readBytes m a n).getD i 0 = (readBytes m' a' n).getD i 0 := by rw [h]
  rw [readBytes_getD, readBytes_getD, if_pos hi, if_pos hi] at h1
  exact h1

theorem permuteLine_length (p : Nat → Nat) (row : List Nat) :
    (permuteLine p row).length = row.length := by
  simp [permuteLine]

theorem permuteLine_getD (p : Nat → Nat) (row : List Nat) (i : Nat) (hi : i < row.length) :
    (permuteLine p row).getD i 0 = row.getD (p i) 0 := by
  simp [permuteLine, List.getD_eq_getElem?_getD, List.getElem?_map, List.getElem?_range hi]

theorem permuteLine_invol (p : Nat → Nat) (row : List Nat)
    (hp : ∀ o, o < row.length → p o < row.length) (hpp : ∀ o, p (p o) = o) :
    permuteLine p (permuteLine p row) = row := by
  apply list_eq_of_getD _ _ (by rw [permuteLine_length, permuteLine_length])
  intro i hi
  rw [permuteLine_length, permuteLine_length] at hi
  rw [permuteLine_getD _ _ _ (by rw [permuteLine_length]; exact hi),
    permuteLine_getD _ _ _ (hp i hi), hpp]

/-- A routine that rearranges the line by `p` is local to the line. -/
theorem rowLocal_of_lineIdx (F : List Nat → Nat → Int → List Nat) (xblocks : Int) (len : Nat)
    (p : Nat → Nat) (hlen : ∀ mem line, (F mem line xblocks).length = mem.length)
    (hget : ∀ mem line j, line + len ≤ mem.length →
      (F mem line xblocks).getD j 0 = mem.getD (lineIdx p line len j) 0)
    (hp : ∀ o, o < len → p o < len) :
    RowLocal F xblocks len (permuteLine p) where
  length := hlen
  outside mem line j h hj := by
    rw [hget mem line j h]
    rcases hj with hj | hj
    · rw [lineIdx_of_lt _ _ _ _ hj]
    · rw [lineIdx_of_ge _ _ _ _ hj]
  inside mem line h := by
    apply list_eq_of_getD _ _ (by rw [readBytes_length, permuteLine_length, readBytes_length])
    intro i hi
    rw [readBytes_length] at hi
    rw [readBytes_getD, if_pos hi, hget mem line _ h,
      lineIdx_of_mem _ _ _ _ (by omega) (by omega), Nat.add_sub_cancel_left,
      permuteLine_getD _ _ _ (by rw [readBytes_length]; exact hi), readBytes_getD,
      if_pos (hp i hi)]

theorem srcDXT1_lt (xb o : Nat) (h : o < 8 * xb) : srcDXT1 o < 8 * xb := by
  have := srcDXT1_bounds o
  omega

theorem srcDXT3_lt (xb o : Nat) (h : o < 16 * xb) : srcDXT3 o < 16 * xb := by
  have := srcDXT3_bounds o
  omega

theorem flipBlockDXTC1_rowLocal (xb : Nat) :
    RowLocal flipBlockDXTC1 (xb : Int) (8 * xb) (permuteLine srcDXT1) :=
  rowLocal_of_lineIdx _ _ _ _
    (fun mem line => by simp only [flipBlockDXTC1, flipBlockDXTC1Loop_length])
    (fun mem line j h => by
      simp only [flipBlockDXTC1, Int.toNat_ofNat]
      exact flipBlockDXTC1Loop_getD xb mem line j h)
    (srcDXT1_lt xb)

theorem flipBlockDXTC3_rowLocal (xb : Nat) :
    RowLocal flipBlockDXTC3 (xb : Int) (16 * xb) (permuteLine srcDXT3) :=
  rowLocal_of_lineIdx _ _ _ _
    (fun mem line => by simp only [flipBlockDXTC3, flipBlockDXTC3Loop_length])
    (fun mem line j h => by
      simp only [flipBlockDXTC3, Int.toNat_ofNat]
      exact flipBlockDXTC3Loop_getD xb mem line j h)
    (srcDXT3_lt xb)

section Rows

variable {F : List Nat → Nat → Int → List Nat} {xblocks : Int} {len : Nat}
  {g : List Nat → List Nat}

theorem row_succ (r len : Nat) : (r + 1) * len = r * len + len := by
  rw [Nat.add_mul, Nat.one_mul]

theorem row_lt (r r' len : Nat) (h : r < r') : r * len + len ≤ r' * len := by
  have := Nat.mul_le_mul_right len (Nat.succ_le_of_lt h)
  rw [Nat.succ_eq_add_one, row_succ] at this
  exact this

/-- One pass of the body of the `while` loop on rows `t < b`: the two rows are turned by
`g` and change places, everything else is kept. -/
theorem flipRows_body (hF : RowLocal F xblocks len g) (t b : Nat) (s : List Nat)
    (htb : t < b) (hs : b * len + len ≤ s.length) :
    (swapMemory (F (F s (t * len) xblocks) (b * len) xblocks) (b * len) (t * len)
        len).length = s.length
      ∧ (∀ j, (j < t * len ∨ t * len + len ≤ j) → (j < b * len ∨ b * len + len ≤ j) →
          (swapMemory (F (F s (t * len) xblocks) (b * len) xblocks) (b * len) (t * len)
            len).getD j 0 = s.getD j 0)
      ∧ readBytes (swapMemory (F (F s (t * len) xblocks) (b * len) xblocks) (b * len)
          (t * len) len) (t * len) len = g (readBytes s (b * len) len)
      ∧ readBytes (swapMemory (F (F s (t * len) xblocks) (b * len) xblocks) (b * len)
          (t * len) len) (b * len) len = g (readBytes s (t * len) len) := by
  have htb' : t * len + len ≤ b * len := row_lt t b len htb
  have hl1 : (F s (t * len) xblocks).length = s.length := hF.length _ _
  have hl2 : (F (F s (t * len) xblocks) (b * len) xblocks).length = s.length := by
    rw [hF.length, hl1]
  have hget : ∀ j, (swapMemory (F (F s (t * len) xblocks) (b * len) xblocks) (b * len)
      (t * len) len).getD j 0
      = (F (F s (t * len) xblocks) (b * len) xblocks).getD
          (swapIdx (b * len) (t * len) len j) 0 := fun j =>
    swapMemory_getD_idx _ _ _ _ _ (by rw [hl2]; omega) (by rw [hl2]; omega) (Or.inr htb')
  have hrowt : readBytes (F (F s (t * len) xblocks) (b * len) xblocks) (t * len) len
      = g (readBytes s (t * len) len) := by
    rw [← hF.inside s (t * len) (by omega)]
    apply readBytes_ext
    intro i hi
    exact hF.outside _ _ _ (by rw [hl1]; omega) (Or.inl (by omega))
  have hrowb : readBytes (F (F s (t * len) xblocks) (b * len) xblocks) (b * len) len
      = g (readBytes s (b * len) len) := by
    rw [hF.inside _ (b * len) (by rw [hl1]; omega)]
    congr 1
    apply readBytes_ext
    intro i hi
    exact hF.outside _ _ _ (by omega) (Or.inr (by omega))
  refine ⟨by rw [swapMemory_length, hl2], ?_, ?_, ?_⟩
  · intro j hjt hjb
    rw [hget, swapIdx, if_neg (by omega), if_neg (by omega),
      hF.outside _ _ _ (by rw [hl1]; omega) (by omega), hF.outside _ _ _ (by omega) (by omega)]
  · rw [← hrowb]
    apply readBytes_ext
    intro i hi
    rw [hget, swapIdx, if_neg (by omega), if_pos (by omega), Nat.add_sub_cancel_left]
  · rw [← hrowt]
    apply readBytes_ext
    intro i hi
    rw [hget, swapIdx, if_pos (by omega), Nat.add_sub_cancel_left]

/-- The `while` loop of `flipCompressedTexture` started on rows `t .. b` finishes within
`b - t` iterations; in the result every row `r` of `t .. b` is `g` of the row mirrored
about the middle of `t .. b`, except the middle row of an odd range, which is kept, and
every byte outside rows `t .. b` is kept. -/
theorem flipRows_spec (hF : RowLocal F xblocks len g) (hlen : 0 < len) (fuel : Nat) :
    ∀ (t b : Nat) (s : List Nat), t ≤ b + 1 → b * len + len ≤ s.length → b ≤ t + fuel →
      ∃ out, flipRows F xblocks (len : Int) fuel s ((t * len : Nat) : Int)
          ((b * len : Nat) : Int) = some out
        ∧ out.length = s.length
        ∧ (∀ j, j < t * len ∨ b * len + len ≤ j → out.getD j 0 = s.getD j 0)
        ∧ (∀ r, t ≤ r → r ≤ b → readBytes out (r * len) len
            = if r + r = t + b then readBytes s (r * len) len
              else g (readBytes s ((t + b - r) * len) len)) := by
  induction fuel with
  | zero =>
    intro t b s htb hs hfuel
    have hnot : ¬ (((t * len : Nat) : Int) < ((b * len : Nat) : Int)) := by
      have : b * len ≤ t * len := Nat.mul_le_mul_right len (by omega)
      omega
    refine ⟨s, by rw [flipRows, if_neg hnot], rfl, fun _ _ => rfl, ?_⟩
    intro r h1 h2
    rw [if_pos (by omega)]
  | succ fuel ih =>
    intro t b s htb hs hfuel
    rcases Nat.lt_or_ge t b with hlt | hge
    · obtain ⟨b', rfl⟩ : ∃ b', b = b' + 1 := ⟨b - 1, by omega⟩
      have e2 : (b' + 1) * len = b' * len + len := row_succ b' len
      have e1 : (t + 1) * len = t * len + len := row_succ t len
      have hmono : t * len + len ≤ (b' + 1) * len := row_lt t (b' + 1) len hlt
      have hpos : ((t * len : Nat) : Int) < (((b' + 1) * len : Nat) : Int) := by omega
      have etop : ((t * len : Nat) : Int) + (len : Int) = (((t + 1) * len : Nat) : Int) := by
        push_cast; ring
      have ebot : (((b' + 1) * len : Nat) : Int) - (len : Int) = ((b' * len : Nat) : Int) := by
        push_cast; ring
      obtain ⟨hl3, hout3, hrt, hrb⟩ := flipRows_body hF t (b' + 1) s hlt hs
      obtain ⟨out, hrun, hlo, hoo, hor⟩ := ih (t + 1) b' _ (by omega)
        (by rw [hl3]; omega) (by omega)
      refine ⟨out, ?_, by rw [hlo, hl3], ?_, ?_⟩
      · have hnn : ¬ ((len : Int) < 0) := Int.not_lt.mpr (Int.ofNat_nonneg len)
        rw [flipRows, if_pos hpos]
        simp only [Int.toNat_ofNat, etop, ebot, if_neg hnn]
        exact hrun
      · intro j hj
        rw [hoo j (by omega)]
        exact hout3 j (by omega) (by omega)
      · intro r h1 h2
        rcases Nat.eq_or_lt_of_le h1 with hrt' | hrt'
        · subst hrt'
          rw [if_neg (by omega)]
          have : t + (b' + 1) - t = b' + 1 := by omega
          rw [this, ← hrt]
          apply readBytes_ext
          intro i hi
          exact hoo _ (Or.inl (by omega))
        rcases Nat.eq_or_lt_of_le h2 with hrb' | hrb'
        · subst hrb'
          rw [if_neg (by omega)]
          have : t + (b' + 1) - (b' + 1) = t := by omega
          rw [this, ← hrb]
          apply readBytes_ext
          intro i hi
          exact hoo _ (Or.inr (by omega))
        · have hmid : ∀ r', t < r' → r' < b' + 1 →
              readBytes (swapMemory (F (F s (t * len) xblocks) ((b' + 1) * len) xblocks)
                ((b' + 1) * len) (t * len) len) (r' * len) len
                = readBytes s (r' * len) len := by
            intro r' hr1 hr2
            apply readBytes_ext
            intro i hi
            have hA := row_lt t r' len hr1
            have hB := row_lt r' (b' + 1) len hr2
            exact hout3 _ (Or.inr (by omega)) (Or.inl (by omega))
          rw [hor r (by omega) (by omega), hmid r hrt' hrb']
          have e5 : t + 1 + b' - r = t + (b' + 1) - r := by omega
          rw [e5, hmid (t + (b' + 1) - r) (by omega) (by omega)]
          by_cases hmidrow : r + r = t + (b' + 1)
          · rw [if_pos hmidrow, if_pos (by omega)]
          · rw [if_neg hmidrow, if_neg (by omega)]
    · have hnot : ¬ (((t * len : Nat) : Int) < ((b * len : Nat) : Int)) := by
        have : b * len ≤ t * len := Nat.mul_le_mul_right len hge
        omega
      refine ⟨s, by rw [flipRows, if_neg hnot], rfl, fun _ _ => rfl, ?_⟩
      intro r h1 h2
      rw [if_pos (by omega)]

end Rows

section Surface

variable {F : List Nat → Nat → Int → List Nat} {xblocks : Int} {len : Nat}
  {g : List Nat → List Nat}

theorem rowLocal_nil (hF : RowLocal F xblocks 0 g) : g [] = [] := by
  have h := hF.inside [] 0 (by simp)
  have e : readBytes ([] : List Nat) 0 0 = [] := rfl
  rw [e] at h
  rw [← h]
  rfl

/-- The loop of `flipCompressedTexture` on a surface that holds `yblocks` rows of `len`
bytes, with fuel for `yblocks - 1` iterations: it finishes, row `r` of the result is `g` of row `yblocks - 1 - r` of the input,
except the middle row of an odd number of rows, which is kept, and the bytes after the rows
are kept. -/
theorem flipRows_surface (hF : RowLocal F xblocks len g) (yblocks : Nat) (s : List Nat)
    (hs : yblocks * len ≤ s.length) (fuel : Nat) (hfuel : 0 < len → yblocks ≤ fuel + 1) :
    ∃ out, flipRows F xblocks (len : Int) fuel s 0 (((yblocks : Int) - 1) * (len : Int))
        = some out
      ∧ out.length = s.length
      ∧ (∀ j, yblocks * len ≤ j → out.getD j 0 = s.getD j 0)
      ∧ (∀ r, r < yblocks → readBytes out (r * len) len
          = if r + r + 1 = yblocks then readBytes s (r * len) len
            else g (readBytes s ((yblocks - 1 - r) * len) len)) := by
  rcases Nat.eq_zero_or_pos len with h0 | hpos
  · subst h0
    refine ⟨s, ?_, rfl, fun _ _ => rfl, ?_⟩
    · rw [flipRows.eq_def, if_neg (by simp)]
    · intro r hr
      have e : ∀ m a, readBytes m a 0 = ([] : List Nat) := fun _ _ => rfl
      simp only [e, rowLocal_nil hF, ite_self]
  cases yblocks with
  | zero =>
    refine ⟨s, ?_, rfl, fun _ _ => rfl, fun r hr => absurd hr (by omega)⟩
    rw [flipRows.eq_def, if_neg]
    push_cast
    have : (0 : Int) ≤ (len : Int) := Int.ofNat_nonneg len
    omega
  | succ y =>
    have hs' : y * len + len ≤ s.length := by rw [row_succ] at hs; exact hs
    have hfuel' := hfuel hpos
    obtain ⟨out, hrun, hl, hout, hrow⟩ := flipRows_spec hF hpos fuel 0 y s (by omega) hs'
      (by omega)
    refine ⟨out, ?_, hl, ?_, ?_⟩
    · have e0 : ((0 * len : Nat) : Int) = 0 := by simp
      have e1 : (((y + 1 : Nat) : Int) - 1) * (len : Int) = ((y * len : Nat) : Int) := by
        push_cast; ring
      rw [e1, ← e0]
      exact hrun
    · intro j hj
      rw [row_succ] at hj
      exact hout j (Or.inr hj)
    · intro r hr
      rw [hrow r (by omega) (by omega)]
      have e2 : 0 + y - r = y + 1 - 1 - r := by omega
      rw [e2]
      by_cases hm : r + r + 1 = y + 1
      · rw [if_pos hm, if_pos (by omega)]
      · rw [if_neg hm, if_neg (by omega)]

/-- When the row transformation is an involution, running the loop twice gives back the
surface. -/
theorem flipRows_twice (hF : RowLocal F xblocks len g)
    (hg : ∀ row : List Nat, row.length = len → g (g row) = row) (yblocks : Nat) (s : List Nat)
    (hs : yblocks * len ≤ s.length) (fuel : Nat) (hfuel : 0 < len → yblocks ≤ fuel + 1) :
    (flipRows F xblocks (len : Int) fuel s 0 (((yblocks : Int) - 1) * (len : Int))).bind
        (fun out => flipRows F xblocks (len : Int) fuel out 0
          (((yblocks : Int) - 1) * (len : Int)))
      = some s := by
  obtain ⟨out1, hrun1, hl1, hout1, hrow1⟩ := flipRows_surface hF yblocks s hs fuel hfuel
  obtain ⟨out2, hrun2, hl2, hout2, hrow2⟩ :=
    flipRows_surface hF yblocks out1 (by rw [hl1]; exact hs) fuel hfuel
  rw [hrun1, Option.some_bind, hrun2]
  congr 1
  apply list_eq_of_getD _ _ (by rw [hl2, hl1])
  intro j _
  rcases Nat.lt_or_ge j (yblocks * len) with hj | hj
  · have hpos : 0 < len := by
      rcases Nat.eq_zero_or_pos len with h0 | h
      · rw [h0] at hj; simp at hj
      · exact h
    have hr0 : j / len < yblocks := (Nat.div_lt_iff_lt_mul hpos).mpr hj
    have hi : j % len < len := Nat.mod_lt _ hpos
    have hj0 : j = j / len * len + j % len := by
      rw [Nat.mul_comm]; exact (Nat.div_add_mod j len).symm
    obtain ⟨r, hr, hj'⟩ : ∃ r, r < yblocks ∧ j = r * len + j % len := ⟨j / len, hr0, hj0⟩
    have hrows : readBytes out2 (r * len) len = readBytes s (r * len) len := by
      rw [hrow2 _ hr]
      by_cases hm : r + r + 1 = yblocks
      · rw [if_pos hm, hrow1 _ hr, if_pos hm]
      · rw [if_neg hm, hrow1 _ (by omega : yblocks - 1 - r < yblocks), if_neg (by omega)]
        have : yblocks - 1 - (yblocks - 1 - r) = r := by omega
        rw [this]
        exact hg _ (readBytes_length _ _ _)
    have := getD_of_readBytes_eq _ _ _ _ _ _ hrows hi
    rw [← hj'] at this
    exact this
  · rw [hout2 j hj, hout1 j hj]

end Surface

theorem natCast_shiftRight_two (w : Nat) : ((w : Int) >>> 2) = ((w / 4 : Nat) : Int) := by
  show Int.shiftRight (Int.ofNat w) 2 = _
  simp [Int.shiftRight, Nat.shiftRight_eq_div_pow]

theorem shiftRight_two_eq_div (x : Int) : x >>> 2 = x / 4 := by
  cases x with
  | ofNat n =>
    show Int.shiftRight (Int.ofNat n) 2 = _
    simp only [Int.shiftRight, Nat.shiftRight_eq_div_pow]
    show ((n / 2 ^ 2 : Nat) : Int) = (n : Int) / 4
    omega
  | negSucc n =>
    show Int.shiftRight (Int.negSucc n) 2 = _
    simp only [Int.shiftRight, Nat.shiftRight_eq_div_pow]
    rw [Int.negSucc_eq, Int.negSucc_eq]
    omega

theorem wrapInt_of_fits (x : Int) (h : fitsInt x) : wrapInt x = x := by
  unfold fitsInt at h
  unfold wrapInt
  omega

/-- When the two `int` products of `flipCompressedTexture` are in range, the call is the
row loop on the exact line size and the exact offset of the last row. -/
theorem flipCompressedTexture_of_fits (w h : Int) (format : Nat) (s : List Nat)
    (hL : fitsInt ((w >>> 2) * (blockSize format : Int)))
    (hO : fitsInt ((h >>> 2 - (1 : Int)) * ((w >>> 2) * (blockSize format : Int)))) :
    flipCompressedTexture w h format s
      = if format = GL_COMPRESSED_RGBA_S3TC_DXT1_EXT then
          flipRows flipBlockDXTC1 (w >>> 2) ((w >>> 2) * 8)
            ((h >>> 2 - (1 : Int)) * ((w >>> 2) * 8)).toNat s 0 ((h >>> 2 - (1 : Int)) * ((w >>> 2) * 8))
        else if format = GL_COMPRESSED_RGBA_S3TC_DXT3_EXT then
          flipRows flipBlockDXTC3 (w >>> 2) ((w >>> 2) * 16)
            ((h >>> 2 - (1 : Int)) * ((w >>> 2) * 16)).toNat s 0 ((h >>> 2 - (1 : Int)) * ((w >>> 2) * 16))
        else if format = GL_COMPRESSED_RGBA_S3TC_DXT5_EXT then
          flipRows flipBlockDXTC5 (w >>> 2) ((w >>> 2) * 16)
            ((h >>> 2 - (1 : Int)) * ((w >>> 2) * 16)).toNat s 0 ((h >>> 2 - (1 : Int)) * ((w >>> 2) * 16))
        else some s := by
  have h31 : GL_COMPRESSED_RGBA_S3TC_DXT3_EXT ≠ GL_COMPRESSED_RGBA_S3TC_DXT1_EXT := by decide
  have h51 : GL_COMPRESSED_RGBA_S3TC_DXT5_EXT ≠ GL_COMPRESSED_RGBA_S3TC_DXT1_EXT := by decide
  have h53 : GL_COMPRESSED_RGBA_S3TC_DXT5_EXT ≠ GL_COMPRESSED_RGBA_S3TC_DXT3_EXT := by decide
  by_cases f1 : format = GL_COMPRESSED_RGBA_S3TC_DXT1_EXT
  · subst f1
    have b : ((blockSize GL_COMPRESSED_RGBA_S3TC_DXT1_EXT : Nat) : Int) = 8 := by decide
    rw [b] at hL hO
    simp only [flipCompressedTexture, if_true]
    rw [wrapInt_of_fits _ hL, wrapInt_of_fits _ hO]
  by_cases f3 : format = GL_COMPRESSED_RGBA_S3TC_DXT3_EXT
  · subst f3
    have b : ((blockSize GL_COMPRESSED_RGBA_S3TC_DXT3_EXT : Nat) : Int) = 16 := by decide
    rw [b] at hL hO
    simp only [flipCompressedTexture, if_neg h31, if_true]
    rw [wrapInt_of_fits _ hL, wrapInt_of_fits _ hO]
  by_cases f5 : format = GL_COMPRESSED_RGBA_S3TC_DXT5_EXT
  · subst f5
    have b : ((blockSize GL_COMPRESSED_RGBA_S3TC_DXT5_EXT : Nat) : Int) = 16 := by decide
    rw [b] at hL hO
    simp only [flipCompressedTexture, if_neg h51, if_neg h53, if_true]
    rw [wrapInt_of_fits _ hL, wrapInt_of_fits _ hO]
  · simp only [flipCompressedTexture, if_neg f1, if_neg f3, if_neg f5]

/-- The fuel that `flipCompressedTexture` gives the loop covers the `yb - 1` iterations
over `yb` rows of a positive size. -/
theorem fuel_enough (yb len : Nat) (hpos : 0 < len) :
    yb ≤ (((yb : Int) - 1) * (len : Int)).toNat + 1 := by
  cases yb with
  | zero => omega
  | succ y =>
    have e : (((y + 1 : Nat) : Int) - 1) * (len : Int) = ((y * len : Nat) : Int) := by
      push_cast; ring
    rw [e, Int.toNat_ofNat]
    have := Nat.le_mul_of_pos_right y hpos
    omega

/-- Flipping a DXT1 surface twice restores it: for every width and height whose `int`
products are in range and every buffer that holds the `(h / 4) * (w / 4)` blocks of 8
bytes. -/
theorem flipCompressedTextureTwice_dxt1 (w h : Nat) (s : List Nat)
    (hL : fitsInt (((w : Int) >>> 2) * 8))
    (hO : fitsInt ((((h : Int) >>> 2) - (1 : Int)) * (((w : Int) >>> 2) * 8)))
    (hs : (h / 4) * (8 * (w / 4)) ≤ s.length) :
    flipCompressedTextureTwice (w : Int) (h : Int) GL_COMPRESSED_RGBA_S3TC_DXT1_EXT s
      = some s := by
  have key := flipRows_twice (flipBlockDXTC1_rowLocal (w / 4))
    (fun row hrow => permuteLine_invol srcDXT1 row
      (fun o ho => by rw [hrow] at ho ⊢; exact srcDXT1_lt _ _ ho) srcDXT1_invol) (h / 4) s hs
    _ (fuel_enough (h / 4) (8 * (w / 4)))
  have e : ((w / 4 : Nat) : Int) * 8 = ((8 * (w / 4) : Nat) : Int) := by push_cast; ring
  have hrun : flipCompressedTexture (w : Int) (h : Int) GL_COMPRESSED_RGBA_S3TC_DXT1_EXT
      = fun s' => flipRows flipBlockDXTC1 ((w / 4 : Nat) : Int) ((8 * (w / 4) : Nat) : Int)
          ((((h / 4 : Nat) : Int) - 1) * ((8 * (w / 4) : Nat) : Int)).toNat s' 0
          ((((h / 4 : Nat) : Int) - 1) * ((8 * (w / 4) : Nat) : Int)) := by
    have b : ((blockSize GL_COMPRESSED_RGBA_S3TC_DXT1_EXT : Nat) : Int) = 8 := by decide
    funext s'
    rw [flipCompressedTexture_of_fits (w : Int) (h : Int) GL_COMPRESSED_RGBA_S3TC_DXT1_EXT s'
      (by rw [b]; exact hL) (by rw [b]; exact hO), if_pos rfl]
    simp only [natCast_shiftRight_two, e]
  unfold flipCompressedTextureTwice
  rw [hrun]
  exact key

/-- Flipping a DXT3 surface twice restores it: for every width and height whose `int`
products are in range and every buffer that holds the `(h / 4) * (w / 4)` blocks of 16
bytes. -/
theorem flipCompressedTextureTwice_dxt3 (w h : Nat) (s : List Nat)
    (hL : fitsInt (((w : Int) >>> 2) * 16))
    (hO : fitsInt ((((h : Int) >>> 2) - (1 : Int)) * (((w : Int) >>> 2) * 16)))
    (hs : (h / 4) * (16 * (w / 4)) ≤ s.length) :
    flipCompressedTextureTwice (w : Int) (h : Int) GL_COMPRESSED_RGBA_S3TC_DXT3_EXT s
      = some s := by
  have key := flipRows_twice (flipBlockDXTC3_rowLocal (w / 4))
    (fun row hrow => permuteLine_invol srcDXT3 row
      (fun o ho => by rw [hrow] at ho ⊢; exact srcDXT3_lt _ _ ho) srcDXT3_invol) (h / 4) s hs
    _ (fuel_enough (h / 4) (16 * (w / 4)))
  have e : ((w / 4 : Nat) : Int) * 16 = ((16 * (w / 4) : Nat) : Int) := by push_cast; ring
  have hne : GL_COMPRESSED_RGBA_S3TC_DXT3_EXT ≠ GL_COMPRESSED_RGBA_S3TC_DXT1_EXT := by decide
  have hrun : flipCompressedTexture (w : Int) (h : Int) GL_COMPRESSED_RGBA_S3TC_DXT3_EXT
      = fun s' => flipRows flipBlockDXTC3 ((w / 4 : Nat) : Int) ((16 * (w / 4) : Nat) : Int)
          ((((h / 4 : Nat) : Int) - 1) * ((16 * (w / 4) : Nat) : Int)).toNat s' 0
          ((((h / 4 : Nat) : Int) - 1) * ((16 * (w / 4) : Nat) : Int)) := by
    have b : ((blockSize GL_COMPRESSED_RGBA_S3TC_DXT3_EXT : Nat) : Int) = 16 := by decide
    funext s'
    rw [flipCompressedTexture_of_fits (w : Int) (h : Int) GL_COMPRESSED_RGBA_S3TC_DXT3_EXT s'
      (by rw [b]; exact hL) (by rw [b]; exact hO), if_neg hne, if_pos rfl]
    simp only [natCast_shiftRight_two, e]
  unfold flipCompressedTextureTwice
  rw [hrun]
  exact key

/-- C10, the code: flipping twice restores every DXT1 surface and every DXT3 surface, for
every width and height that are `int` values whose products `xblocks * blocksize` and
`(yblocks - (1 : Int)) * linesize` are in the range of `int`, and every buffer that holds the
blocks; but not every DXT5 surface: on one column and two rows of blocks the double flip
returns a surface whose index bytes 5..7 of the first block are `255` where the input has
`0`. -/
theorem flipCompressedTexture_twice_dxt5 :
    (∀ (w h : Nat) (s : List Nat), fitsInt (w : Int) → fitsInt (h : Int) →
        fitsInt (((w : Int) >>> 2) * 8) →
        fitsInt ((((h : Int) >>> 2) - (1 : Int)) * (((w : Int) >>> 2) * 8)) →
        (h / 4) * (8 * (w / 4)) ≤ s.length →
        flipCompressedTextureTwice (w : Int) (h : Int) GL_COMPRESSED_RGBA_S3TC_DXT1_EXT s
          = some s)
      ∧ (∀ (w h : Nat) (s : List Nat), fitsInt (w : Int) → fitsInt (h : Int) →
        fitsInt (((w : Int) >>> 2) * 16) →
        fitsInt ((((h : Int) >>> 2) - (1 : Int)) * (((w : Int) >>> 2) * 16)) →
        (h / 4) * (16 * (w / 4)) ≤ s.length →
        flipCompressedTextureTwice (w : Int) (h : Int) GL_COMPRESSED_RGBA_S3TC_DXT3_EXT s
          = some s)
      ∧ flipCompressedTextureTwice 4 8 GL_COMPRESSED_RGBA_S3TC_DXT5_EXT twoBlockRows
        = some ([0, 0, 255, 255, 255, 255, 255, 255, 1, 2, 3, 4, 5, 6, 7, 8]
            ++ List.replicate 16 0)
      ∧ flipCompressedTextureTwice 4 8 GL_COMPRESSED_RGBA_S3TC_DXT5_EXT twoBlockRows
        ≠ some twoBlockRows :=
  ⟨fun w h s _ _ hL hO hs => flipCompressedTextureTwice_dxt1 w h s hL hO hs,
    fun w h s _ _ hL hO hs => flipCompressedTextureTwice_dxt3 w h s hL hO hs,
    by decide, by decide⟩

/-! ### The block routines and the block grid -/

theorem srcDXT1_at (i c : Nat) (hc : c < 8) :
    srcDXT1 (8 * i + c) = 8 * i + [0, 1, 2, 3, 7, 6, 5, 4].getD c 0 := by
  have h : (8 * i + c) % 8 = c := by omega
  unfold srcDXT1
  rw [h]
  interval_cases c <;> simp

theorem srcDXT3_at (i c : Nat) (hc : c < 16) :
    srcDXT3 (16 * i + c)
      = 16 * i + [6, 7, 4, 5, 2, 3, 0, 1, 8, 9, 10, 11, 15, 14, 13, 12].getD c 0 := by
  have h : (16 * i + c) % 16 = c := by omega
  unfold srcDXT3
  rw [h]
  interval_cases c <;> simp

theorem flipBlockDXTC1_byte (mem : List Nat) (line n i c : Nat)
    (h : line + 8 * n ≤ mem.length) (hi : i < n) (hc : c < 8) :
    (flipBlockDXTC1 mem line (n : Int)).getD (line + 8 * i + c) 0
      = mem.getD (line + 8 * i + [0, 1, 2, 3, 7, 6, 5, 4].getD c 0) 0 := by
  simp only [flipBlockDXTC1, Int.toNat_ofNat]
  rw [flipBlockDXTC1Loop_getD n mem line _ h, lineIdx_of_mem _ _ _ _ (by omega) (by omega)]
  have e : line + 8 * i + c - line = 8 * i + c := by omega
  rw [e, srcDXT1_at i c hc, Nat.add_assoc]

theorem flipBlockDXTC3_byte (mem : List Nat) (line n i c : Nat)
    (h : line + 16 * n ≤ mem.length) (hi : i < n) (hc : c < 16) :
    (flipBlockDXTC3 mem line (n : Int)).getD (line + 16 * i + c) 0
      = mem.getD (line + 16 * i
          + [6, 7, 4, 5, 2, 3, 0, 1, 8, 9, 10, 11, 15, 14, 13, 12].getD c 0) 0 := by
  simp only [flipBlockDXTC3, Int.toNat_ofNat]
  rw [flipBlockDXTC3Loop_getD n mem line _ h, lineIdx_of_mem _ _ _ _ (by omega) (by omega)]
  have e : line + 16 * i + c - line = 16 * i + c := by omega
  rw [e, srcDXT3_at i c hc, Nat.add_assoc]

/-- C15: on a line of `numBlocks` DXT1 blocks of 8 bytes inside the buffer,
`flipBlockDXTC1` exchanges `row[0]` (offset 4) with `row[3]` (offset 7) and `row[1]`
(offset 5) with `row[2]` (offset 6) in each block, keeps `col0` and `col1` (offsets 0..3)
of each block, and keeps every byte outside the `numBlocks` blocks as well as the length
of the buffer. -/
theorem flipBlockDXTC1_effect (mem : List Nat) (line numBlocks : Nat)
    (h : line + 8 * numBlocks ≤ mem.length) :
    (flipBlockDXTC1 mem line (numBlocks : Int)).length = mem.length
      ∧ (∀ i, i < numBlocks →
          (flipBlockDXTC1 mem line (numBlocks : Int)).getD (line + 8 * i + 4) 0
              = mem.getD (line + 8 * i + 7) 0
            ∧ (flipBlockDXTC1 mem line (numBlocks : Int)).getD (line + 8 * i + 7) 0
              = mem.getD (line + 8 * i + 4) 0
            ∧ (flipBlockDXTC1 mem line (numBlocks : Int)).getD (line + 8 * i + 5) 0
              = mem.getD (line + 8 * i + 6) 0
            ∧ (flipBlockDXTC1 mem line (numBlocks : Int)).getD (line + 8 * i + 6) 0
              = mem.getD (line + 8 * i + 5) 0
            ∧ (∀ c, c < 4 →
                (flipBlockDXTC1 mem line (numBlocks : Int)).getD (line + 8 * i + c) 0
                  = mem.getD (line + 8 * i + c) 0))
      ∧ (∀ j, j < line ∨ line + 8 * numBlocks ≤ j →
          (flipBlockDXTC1 mem line (numBlocks : Int)).getD j 0 = mem.getD j 0) := by
  refine ⟨by simp only [flipBlockDXTC1, flipBlockDXTC1Loop_length], ?_, ?_⟩
  · intro i hi
    refine ⟨flipBlockDXTC1_byte mem line numBlocks i 4 h hi (by decide),
      flipBlockDXTC1_byte mem line numBlocks i 7 h hi (by decide),
      flipBlockDXTC1_byte mem line numBlocks i 5 h hi (by decide),
      flipBlockDXTC1_byte mem line numBlocks i 6 h hi (by decide), ?_⟩
    intro c hc
    have := flipBlockDXTC1_byte mem line numBlocks i c h hi (by omega)
    interval_cases c <;> exact this
  · intro j hj
    simp only [flipBlockDXTC1, Int.toNat_ofNat]
    rw [flipBlockDXTC1Loop_getD numBlocks mem line j h]
    rcases hj with hj | hj
    · rw [lineIdx_of_lt _ _ _ _ hj]
    · rw [lineIdx_of_ge _ _ _ _ hj]

/-- Witness of C15: two DXT1 blocks holding the bytes `0 .. 15`. -/
theorem flipBlockDXTC1_effect_witness :
    flipBlockDXTC1 (List.range 16) 0 2
        = [0, 1, 2, 3, 7, 6, 5, 4, 8, 9, 10, 11, 15, 14, 13, 12]
      ∧ (flipBlockDXTC1 (List.range 16) 0 ((2 : Nat) : Int)).length = (List.range 16).length :=
  ⟨by decide, (flipBlockDXTC1_effect (List.range 16) 0 2 (by decide)).1⟩

/-- C16: on a line of `numBlocks` DXT3 blocks of 16 bytes inside the buffer,
`flipBlockDXTC3` exchanges, in each block, the two-byte alpha rows 0 and 3 (offsets 0, 1
and 6, 7) and the two-byte alpha rows 1 and 2 (offsets 2, 3 and 4, 5), keeps the colour
endpoints (offsets 8..11), and exchanges `row[0]` with `row[3]` (offsets 12 and 15) and
`row[1]` with `row[2]` (offsets 13 and 14) of the colour block; every byte outside the
blocks and the length of the buffer are kept. -/
theorem flipBlockDXTC3_effect (mem : List Nat) (line numBlocks : Nat)
    (h : line + 16 * numBlocks ≤ mem.length) :
    (flipBlockDXTC3 mem line (numBlocks : Int)).length = mem.length
      ∧ (∀ i, i < numBlocks →
          (∀ c, c < 2 →
              (flipBlockDXTC3 mem line (numBlocks : Int)).getD (line + 16 * i + c) 0
                  = mem.getD (line + 16 * i + 6 + c) 0
                ∧ (flipBlockDXTC3 mem line (numBlocks : Int)).getD (line + 16 * i + 6 + c) 0
                  = mem.getD (line + 16 * i + c) 0
                ∧ (flipBlockDXTC3 mem line (numBlocks : Int)).getD (line + 16 * i + 2 + c) 0
                  = mem.getD (line + 16 * i + 4 + c) 0
                ∧ (flipBlockDXTC3 mem line (numBlocks : Int)).getD (line + 16 * i + 4 + c) 0
                  = mem.getD (line + 16 * i + 2 + c) 0)
            ∧ (∀ c, c < 4 →
                (flipBlockDXTC3 mem line (numBlocks : Int)).getD (line + 16 * i + 8 + c) 0
                  = mem.getD (line + 16 * i + 8 + c) 0)
            ∧ (flipBlockDXTC3 mem line (numBlocks : Int)).getD (line + 16 * i + 12) 0
              = mem.getD (line + 16 * i + 15) 0
            ∧ (flipBlockDXTC3 mem line (numBlocks : Int)).getD (line + 16 * i + 15) 0
              = mem.getD (line + 16 * i + 12) 0
            ∧ (flipBlockDXTC3 mem line (numBlocks : Int)).getD (line + 16 * i + 13) 0
              = mem.getD (line + 16 * i + 14) 0
            ∧ (flipBlockDXTC3 mem line (numBlocks : Int)).getD (line + 16 * i + 14) 0
              = mem.getD (line + 16 * i + 13) 0)
      ∧ (∀ j, j < line ∨ line + 16 * numBlocks ≤ j →
          (flipBlockDXTC3 mem line (numBlocks : Int)).getD j 0 = mem.getD j 0) := by
  refine ⟨by simp only [flipBlockDXTC3, flipBlockDXTC3Loop_length], ?_, ?_⟩
  · intro i hi
    have key := fun c hc => flipBlockDXTC3_byte mem line numBlocks i c h hi hc
    refine ⟨?_, ?_, key 12 (by decide), key 15 (by decide), key 13 (by decide),
      key 14 (by decide)⟩
    · intro c hc
      have k0 := key c (by omega)
      have k6 := key (6 + c) (by omega)
      have k2 := key (2 + c) (by omega)
      have k4 := key (4 + c) (by omega)
      simp only [← Nat.add_assoc] at k6 k2 k4
      interval_cases c <;> exact ⟨k0, k6, k2, k4⟩
    · intro c hc
      have k8 := key (8 + c) (by omega)
      simp only [← Nat.add_assoc] at k8
      interval_cases c <;> exact k8
  · intro j hj
    simp only [flipBlockDXTC3, Int.toNat_ofNat]
    rw [flipBlockDXTC3Loop_getD numBlocks mem line j h]
    rcases hj with hj | hj
    · rw [lineIdx_of_lt _ _ _ _ hj]
    · rw [lineIdx_of_ge _ _ _ _ hj]

/-- Witness of C16: one DXT3 block holding the bytes `0 .. 15`. -/
theorem flipBlockDXTC3_effect_witness :
    flipBlockDXTC3 (List.range 16) 0 1
        = [6, 7, 4, 5, 2, 3, 0, 1, 8, 9, 10, 11, 15, 14, 13, 12]
      ∧ (flipBlockDXTC3 (List.range 16) 0 ((1 : Nat) : Int)).length = (List.range 16).length :=
  ⟨by decide, (flipBlockDXTC3_effect (List.range 16) 0 1 (by decide)).1⟩

theorem write32_length (mem : List Nat) (off v : Nat) :
    (write32 mem off v).length = mem.length := by
  simp only [write32, writeBytes_length]

theorem write32_getD (mem : List Nat) (off v j : Nat) (h : off + 4 ≤ mem.length) :
    (write32 mem off v).getD j 0
      = if off ≤ j ∧ j < off + 4
        then [v % 256, v / 256 % 256, v / 65536 % 256, v / 16777216 % 256].getD (j - off) 0
        else mem.getD j 0 := by
  rw [write32, writeBytes_getD _ _ _ _ (by simpa using h)]
  rfl

theorem write32_getD_of_lt (mem : List Nat) (off v j : Nat) (h : off + 4 ≤ mem.length)
    (hj : j < off) : (write32 mem off v).getD j 0 = mem.getD j 0 := by
  rw [write32_getD _ _ _ _ h, if_neg (by omega)]

theorem write32_getD_of_ge (mem : List Nat) (off v j : Nat) (h : off + 4 ≤ mem.length)
    (hj : off + 4 ≤ j) : (write32 mem off v).getD j 0 = mem.getD j 0 := by
  rw [write32_getD _ _ _ _ h, if_neg (by omega)]

theorem write32_getD_at (mem : List Nat) (off v c : Nat) (h : off + 4 ≤ mem.length)
    (hc : c < 4) :
    (write32 mem off v).getD (off + c) 0
      = [v % 256, v / 256 % 256, v / 65536 % 256, v / 16777216 % 256].getD c 0 := by
  rw [write32_getD _ _ _ _ h, if_pos (by omega), Nat.add_sub_cancel_left]

theorem read32_write32 (mem : List Nat) (off v : Nat) (h : off + 4 ≤ mem.length) :
    read32 (write32 mem off v) off = v % U32 := by
  have h0 := write32_getD_at mem off v 0 h (by decide)
  have h1 := write32_getD_at mem off v 1 h (by decide)
  have h2 := write32_getD_at mem off v 2 h (by decide)
  have h3 := write32_getD_at mem off v 3 h (by decide)
  rw [Nat.add_zero] at h0
  simp only [List.getD_cons_zero, List.getD_cons_succ] at h0 h1 h2 h3
  unfold read32 U32
  rw [h0, h1, h2, h3]
  omega

theorem write32_write32 (mem : List Nat) (off v v' : Nat) (h : off + 4 ≤ mem.length) :
    write32 (write32 mem off v) off v' = write32 mem off v' := by
  apply list_eq_of_getD _ _ (by simp only [write32_length])
  intro j _
  rw [write32_getD _ _ _ _ (by rw [write32_length]; exact h), write32_getD _ _ _ _ h,
    write32_getD _ _ _ _ h]
  split <;> rfl

theorem write32_mod (mem : List Nat) (off v : Nat) :
    write32 mem off (v % U32) = write32 mem off v := by
  unfold write32 U32
  congr 1
  have e0 : v % 4294967296 % 256 = v % 256 := by omega
  have e1 : v % 4294967296 / 256 % 256 = v / 256 % 256 := by omega
  have e2 : v % 4294967296 / 65536 % 256 = v / 65536 % 256 := by omega
  have e3 : v % 4294967296 / 16777216 % 256 = v / 16777216 % 256 := by omega
  rw [e0, e1, e2, e3]

theorem or_mod_U32 (a x : Nat) : (a % U32 ||| x) % U32 = (a ||| x) % U32 := by
  have h : U32 = 2 ^ 32 := by decide
  rw [h]
  apply Nat.eq_of_testBit_eq
  intro i
  simp only [Nat.testBit_mod_two_pow, Nat.testBit_or]
  cases decide (i < 32) <;> simp

theorem orAt32_eq (mem : List Nat) (off x : Nat) :
    orAt32 mem off x = write32 mem off (read32 mem off ||| x) := by
  rw [orAt32, write32_mod]

theorem orAt32_write32 (mem : List Nat) (off v x : Nat) (h : off + 4 ≤ mem.length) :
    orAt32 (write32 mem off v) off x = write32 mem off (v ||| x) := by
  rw [orAt32, read32_write32 _ _ _ h, write32_write32 _ _ _ _ h, or_mod_U32, write32_mod]

/-- `flipDXT5Alpha` as two stores: the word at `row[0]` ORed with the swapped rows of the
second index group, then the word at `row[3]`, cleared to its high byte, ORed with the
swapped rows of the first index group as it was on entry. -/
theorem flipDXT5Alpha_eq (mem : List Nat) (block : Nat) (h : block + 9 ≤ mem.length) :
    flipDXT5Alpha mem block
      = write32
          (write32 mem (block + 2)
            (read32 mem (block + 2) ||| swappedRows (read24 mem (block + 5))))
          (block + 5)
          ((read32
              (write32 mem (block + 2)
                (read32 mem (block + 2) ||| swappedRows (read24 mem (block + 5))))
              (block + 5) &&& 0xff000000)
            ||| swappedRows (read24 mem (block + 2))) := by
  have h1 : block + 2 + 4 ≤ mem.length := by omega
  have h2 : ∀ v, block + 5 + 4 ≤ (write32 mem (block + 2) v).length := by
    intro v; rw [write32_length]; omega
  simp only [flipDXT5Alpha]
  rw [orAt32_eq mem (block + 2)]
  iterate 7 rw [orAt32_write32 _ _ _ _ h1]
  iterate 8 rw [orAt32_write32 _ _ _ _ (h2 _)]
  simp only [swappedRows, groupIndex, Nat.lor_assoc, ← Nat.shiftRight_add, Nat.mul_zero,
    Nat.shiftRight_zero, Nat.reduceMul, Nat.reduceAdd]

theorem groupIndex_le (bits k : Nat) : groupIndex bits k ≤ 7 := by
  unfold groupIndex
  have h : (bits >>> (3 * k)) &&& 7 ≤ 7 := Nat.and_le_right
  have := Nat.mod_le ((bits >>> (3 * k)) &&& 7) 256
  omega

theorem shiftLeft_lt_of_le7 (x s : Nat) (hx : x ≤ 7) (hs : s + 3 ≤ 24) : x <<< s < 2 ^ 24 := by
  rw [Nat.shiftLeft_eq]
  calc x * 2 ^ s < 2 ^ 3 * 2 ^ s :=
        Nat.mul_lt_mul_of_pos_right (Nat.lt_succ_of_le hx) (Nat.two_pow_pos s)
    _ = 2 ^ (3 + s) := (Nat.pow_add 2 3 s).symm
    _ ≤ 2 ^ 24 := Nat.pow_le_pow_right (by decide) (by omega)

theorem swappedRows_lt (bits : Nat) : swappedRows bits < 2 ^ 24 := by
  have s : ∀ k sh, sh + 3 ≤ 24 → groupIndex bits k <<< sh < 2 ^ 24 := fun k sh hsh =>
    shiftLeft_lt_of_le7 (groupIndex bits k) sh (groupIndex_le bits k) hsh
  exact Nat.or_lt_two_pow (Nat.or_lt_two_pow (Nat.or_lt_two_pow (Nat.or_lt_two_pow
    (Nat.or_lt_two_pow (Nat.or_lt_two_pow (Nat.or_lt_two_pow (s 4 0 (by decide))
      (s 5 3 (by decide))) (s 6 6 (by decide))) (s 7 9 (by decide))) (s 0 12 (by decide)))
      (s 1 15 (by decide))) (s 2 18 (by decide))) (s 3 21 (by decide))

/-- The high byte of a word survives an OR with a value below `2^24`. -/
theorem or_div_of_lt (x m : Nat) (hm : m < 2 ^ 24) :
    (x ||| m) / 16777216 = x / 16777216 := by
  have e : (16777216 : Nat) = 2 ^ 24 := by decide
  rw [e, ← Nat.shiftRight_eq_div_pow, ← Nat.shiftRight_eq_div_pow]
  apply Nat.eq_of_testBit_eq
  intro i
  simp only [Nat.testBit_shiftRight, Nat.testBit_or]
  have : m.testBit (24 + i) = false :=
    Nat.testBit_lt_two_pow (lt_of_lt_of_le hm (Nat.pow_le_pow_right (by decide) (by omega)))
  rw [this, Bool.or_false]

/-- Clearing a word to its high byte keeps the high byte. -/
theorem and_high_div (x : Nat) : (x &&& 0xff000000) / 16777216 % 256 = x / 16777216 % 256 := by
  have e : (16777216 : Nat) = 2 ^ 24 := by decide
  have e8 : (256 : Nat) = 2 ^ 8 := by decide
  rw [e, e8, ← Nat.shiftRight_eq_div_pow, ← Nat.shiftRight_eq_div_pow]
  apply Nat.eq_of_testBit_eq
  intro i
  simp only [Nat.testBit_mod_two_pow, Nat.testBit_shiftRight, Nat.testBit_and]
  rcases Nat.lt_or_ge i 8 with h | h
  · have : (0xff000000 : Nat).testBit (24 + i) = true := by
      interval_cases i <;> decide
    simp [this, h]
  · have hi : ¬ i < 8 := by omega
    simp [hi]

theorem getD_lt_of_valid (mem : List Nat) (hv : ∀ b ∈ mem, b < 256) (j : Nat) :
    mem.getD j 0 < 256 := by
  rw [List.getD_eq_getElem?_getD]
  rcases Nat.lt_or_ge j mem.length with h | h
  · rw [List.getElem?_eq_getElem h]
    exact hv _ (List.getElem_mem _)
  · rw [List.getElem?_eq_none_iff.mpr h]
    decide

theorem read32_readBytes (mem : List Nat) (off n o : Nat) (h : o + 4 ≤ n) :
    read32 (readBytes mem off n) o = read32 mem (off + o) := by
  unfold read32
  rw [readBytes_getD, readBytes_getD, readBytes_getD, readBytes_getD, if_pos (by omega),
    if_pos (by omega), if_pos (by omega), if_pos (by omega)]
  simp only [Nat.add_assoc]

theorem read24_readBytes (mem : List Nat) (off n o : Nat) (h : o + 3 ≤ n) :
    read24 (readBytes mem off n) o = read24 mem (off + o) := by
  unfold read24
  rw [readBytes_getD, readBytes_getD, readBytes_getD, if_pos (by omega), if_pos (by omega),
    if_pos (by omega)]
  simp only [Nat.add_assoc]

theorem readBytes_write32 (mem : List Nat) (off n o v : Nat) (h : o + 4 ≤ n)
    (hm : off + n ≤ mem.length) :
    readBytes (write32 mem (off + o) v) off n = write32 (readBytes mem off n) o v := by
  apply list_eq_of_getD _ _ (by rw [readBytes_length, write32_length, readBytes_length])
  intro i hi
  rw [readBytes_length] at hi
  rw [readBytes_getD, if_pos hi, write32_getD _ _ _ _ (by omega),
    write32_getD _ _ _ _ (by rw [readBytes_length]; exact h), readBytes_getD, if_pos hi]
  by_cases hc : o ≤ i ∧ i < o + 4
  · rw [if_pos hc, if_pos (by omega)]
    congr 1
    omega
  · rw [if_neg hc, if_neg (by omega)]

theorem flipDXT5Alpha_length (mem : List Nat) (block : Nat) (h : block + 9 ≤ mem.length) :
    (flipDXT5Alpha mem block).length = mem.length := by
  rw [flipDXT5Alpha_eq mem block h, write32_length, write32_length]

theorem flipDXT5Alpha_getD_of_lt (mem : List Nat) (block j : Nat) (h : block + 9 ≤ mem.length)
    (hj : j < block + 2) : (flipDXT5Alpha mem block).getD j 0 = mem.getD j 0 := by
  rw [flipDXT5Alpha_eq mem block h,
    write32_getD_of_lt _ _ _ _ (by rw [write32_length]; omega) (by omega),
    write32_getD_of_lt _ _ _ _ (by omega) hj]

theorem flipDXT5Alpha_getD_of_ge (mem : List Nat) (block j : Nat) (h : block + 9 ≤ mem.length)
    (hj : block + 9 ≤ j) : (flipDXT5Alpha mem block).getD j 0 = mem.getD j 0 := by
  rw [flipDXT5Alpha_eq mem block h,
    write32_getD_of_ge _ _ _ _ (by rw [write32_length]; omega) (by omega),
    write32_getD_of_ge _ _ _ _ (by omega) (by omega)]

theorem read32_high (m : List Nat) (off : Nat) (h0 : m.getD off 0 < 256)
    (h1 : m.getD (off + 1) 0 < 256) (h2 : m.getD (off + 2) 0 < 256)
    (h3 : m.getD (off + 3) 0 < 256) :
    read32 m off / 16777216 % 256 = m.getD (off + 3) 0 := by
  unfold read32
  omega

/-- The byte after the six index bytes, which the store at `row[3]` covers, keeps its
value when the bytes of the word are below 256. -/
theorem flipDXT5Alpha_getD_high (mem : List Nat) (block : Nat) (h : block + 9 ≤ mem.length)
    (hv : ∀ b ∈ mem, b < 256) :
    (flipDXT5Alpha mem block).getD (block + 8) 0 = mem.getD (block + 8) 0 := by
  have h1 : block + 2 + 4 ≤ mem.length := by omega
  have e8 : block + 8 = block + 5 + 3 := by omega
  rw [flipDXT5Alpha_eq mem block h, e8,
    write32_getD_at _ _ _ 3 (by rw [write32_length]; omega) (by decide)]
  simp only [List.getD_cons_succ, List.getD_cons_zero]
  rw [or_div_of_lt _ _ (swappedRows_lt _), and_high_div]
  generalize read32 mem (block + 2) ||| swappedRows (read24 mem (block + 5)) = w1
  have e5 : block + 5 = block + 2 + 3 := by omega
  have b5 := write32_getD_at mem (block + 2) w1 3 h1 (by decide)
  simp only [List.getD_cons_succ, List.getD_cons_zero] at b5
  rw [← e5] at b5
  have b6 := write32_getD_of_ge mem (block + 2) w1 (block + 5 + 1) h1 (by omega)
  have b7 := write32_getD_of_ge mem (block + 2) w1 (block + 5 + 2) h1 (by omega)
  have b8 := write32_getD_of_ge mem (block + 2) w1 (block + 5 + 3) h1 (by omega)
  rw [read32_high _ _ (by rw [b5]; exact Nat.mod_lt _ (by decide))
    (by rw [b6]; exact getD_lt_of_valid mem hv _)
    (by rw [b7]; exact getD_lt_of_valid mem hv _)
    (by rw [b8]; exact getD_lt_of_valid mem hv _), b8]

/-- `flipDXT5Alpha` commutes with cutting the 16-byte block out of the buffer. -/
theorem flipDXT5Alpha_window (mem : List Nat) (block : Nat) (h : block + 16 ≤ mem.length) :
    readBytes (flipDXT5Alpha mem block) block 16 = flipDXT5Alpha (readBytes mem block 16) 0 := by
  rw [flipDXT5Alpha_eq mem block (by omega),
    flipDXT5Alpha_eq (readBytes mem block 16) 0 (by rw [readBytes_length]; omega)]
  simp only [Nat.zero_add]
  rw [read32_readBytes mem block 16 2 (by decide), read24_readBytes mem block 16 5 (by decide),
    read24_readBytes mem block 16 2 (by decide),
    ← readBytes_write32 mem block 16 2 _ (by decide) h,
    read32_readBytes _ block 16 5 (by decide),
    ← readBytes_write32 _ block 16 5 _ (by decide) (by rw [write32_length]; exact h)]

/-- C14: on a buffer of bytes that holds the 16-byte DXT5 block at `block`,
`flipDXT5Alpha` keeps the length of the buffer and every byte except the six index bytes
at offsets 2..7 of the block; in particular `alpha0` and `alpha1` (offsets 0 and 1) and
the byte at offset 8, the high byte of the word read and written at `row[3]`, are as
before. The routine acts on the block alone: the block afterwards is what the routine
makes of the 16 bytes taken by themselves, so no access leaves the block. -/
theorem flipDXT5Alpha_frame (mem : List Nat) (block : Nat) (h : block + 16 ≤ mem.length)
    (hv : ∀ b ∈ mem, b < 256) :
    (flipDXT5Alpha mem block).length = mem.length
      ∧ (∀ j, j < block + 2 ∨ block + 8 ≤ j →
          (flipDXT5Alpha mem block).getD j 0 = mem.getD j 0)
      ∧ (flipDXT5Alpha mem block).getD block 0 = mem.getD block 0
      ∧ (flipDXT5Alpha mem block).getD (block + 1) 0 = mem.getD (block + 1) 0
      ∧ (flipDXT5Alpha mem block).getD (block + 8) 0 = mem.getD (block + 8) 0
      ∧ readBytes (flipDXT5Alpha mem block) block 16
          = flipDXT5Alpha (readBytes mem block 16) 0 := by
  refine ⟨flipDXT5Alpha_length mem block (by omega), ?_,
    flipDXT5Alpha_getD_of_lt mem block _ (by omega) (by omega),
    flipDXT5Alpha_getD_of_lt mem block _ (by omega) (by omega),
    flipDXT5Alpha_getD_high mem block (by omega) hv,
    flipDXT5Alpha_window mem block h⟩
  intro j hj
  rcases hj with hj | hj
  · exact flipDXT5Alpha_getD_of_lt mem block j (by omega) hj
  · rcases Nat.eq_or_lt_of_le hj with h8 | h9
    · rw [← h8]
      exact flipDXT5Alpha_getD_high mem block (by omega) hv
    · exact flipDXT5Alpha_getD_of_ge mem block j (by omega) (by omega)

/-- Witness of C14: a 16-byte block with index bytes `18, 52, 86, 120, 154, 188` and the
colour block `1 .. 8`. -/
theorem flipDXT5Alpha_frame_witness :
    flipDXT5Alpha [200, 100, 18, 52, 86, 120, 154, 188, 1, 2, 3, 4, 5, 6, 7, 8] 0
        = [200, 100, 219, 191, 247, 99, 37, 65, 1, 2, 3, 4, 5, 6, 7, 8]
      ∧ (flipDXT5Alpha [200, 100, 18, 52, 86, 120, 154, 188, 1, 2, 3, 4, 5, 6, 7, 8] 0).getD
          (0 + 8) 0 = 1 :=
  ⟨by decide, (flipDXT5Alpha_frame [200, 100, 18, 52, 86, 120, 154, 188, 1, 2, 3, 4, 5, 6, 7, 8]
    0 (by decide) (by decide)).2.2.2.2.1⟩

/-- C12, the code on a block with the index rows `1 2 3 4`, `5 6 7 0`, `0 1 0 1`,
`2 0 2 0`: after `flipDXT5Alpha` rows 2 and 3 hold the former rows 1 and 0, but rows 0 and
1 hold `3 2 3 4` and `5 7 7 1`, the bitwise OR of the former rows 0 and 3 and of the former
rows 1 and 2, not the former rows 3 and 2; index (0, 0) is 3 where the mirror has 2. -/
theorem flipDXT5Alpha_grid :
    alphaGrid gridBlock = [[1, 2, 3, 4], [5, 6, 7, 0], [0, 1, 0, 1], [2, 0, 2, 0]]
      ∧ alphaGrid (flipDXT5Alpha gridBlock 0)
        = [[3, 2, 3, 4], [5, 7, 7, 1], [5, 6, 7, 0], [1, 2, 3, 4]]
      ∧ alphaIndex (flipDXT5Alpha gridBlock 0) 0 0 = 3
      ∧ alphaIndex gridBlock (3 - 0) 0 = 2 :=
  ⟨by decide, by decide, by decide, by decide⟩

/-- C13, the code on the same block: the 16 indices before the flip hold five zeros, the 16
indices after it hold one, so the multiset of the indices after the flip is not the multiset
of the indices before it. -/
theorem flipDXT5Alpha_indices :
    alphaIndices gridBlock = [1, 2, 3, 4, 5, 6, 7, 0, 0, 1, 0, 1, 2, 0, 2, 0]
      ∧ alphaIndices (flipDXT5Alpha gridBlock 0)
        = [3, 2, 3, 4, 5, 7, 7, 1, 5, 6, 7, 0, 1, 2, 3, 4]
      ∧ (alphaIndices gridBlock).count 0 = 5
      ∧ (alphaIndices (flipDXT5Alpha gridBlock 0)).count 0 = 1
      ∧ (alphaIndices (flipDXT5Alpha gridBlock 0) : Multiset Nat)
        ≠ (alphaIndices gridBlock : Multiset Nat) :=
  ⟨by decide, by decide, by decide, by decide,
    fun h => absurd ((Multiset.coe_eq_coe.mp h).count_eq 0) (by decide)⟩

theorem readBytes_readBytes (m : List Nat) (off n o k : Nat) (h : o + k ≤ n) :
    readBytes (readBytes m off n) o k = readBytes m (off + o) k := by
  apply readBytes_ext
  intro i hi
  rw [readBytes_getD, if_pos (by omega), Nat.add_assoc]

theorem readBytes_congr_outside (m m' : List Nat) (a n : Nat)
    (h : ∀ j, a ≤ j → j < a + n → m.getD j 0 = m'.getD j 0) :
    readBytes m a n = readBytes m' a n :=
  readBytes_ext m m' a a n (fun i hi => h (a + i) (by omega) (by omega))

theorem list_eq_of_blocks (a b : List Nat) (bs n : Nat) (ha : a.length = bs * n)
    (hb : b.length = bs * n)
    (h : ∀ i, i < n → readBytes a (bs * i) bs = readBytes b (bs * i) bs) : a = b := by
  apply list_eq_of_getD _ _ (by rw [ha, hb])
  intro j hj
  rw [ha] at hj
  have hpos : 0 < bs := by
    rcases Nat.eq_zero_or_pos bs with h0 | h0
    · rw [h0] at hj; simp at hj
    · exact h0
  have hi : j / bs < n := by
    rw [Nat.div_lt_iff_lt_mul hpos, Nat.mul_comm]; exact hj
  have ho : j % bs < bs := Nat.mod_lt _ hpos
  have hj' : bs * (j / bs) + j % bs = j := Nat.div_add_mod j bs
  have := getD_of_readBytes_eq _ _ _ _ _ _ (h _ hi) ho
  rw [hj'] at this
  exact this

section BlockLoop

variable {L : Nat → List Nat → Nat → List Nat} {bs : Nat}

theorem blockLoop_length (hL : BlockStep L bs) (n : Nat) (mem : List Nat) (cur : Nat) :
    (L n mem cur).length = mem.length := by
  induction n generalizing mem cur with
  | zero => rw [hL.zero]
  | succ n ih => rw [hL.succ, ih, hL.length]

/-- A block-line loop over `n` blocks inside the buffer keeps every byte outside the `n`
blocks and turns block `i` into the one-block routine applied to block `i` by itself. -/
theorem blockLoop_spec (hL : BlockStep L bs) (n : Nat) :
    ∀ (mem : List Nat) (cur : Nat), cur + bs * n ≤ mem.length →
      (∀ j, j < cur ∨ cur + bs * n ≤ j → (L n mem cur).getD j 0 = mem.getD j 0)
        ∧ (∀ i, i < n → readBytes (L n mem cur) (cur + bs * i) bs
            = L 1 (readBytes mem (cur + bs * i) bs) 0) := by
  induction n with
  | zero =>
    intro mem cur _
    exact ⟨fun j _ => by rw [hL.zero], fun i hi => absurd hi (by omega)⟩
  | succ n ih =>
    intro mem cur h
    have e : bs * (n + 1) = bs + bs * n := by rw [Nat.mul_add, Nat.mul_one, Nat.add_comm]
    rw [e] at h
    have hl1 : (L 1 mem cur).length = mem.length := hL.length mem cur
    obtain ⟨hout, hblk⟩ := ih (L 1 mem cur) (cur + bs) (by rw [hl1]; omega)
    rw [hL.succ]
    constructor
    · intro j hj
      rw [e] at hj
      rw [hout j (by omega), hL.outside mem cur j (by omega) (by omega)]
    · intro i hi
      cases i with
      | zero =>
        rw [Nat.mul_zero, Nat.add_zero, ← hL.window mem cur (by omega)]
        exact readBytes_congr_outside _ _ _ _ (fun j h1 h2 => hout j (Or.inl h2))
      | succ i =>
        have e2 : cur + bs * (i + 1) = cur + bs + bs * i := by
          rw [Nat.mul_add, Nat.mul_one]; omega
        have hle : bs * i + bs ≤ bs * n := by
          have := Nat.mul_le_mul_left bs (Nat.succ_le_of_lt (Nat.lt_of_succ_lt_succ hi))
          rw [Nat.succ_eq_add_one, Nat.mul_add, Nat.mul_one] at this
          exact this
        rw [e2, hblk i (by omega)]
        congr 1
        exact readBytes_congr_outside _ _ _ _
          (fun j h1 h2 => hL.outside mem cur j (by omega) (Or.inr (by omega)))

/-- A block-line routine built on a block loop is local to the line, and what it makes of
a line is what it makes of the line taken by itself. -/
theorem rowLocal_of_blockStep (hL : BlockStep L bs) (xb : Nat) :
    RowLocal (fun mem line (numBlocks : Int) => L numBlocks.toNat mem line) (xb : Int)
      (bs * xb) (fun row => L xb row 0) where
  length mem line := by
    simp only [Int.toNat_ofNat]
    exact blockLoop_length hL xb mem line
  outside mem line j h hj := by
    simp only [Int.toNat_ofNat]
    exact (blockLoop_spec hL xb mem line h).1 j hj
  inside mem line h := by
    simp only [Int.toNat_ofNat]
    apply list_eq_of_blocks _ _ bs xb (readBytes_length _ _ _)
      (by rw [blockLoop_length hL, readBytes_length])
    intro i hi
    have hle : bs * i + bs ≤ bs * xb := by
      have := Nat.mul_le_mul_left bs (Nat.succ_le_of_lt hi)
      rw [Nat.succ_eq_add_one, Nat.mul_add, Nat.mul_one] at this
      exact this
    have hr := (blockLoop_spec hL xb (readBytes mem line (bs * xb)) 0
      (by rw [readBytes_length]; omega)).2 i hi
    rw [Nat.zero_add] at hr
    rw [readBytes_readBytes _ _ _ _ _ hle, (blockLoop_spec hL xb mem line h).2 i hi, hr,
      readBytes_readBytes _ _ _ _ _ hle]

end BlockLoop

theorem blockStep_of_lineIdx (L : Nat → List Nat → Nat → List Nat) (bs : Nat) (p : Nat → Nat)
    (hzero : ∀ mem cur, L 0 mem cur = mem)
    (hsucc : ∀ n mem cur, L (n + 1) mem cur = L n (L 1 mem cur) (cur + bs))
    (hlen : ∀ mem cur, (L 1 mem cur).length = mem.length)
    (hget : ∀ mem cur j, cur + bs ≤ mem.length →
      (L 1 mem cur).getD j 0 = mem.getD (lineIdx p cur bs j) 0)
    (hp : ∀ o, o < bs → p o < bs) : BlockStep L bs where
  zero := hzero
  succ := hsucc
  length := hlen
  outside mem cur j h hj := by
    rw [hget mem cur j h]
    rcases hj with hj | hj
    · rw [lineIdx_of_lt _ _ _ _ hj]
    · rw [lineIdx_of_ge _ _ _ _ hj]
  window mem cur h := by
    apply list_eq_of_getD _ _ (by rw [readBytes_length, hlen, readBytes_length])
    intro j hj
    rw [readBytes_length] at hj
    rw [readBytes_getD, if_pos hj, hget mem cur _ h,
      hget _ 0 j (by rw [readBytes_length]; omega),
      lineIdx_of_mem _ _ _ _ (by omega) (by omega),
      lineIdx_of_mem _ _ _ _ (by omega) (by omega), readBytes_getD]
    have e1 : cur + j - cur = j := by omega
    have e2 : j - 0 = j := by omega
    rw [e1, e2, Nat.zero_add, if_pos (hp j hj)]

theorem flipBlockDXTC1Loop_blockStep : BlockStep flipBlockDXTC1Loop 8 :=
  blockStep_of_lineIdx _ _ srcDXT1 (fun _ _ => rfl) (fun _ _ _ => rfl)
    (fun mem cur => flipBlockDXTC1Loop_length 1 mem cur)
    (fun mem cur j h => flipBlockDXTC1Loop_getD 1 mem cur j (by omega))
    (fun o ho => srcDXT1_lt 1 o (by omega))

theorem flipBlockDXTC3Loop_blockStep : BlockStep flipBlockDXTC3Loop 16 :=
  blockStep_of_lineIdx _ _ srcDXT3 (fun _ _ => rfl) (fun _ _ _ => rfl)
    (fun mem cur => flipBlockDXTC3Loop_length 1 mem cur)
    (fun mem cur j h => flipBlockDXTC3Loop_getD 1 mem cur j (by omega))
    (fun o ho => srcDXT3_lt 1 o (by omega))

theorem flipDXT5Alpha_length_eq (mem : List Nat) (block : Nat) :
    (flipDXT5Alpha mem block).length = mem.length := by
  simp only [flipDXT5Alpha, orAt32, write32_length]

theorem readBytes_swapMemory (m : List Nat) (cur a b n w : Nat) (h : cur + w ≤ m.length)
    (ha : a + n ≤ w) (hb : b + n ≤ w) (hd : a + n ≤ b ∨ b + n ≤ a) :
    readBytes (swapMemory m (cur + a) (cur + b) n) cur w
      = swapMemory (readBytes m cur w) a b n := by
  apply list_eq_of_getD _ _ (by rw [readBytes_length, swapMemory_length, readBytes_length])
  intro j hj
  rw [readBytes_length] at hj
  rw [readBytes_getD, if_pos hj,
    swapMemory_getD_idx _ _ _ _ _ (by omega) (by omega) (by omega),
    swapMemory_getD_idx _ _ _ _ _ (by rw [readBytes_length]; omega)
      (by rw [readBytes_length]; omega) hd,
    swapIdx_shift, readBytes_getD]
  have : swapIdx a b n j < w := by
    unfold swapIdx
    split_ifs <;> omega
  rw [if_pos this]

theorem readBytes_swapMemory_one (m : List Nat) (cur a b w : Nat) (h : cur + w ≤ m.length)
    (ha : a + 1 ≤ w) (hb : b + 1 ≤ w) (hd : a ≠ b) :
    readBytes (swapMemory m (cur + a) (cur + b) 1) cur w
      = swapMemory (readBytes m cur w) a b 1 :=
  readBytes_swapMemory m cur a b 1 w h ha hb (by omega)

theorem flipBlockDXTC5Loop_one (mem : List Nat) (cur : Nat) :
    flipBlockDXTC5Loop 1 mem cur
      = swapMemory (swapMemory (flipDXT5Alpha mem cur) (cur + 12) (cur + 15) 1)
          (cur + 13) (cur + 14) 1 := rfl

theorem flipBlockDXTC5Loop_blockStep : BlockStep flipBlockDXTC5Loop 16 where
  zero _ _ := rfl
  succ _ _ _ := rfl
  length mem cur := by
    rw [flipBlockDXTC5Loop_one, swapMemory_length, swapMemory_length, flipDXT5Alpha_length_eq]
  outside mem cur j h hj := by
    have hl := flipDXT5Alpha_length_eq mem cur
    rw [flipBlockDXTC5Loop_one,
      swapMemory_one_getD _ _ _ _ (by rw [swapMemory_length, hl]; omega)
        (by rw [swapMemory_length, hl]; omega) (by omega),
      swapMemory_one_getD _ _ _ _ (by rw [hl]; omega) (by rw [hl]; omega) (by omega)]
    rcases hj with hj | hj
    · rw [swapIdx_of_lt (cur + 13) _ _ j (by omega) (by omega),
        swapIdx_of_lt _ _ _ _ (by omega) (by omega),
        flipDXT5Alpha_getD_of_lt _ _ _ (by omega) (by omega)]
    · rw [swapIdx_of_ge (cur + 13) _ _ j (by omega) (by omega),
        swapIdx_of_ge _ _ _ _ (by omega) (by omega),
        flipDXT5Alpha_getD_of_ge _ _ _ (by omega) (by omega)]
  window mem cur h := by
    have hl := flipDXT5Alpha_length_eq mem cur
    rw [flipBlockDXTC5Loop_one, flipBlockDXTC5Loop_one]
    simp only [Nat.zero_add]
    rw [← flipDXT5Alpha_window mem cur h]
    have s1 := readBytes_swapMemory_one (flipDXT5Alpha mem cur) cur 12 15 16 (by rw [hl]; exact h)
      (by decide) (by decide) (by decide)
    have s2 := readBytes_swapMemory_one
      (swapMemory (flipDXT5Alpha mem cur) (cur + 12) (cur + 15) 1)
      cur 13 14 16 (by rw [swapMemory_length, hl]; exact h) (by decide) (by decide) (by decide)
    rw [← s1]
    exact s2

theorem flipRows_blocks {L : Nat → List Nat → Nat → List Nat} {bs : Nat} (hL : BlockStep L bs)
    (xb yb : Nat) (s : List Nat) (hs : yb * (bs * xb) ≤ s.length) (fuel : Nat)
    (hfuel : 0 < bs * xb → yb ≤ fuel + 1) :
    ∃ out, flipRows (fun mem line (numBlocks : Int) => L numBlocks.toNat mem line) (xb : Int)
          ((bs * xb : Nat) : Int) fuel s 0 (((yb : Int) - 1) * ((bs * xb : Nat) : Int))
          = some out
      ∧ out.length = s.length
      ∧ ∀ r, r < yb → ∀ c, c < xb → blockAt out bs xb r c
          = if r + r + 1 = yb then blockAt s bs xb r c
            else L 1 (blockAt s bs xb (yb - 1 - r) c) 0 := by
  obtain ⟨out, hrun, hlen, _, hrow⟩ :=
    flipRows_surface (rowLocal_of_blockStep hL xb) yb s hs fuel hfuel
  refine ⟨out, hrun, hlen, ?_⟩
  intro r hr c hc
  have hle : bs * c + bs ≤ bs * xb := by
    have := Nat.mul_le_mul_left bs (Nat.succ_le_of_lt hc)
    rw [Nat.succ_eq_add_one, Nat.mul_add, Nat.mul_one] at this
    exact this
  have e : ∀ q, (q * xb + c) * bs = q * (bs * xb) + bs * c := fun q => by ring
  have hb : ∀ (m : List Nat) (q : Nat),
      blockAt m bs xb q c = readBytes (readBytes m (q * (bs * xb)) (bs * xb)) (bs * c) bs :=
    fun m q => by rw [blockAt, e, readBytes_readBytes _ _ _ _ _ hle]
  rw [hb out r, hrow r hr]
  by_cases hm : r + r + 1 = yb
  · rw [if_pos hm, if_pos hm, hb s r]
  · rw [if_neg hm, if_neg hm, hb s (yb - 1 - r)]
    have := (blockLoop_spec hL xb (readBytes s ((yb - 1 - r) * (bs * xb)) (bs * xb)) 0
      (by rw [readBytes_length]; omega)).2 c hc
    rw [Nat.zero_add] at this
    exact this

theorem four_mul_shiftRight_two (xb : Nat) : (4 * (xb : Int)) >>> 2 = (xb : Int) := by
  have e : (4 * (xb : Int)) = ((4 * xb : Nat) : Int) := by push_cast; rfl
  rw [e, natCast_shiftRight_two, Nat.mul_div_cancel_left _ (by decide : 0 < 4)]

theorem blocks_of_flipCompressedTexture (format : Nat) (xb yb : Nat) (s : List Nat)
    (hf : format = GL_COMPRESSED_RGBA_S3TC_DXT1_EXT ∨ format = GL_COMPRESSED_RGBA_S3TC_DXT3_EXT
      ∨ format = GL_COMPRESSED_RGBA_S3TC_DXT5_EXT)
    (hL : fitsInt ((xb : Int) * (blockSize format : Int)))
    (hO : fitsInt (((yb : Int) - (1 : Int)) * ((xb : Int) * (blockSize format : Int))))
    (hs : yb * (blockSize format * xb) ≤ s.length) :
    ∃ out, flipCompressedTexture (4 * (xb : Int)) (4 * (yb : Int)) format s = some out
      ∧ out.length = s.length
      ∧ ∀ r, r < yb → ∀ c, c < xb → blockAt out (blockSize format) xb r c
          = if r + r + 1 = yb then blockAt s (blockSize format) xb r c
            else flipBlock format (blockAt s (blockSize format) xb (yb - 1 - r) c) := by
  have h31 : GL_COMPRESSED_RGBA_S3TC_DXT3_EXT ≠ GL_COMPRESSED_RGBA_S3TC_DXT1_EXT := by decide
  have h51 : GL_COMPRESSED_RGBA_S3TC_DXT5_EXT ≠ GL_COMPRESSED_RGBA_S3TC_DXT1_EXT := by decide
  have h53 : GL_COMPRESSED_RGBA_S3TC_DXT5_EXT ≠ GL_COMPRESSED_RGBA_S3TC_DXT3_EXT := by decide
  have e8 : ((xb : Nat) : Int) * 8 = ((8 * xb : Nat) : Int) := by push_cast; ring
  have e16 : ((xb : Nat) : Int) * 16 = ((16 * xb : Nat) : Int) := by push_cast; ring
  rw [flipCompressedTexture_of_fits _ _ format s
    (by rw [four_mul_shiftRight_two]; exact hL)
    (by rw [four_mul_shiftRight_two, four_mul_shiftRight_two]; exact hO)]
  simp only [four_mul_shiftRight_two]
  rcases hf with hf | hf | hf
  · subst hf
    simp only [blockSize, if_true] at hs ⊢
    have key := flipRows_blocks flipBlockDXTC1Loop_blockStep xb yb s hs _
      (fuel_enough yb (8 * xb))
    simp only [e8, flipBlock, if_true]
    exact key
  · subst hf
    simp only [blockSize, if_neg h31, if_true] at hs ⊢
    have key := flipRows_blocks flipBlockDXTC3Loop_blockStep xb yb s hs _
      (fuel_enough yb (16 * xb))
    simp only [e16, flipBlock, if_neg h31, if_true]
    exact key
  · subst hf
    simp only [blockSize, if_neg h51, if_neg h53, if_true] at hs ⊢
    have key := flipRows_blocks flipBlockDXTC5Loop_blockStep xb yb s hs _
      (fuel_enough yb (16 * xb))
    simp only [e16, flipBlock, if_neg h51, if_neg h53, if_true]
    exact key

/-- C11, the code: for each of the three formats, every `xb`, `yb` for which `4 * xb`,
`4 * yb` and the products `xblocks * blocksize` and `(yblocks - (1 : Int)) * linesize` are in the
range of `int`, and every surface that holds the `yb` rows of `xb` blocks,
`flipCompressedTexture(4 * xb, 4 * yb, format, surface)` finishes, keeps the length, and
leaves at row `r`, column `c` the per-block flip of the input block at row `yb - 1 - r`,
column `c`, except in the middle row of an odd number of rows, whose blocks are left as
they were. On one DXT1 block with index rows `1, 2, 3, 4` the surface comes back unchanged,
where the per-block flip of the block has the rows `4, 3, 2, 1`. -/
theorem flipCompressedTexture_blocks :
    (∀ (format xb yb : Nat) (s : List Nat),
        (format = GL_COMPRESSED_RGBA_S3TC_DXT1_EXT ∨ format = GL_COMPRESSED_RGBA_S3TC_DXT3_EXT
          ∨ format = GL_COMPRESSED_RGBA_S3TC_DXT5_EXT) →
        fitsInt (4 * (xb : Int)) → fitsInt (4 * (yb : Int)) →
        fitsInt ((xb : Int) * (blockSize format : Int)) →
        fitsInt (((yb : Int) - (1 : Int)) * ((xb : Int) * (blockSize format : Int))) →
        yb * (blockSize format * xb) ≤ s.length →
        ∃ out, flipCompressedTexture (4 * (xb : Int)) (4 * (yb : Int)) format s = some out
          ∧ out.length = s.length
          ∧ ∀ r, r < yb → ∀ c, c < xb → blockAt out (blockSize format) xb r c
              = if r + r + 1 = yb then blockAt s (blockSize format) xb r c
                else flipBlock format (blockAt s (blockSize format) xb (yb - 1 - r) c))
      ∧ flipCompressedTexture 4 4 GL_COMPRESSED_RGBA_S3TC_DXT1_EXT oneBlockDXT1
        = some oneBlockDXT1
      ∧ blockAt oneBlockDXT1 8 1 0 0 = [0, 0, 0, 0, 1, 2, 3, 4]
      ∧ flipBlock GL_COMPRESSED_RGBA_S3TC_DXT1_EXT (blockAt oneBlockDXT1 8 1 (1 - 1 - 0) 0)
        = [0, 0, 0, 0, 4, 3, 2, 1] :=
  ⟨fun format xb yb s hf _ _ hL hO hs => blocks_of_flipCompressedTexture format xb yb s hf hL hO hs,
    by decide, by decide, by decide⟩

/-! ### The swap primitive, termination of the row loop and the two index groups -/

theorem swapMemory_stack (mem : List Nat) (a b : Nat) (size : Nat) (h : size < 2048) :
    swapMemory mem a b size = swapThrough 2048 mem a b size := by
  unfold swapMemory swapThrough
  rw [if_pos h]

theorem swapMemory_heap (mem : List Nat) (a b : Nat) (size : Nat) (h : ¬ size < 2048) :
    swapMemory mem a b size = swapThrough size mem a b size := by
  unfold swapMemory swapThrough
  rw [if_neg h]

theorem swapThrough_eq (tmpSize : Nat) (mem : List Nat) (a b n : Nat) (h : n ≤ tmpSize) :
    swapThrough tmpSize mem a b n
      = writeBytes (writeBytes mem a (readBytes mem b n)) b (readBytes mem a n) := by
  have := readBytes_writeBytes_scratch tmpSize (readBytes mem a n)
    (by rw [readBytes_length]; exact h)
  rw [readBytes_length] at this
  simp only [swapThrough, memcpy]
  rw [this]

theorem exchangeRegions_length (mem : List Nat) (a b n : Nat) :
    (exchangeRegions mem a b n).length = mem.length := by
  simp [exchangeRegions]

theorem exchangeRegions_getD (mem : List Nat) (a b n j : Nat) (hj : j < mem.length) :
    (exchangeRegions mem a b n).getD j 0
      = if a ≤ j ∧ j < a + n then mem.getD (b + (j - a)) 0
        else if b ≤ j ∧ j < b + n then mem.getD (a + (j - b)) 0
        else mem.getD j 0 := by
  simp [exchangeRegions, List.getD_eq_getElem?_getD, List.getElem?_map,
    List.getElem?_range hj]

theorem swapMemory_eq_exchangeRegions (mem : List Nat) (a b n : Nat)
    (ha : a + n ≤ mem.length) (hb : b + n ≤ mem.length) (hd : a + n ≤ b ∨ b + n ≤ a) :
    swapMemory mem a b n = exchangeRegions mem a b n := by
  apply list_eq_of_getD _ _ (by rw [swapMemory_length, exchangeRegions_length])
  intro j hj
  rw [swapMemory_length] at hj
  rw [swapMemory_getD mem a b n j ha hb hd, exchangeRegions_getD mem a b n j hj]

/-- C21: for two regions of `n` bytes at `a` and `b` inside the buffer that do not overlap,
`swapMemory` returns the buffer with the two regions exchanged: the region at `a` holds the
former bytes of the region at `b` and conversely, every other byte and the length are as
before. The stack branch (`n < 2048`, scratch buffer of 2048 bytes) and the heap branch
(`n >= 2048`, scratch buffer of `n` bytes) are the same three copies through a scratch
buffer, and with any scratch buffer of at least `n` bytes these give the exchange. -/
theorem swapMemory_exchanges (mem : List Nat) (a b n : Nat)
    (ha : a + n ≤ mem.length) (hb : b + n ≤ mem.length) (hd : a + n ≤ b ∨ b + n ≤ a) :
    swapMemory mem a b n = exchangeRegions mem a b n
      ∧ readBytes (swapMemory mem a b n) a n = readBytes mem b n
      ∧ readBytes (swapMemory mem a b n) b n = readBytes mem a n
      ∧ (∀ j, ¬ (a ≤ j ∧ j < a + n) → ¬ (b ≤ j ∧ j < b + n) →
          (swapMemory mem a b n).getD j 0 = mem.getD j 0)
      ∧ (swapMemory mem a b n).length = mem.length
      ∧ (n < 2048 → swapMemory mem a b n = swapThrough 2048 mem a b n)
      ∧ (2048 ≤ n → swapMemory mem a b n = swapThrough n mem a b n)
      ∧ (∀ tmpSize, n ≤ tmpSize →
          swapThrough tmpSize mem a b n = exchangeRegions mem a b n) := by
  have hx := swapMemory_eq_exchangeRegions mem a b n ha hb hd
  refine ⟨hx, ?_, ?_, ?_, swapMemory_length _ _ _ _, ?_, ?_, ?_⟩
  · apply readBytes_ext
    intro i hi
    rw [swapMemory_getD mem a b n _ ha hb hd, if_pos (by omega), Nat.add_sub_cancel_left]
  · apply readBytes_ext
    intro i hi
    rw [swapMemory_getD mem a b n _ ha hb hd, if_neg (by omega), if_pos (by omega),
      Nat.add_sub_cancel_left]
  · intro j h1 h2
    rw [swapMemory_getD mem a b n _ ha hb hd, if_neg h1, if_neg h2]
  · intro hn
    exact swapMemory_stack mem a b n hn
  · intro hn
    exact swapMemory_heap mem a b n (by omega)
  · intro tmpSize ht
    rw [swapThrough_eq tmpSize mem a b n ht, ← hx, swapMemory_eq]

/-- Witness of C21: two regions of 2 bytes in a buffer of 6 bytes on the stack branch, and
two regions of 2048 bytes in a buffer of 4096 bytes on the heap branch. -/
theorem swapMemory_exchanges_witness :
    swapMemory [10, 11, 12, 13, 14, 15] 0 3 2 = [13, 14, 12, 10, 11, 15]
      ∧ exchangeRegions [10, 11, 12, 13, 14, 15] 0 3 2 = [13, 14, 12, 10, 11, 15]
      ∧ swapMemory [10, 11, 12, 13, 14, 15] 0 3 2
        = exchangeRegions [10, 11, 12, 13, 14, 15] 0 3 2
      ∧ swapMemory (List.range 4096) 0 2048 2048
        = exchangeRegions (List.range 4096) 0 2048 2048
      ∧ swapMemory (List.range 4096) 0 2048 2048
        = swapThrough 2048 (List.range 4096) 0 2048 2048 :=
  ⟨by decide, by decide,
    (swapMemory_exchanges [10, 11, 12, 13, 14, 15] 0 3 2 (by decide) (by decide)
      (by decide)).1,
    (swapMemory_exchanges (List.range 4096) 0 2048 2048 (by simp) (by simp) (by simp)).1,
    (swapMemory_exchanges (List.range 4096) 0 2048 2048 (by simp) (by simp)
      (by simp)).2.2.2.2.2.2.1 (le_refl _)⟩

theorem flipRows_of_not_lt (F : List Nat → Nat → Int → List Nat) (xblocks linesize : Int)
    (fuel : Nat) (s : List Nat) (top bottom : Int) (h : ¬ top < bottom) :
    flipRows F xblocks linesize fuel s top bottom = some s := by
  rw [flipRows.eq_def, if_neg h]

/-- Entered with a negative line size, the loop of `flipCompressedTexture` reaches
`swapMemory` with that negative size in its first iteration: no surface is returned,
whatever the fuel. -/
theorem flipRows_negative (F : List Nat → Nat → Int → List Nat) (xblocks linesize : Int)
    (hneg : linesize < 0) (fuel : Nat) (s : List Nat) (top bottom : Int) (h : top < bottom) :
    flipRows F xblocks linesize fuel s top bottom = none := by
  rw [flipRows.eq_def, if_pos h]
  cases fuel with
  | zero => rfl
  | succ fuel => simp only [if_pos hneg]

/-- With a positive line size the loop of `flipCompressedTexture` finishes within `fuel`
iterations when `bottom - top` is at most `fuel` times two lines, whatever the surface, and
keeps the length of the surface when the block-line routine does. -/
theorem flipRows_finishes (F : List Nat → Nat → Int → List Nat) (xblocks linesize : Int)
    (hF : ∀ mem line, (F mem line xblocks).length = mem.length) (fuel : Nat) :
    ∀ (s : List Nat) (top bottom : Int),
      (bottom ≤ top ∨ (0 < linesize ∧ bottom - top ≤ (fuel : Int) * (2 * linesize))) →
      ∃ out, flipRows F xblocks linesize fuel s top bottom = some out
        ∧ out.length = s.length := by
  induction fuel with
  | zero =>
    intro s top bottom h
    have hn : ¬ top < bottom := by
      rcases h with h | ⟨_, h⟩
      · omega
      · simp only [Nat.cast_zero, Int.zero_mul] at h; omega
    exact ⟨s, flipRows_of_not_lt _ _ _ _ _ _ _ hn, rfl⟩
  | succ fuel ih =>
    intro s top bottom h
    by_cases hlt : top < bottom
    · rcases h with h | ⟨hpos, h⟩
      · omega
      · have hnn : ¬ linesize < 0 := by omega
        rw [flipRows.eq_def, if_pos hlt]
        simp only [if_neg hnn]
        have e : ((fuel + 1 : Nat) : Int) * (2 * linesize)
            = (fuel : Int) * (2 * linesize) + 2 * linesize := by
          push_cast; ring
        rw [e] at h
        obtain ⟨out, hrun, hl⟩ := ih
          (swapMemory (F (F s top.toNat xblocks) bottom.toNat xblocks) bottom.toNat top.toNat
            linesize.toNat) (top + linesize) (bottom - linesize)
          (by
            by_cases hb : bottom - linesize ≤ top + linesize
            · exact Or.inl hb
            · exact Or.inr ⟨hpos, by omega⟩)
        refine ⟨out, hrun, ?_⟩
        rw [hl, swapMemory_length, hF, hF]
    · exact ⟨s, flipRows_of_not_lt _ _ _ _ _ _ _ hlt, rfl⟩

/-- Started as `flipCompressedTexture` starts it, with `top` at the surface and one unit of
fuel per byte up to `bottom`, the loop returns a surface when the line size is positive or
`bottom` is not above `top`. -/
theorem flipRows_returns (F : List Nat → Nat → Int → List Nat) (xblocks linesize bottom : Int)
    (hF : ∀ mem line, (F mem line xblocks).length = mem.length) (s : List Nat)
    (h : 0 < linesize ∨ bottom ≤ 0) :
    ∃ out, flipRows F xblocks linesize bottom.toNat s 0 bottom = some out
      ∧ out.length = s.length := by
  apply flipRows_finishes F xblocks linesize hF
  by_cases hb : bottom ≤ 0
  · exact Or.inl hb
  · have hpos : 0 < linesize := by
      rcases h with h | h
      · exact h
      · exact absurd h hb
    have hbpos : 0 < bottom := by omega
    right
    refine ⟨hpos, ?_⟩
    rw [Int.toNat_of_nonneg (le_of_lt hbpos)]
    have h1 : bottom * 1 ≤ bottom * (2 * linesize) :=
      Int.mul_le_mul_of_nonneg_left (by omega) (le_of_lt hbpos)
    omega

theorem wrapInt_zero : wrapInt 0 = 0 := by decide

/-- The result of the row loop as `flipCompressedTexture` starts it is `none` exactly when
the line size is negative and `bottom` is above `top`, that is, when `swapMemory` is
reached with a negative size. -/
theorem flipRows_none_iff (F : List Nat → Nat → Int → List Nat) (xblocks x y : Int)
    (hF : ∀ mem line, (F mem line xblocks).length = mem.length) (s : List Nat) :
    flipRows F xblocks (wrapInt x) (wrapInt (y * wrapInt x)).toNat s 0
        (wrapInt (y * wrapInt x)) = none
      ↔ wrapInt x < 0 ∧ 0 < wrapInt (y * wrapInt x) := by
  constructor
  · intro hnone
    by_contra hcon
    have hcase : 0 < wrapInt x ∨ wrapInt (y * wrapInt x) ≤ 0 := by
      rcases Int.lt_trichotomy (wrapInt x) 0 with hl | hl | hl
      · right
        by_contra hb
        exact hcon ⟨hl, by omega⟩
      · right
        rw [hl, Int.mul_zero, wrapInt_zero]
      · exact Or.inl hl
    obtain ⟨out, hrun, _⟩ := flipRows_returns F xblocks _ _ hF s hcase
    rw [hrun] at hnone
    cases hnone
  · rintro ⟨hl, hb⟩
    exact flipRows_negative F xblocks _ hl _ s 0 _ hb

theorem flipBlockDXTC1_length (mem : List Nat) (line : Nat) (numBlocks : Int) :
    (flipBlockDXTC1 mem line numBlocks).length = mem.length := by
  simp only [flipBlockDXTC1, flipBlockDXTC1Loop_length]

theorem flipBlockDXTC3_length (mem : List Nat) (line : Nat) (numBlocks : Int) :
    (flipBlockDXTC3 mem line numBlocks).length = mem.length := by
  simp only [flipBlockDXTC3, flipBlockDXTC3Loop_length]

theorem flipBlockDXTC5_length (mem : List Nat) (line : Nat) (numBlocks : Int) :
    (flipBlockDXTC5 mem line numBlocks).length = mem.length :=
  blockLoop_length flipBlockDXTC5Loop_blockStep _ mem line

/-- For every `w`, `h`, format and surface, `flipCompressedTexture` gives `none` exactly
when the format is one of the three, the line size (as the 32-bit product gives it) is
negative and `bottom` (likewise) starts above `top`: the case in which `swapMemory` is
reached with a negative size. -/
theorem flipCompressedTexture_none_iff (w h : Int) (format : Nat) (s : List Nat) :
    flipCompressedTexture w h format s = none
      ↔ blockSize format ≠ 0
        ∧ wrapInt ((w >>> 2) * (blockSize format : Int)) < 0
        ∧ 0 < wrapInt ((h >>> 2 - 1) * wrapInt ((w >>> 2) * (blockSize format : Int))) := by
  have h31 : GL_COMPRESSED_RGBA_S3TC_DXT3_EXT ≠ GL_COMPRESSED_RGBA_S3TC_DXT1_EXT := by decide
  have h51 : GL_COMPRESSED_RGBA_S3TC_DXT5_EXT ≠ GL_COMPRESSED_RGBA_S3TC_DXT1_EXT := by decide
  have h53 : GL_COMPRESSED_RGBA_S3TC_DXT5_EXT ≠ GL_COMPRESSED_RGBA_S3TC_DXT3_EXT := by decide
  by_cases f1 : format = GL_COMPRESSED_RGBA_S3TC_DXT1_EXT
  · subst f1
    have b : ((blockSize GL_COMPRESSED_RGBA_S3TC_DXT1_EXT : Nat) : Int) = 8 := by decide
    have bn : blockSize GL_COMPRESSED_RGBA_S3TC_DXT1_EXT ≠ 0 := by decide
    rw [b]
    simp only [flipCompressedTexture, if_true]
    rw [flipRows_none_iff _ _ _ _ (fun mem line => flipBlockDXTC1_length mem line _)]
    exact ⟨fun hx => ⟨bn, hx⟩, fun hx => hx.2⟩
  by_cases f3 : format = GL_COMPRESSED_RGBA_S3TC_DXT3_EXT
  · subst f3
    have b : ((blockSize GL_COMPRESSED_RGBA_S3TC_DXT3_EXT : Nat) : Int) = 16 := by decide
    have bn : blockSize GL_COMPRESSED_RGBA_S3TC_DXT3_EXT ≠ 0 := by decide
    rw [b]
    simp only [flipCompressedTexture, if_neg h31, if_true]
    rw [flipRows_none_iff _ _ _ _ (fun mem line => flipBlockDXTC3_length mem line _)]
    exact ⟨fun hx => ⟨bn, hx⟩, fun hx => hx.2⟩
  by_cases f5 : format = GL_COMPRESSED_RGBA_S3TC_DXT5_EXT
  · subst f5
    have b : ((blockSize GL_COMPRESSED_RGBA_S3TC_DXT5_EXT : Nat) : Int) = 16 := by decide
    have bn : blockSize GL_COMPRESSED_RGBA_S3TC_DXT5_EXT ≠ 0 := by decide
    rw [b]
    simp only [flipCompressedTexture, if_neg h51, if_neg h53, if_true]
    rw [flipRows_none_iff _ _ _ _ (fun mem line => flipBlockDXTC5_length mem line _)]
    exact ⟨fun hx => ⟨bn, hx⟩, fun hx => hx.2⟩
  · have bz : blockSize format = 0 := by
      simp only [blockSize, if_neg f1, if_neg f3, if_neg f5]
    simp only [flipCompressedTexture, if_neg f1, if_neg f3, if_neg f5, bz]
    simp

/-- The row loop as `flipCompressedTexture` starts it with the exact products, for a
block-line routine `F` over blocks of `bs` bytes: with `xblocks >= 0` or `yblocks >= 1` it
returns a surface of the same length, the surface itself when `yblocks` is 0 or 1, and
with the middle row of an odd number `2 * m + 1` of rows as it was; with `xblocks < 0` and
`yblocks <= 0` it returns none. -/
theorem flipRows_claims (F : List Nat → Nat → Int → List Nat) (bs : Nat) (hbs : 0 < bs)
    (hlen : ∀ (x : Int) mem line, (F mem line x).length = mem.length)
    (hrl : ∀ xb : Nat, ∃ g, RowLocal F (xb : Int) (bs * xb) g)
    (xblocks yblocks : Int) (s : List Nat) :
    ((0 ≤ xblocks ∨ 1 ≤ yblocks) →
        (∃ out, flipRows F xblocks (xblocks * (bs : Int))
            ((yblocks - (1 : Int)) * (xblocks * (bs : Int))).toNat s 0
            ((yblocks - (1 : Int)) * (xblocks * (bs : Int))) = some out ∧ out.length = s.length)
        ∧ (yblocks = 0 ∨ yblocks = 1 →
            flipRows F xblocks (xblocks * (bs : Int))
              ((yblocks - (1 : Int)) * (xblocks * (bs : Int))).toNat s 0
              ((yblocks - (1 : Int)) * (xblocks * (bs : Int))) = some s)
        ∧ (∀ m : Nat, yblocks = ((2 * m + 1 : Nat) : Int) →
            (2 * m + 1) * (bs * xblocks.toNat) ≤ s.length →
            ∃ out, flipRows F xblocks (xblocks * (bs : Int))
                ((yblocks - (1 : Int)) * (xblocks * (bs : Int))).toNat s 0
                ((yblocks - (1 : Int)) * (xblocks * (bs : Int))) = some out
              ∧ readBytes out (m * (bs * xblocks.toNat)) (bs * xblocks.toNat)
                = readBytes s (m * (bs * xblocks.toNat)) (bs * xblocks.toNat)))
      ∧ (xblocks < 0 → yblocks ≤ 0 →
          flipRows F xblocks (xblocks * (bs : Int))
            ((yblocks - (1 : Int)) * (xblocks * (bs : Int))).toNat s 0
            ((yblocks - (1 : Int)) * (xblocks * (bs : Int))) = none) := by
  have hbs' : (0 : Int) < (bs : Int) := by exact_mod_cast hbs
  constructor
  · intro hd
    by_cases hx : 0 ≤ xblocks
    · obtain ⟨n, rfl⟩ := Int.eq_ofNat_of_zero_le hx
      obtain ⟨g, hg⟩ := hrl n
      have eL : (n : Int) * (bs : Int) = ((bs * n : Nat) : Int) := by push_cast; ring
      have hL0 : (0 : Int) ≤ ((bs * n : Nat) : Int) := Int.ofNat_nonneg _
      rw [eL]
      simp only [Int.toNat_ofNat]
      refine ⟨?_, ?_, ?_⟩
      · apply flipRows_returns F _ _ _ (hlen _) s
        rcases Nat.eq_zero_or_pos (bs * n) with h0 | hpos
        · right; rw [h0]; simp
        · left; exact_mod_cast hpos
      · intro hy
        apply flipRows_of_not_lt
        rcases hy with hy | hy
        · rw [hy]; simp only [Int.zero_sub]; omega
        · rw [hy]; simp
      · intro m hy hs
        subst hy
        obtain ⟨out, hrun, _, _, hrow⟩ := flipRows_surface hg (2 * m + 1) s hs _
          (fuel_enough (2 * m + 1) (bs * n))
        refine ⟨out, hrun, ?_⟩
        have := hrow m (by omega)
        rw [if_pos (by omega)] at this
        exact this
    · have hy : 1 ≤ yblocks := by
        rcases hd with h | h
        · exact absurd h hx
        · exact h
      have hL : xblocks * (bs : Int) ≤ 0 :=
        Int.mul_nonpos_of_nonpos_of_nonneg (by omega) (le_of_lt hbs')
      have hB : (yblocks - (1 : Int)) * (xblocks * (bs : Int)) ≤ 0 :=
        Int.mul_nonpos_of_nonneg_of_nonpos (by omega) hL
      have hrun := flipRows_of_not_lt F xblocks (xblocks * (bs : Int))
        ((yblocks - (1 : Int)) * (xblocks * (bs : Int))).toNat s 0
        ((yblocks - (1 : Int)) * (xblocks * (bs : Int))) (by omega)
      exact ⟨⟨s, hrun, rfl⟩, fun _ => hrun, fun m _ _ => ⟨s, hrun, rfl⟩⟩
  · intro hx hy
    have hL : xblocks * (bs : Int) < 0 := Int.mul_neg_of_neg_of_pos hx hbs'
    have hB : 0 < (yblocks - (1 : Int)) * (xblocks * (bs : Int)) :=
      Int.mul_pos_of_neg_of_neg (by omega) hL
    exact flipRows_negative F xblocks _ hL _ s 0 _ hB

/-- C23, amended: for `int` values `w`, `h` whose products `xblocks * blocksize` and
`(yblocks - (1 : Int)) * linesize` are in the range of `int`, with every format and surface. If
`w >= 0` or `h >= 4`, `flipCompressedTexture` returns a surface of the same length; when
`h >> 2` is 0 or 1 it is the surface unchanged; and when `h >> 2` is the odd number
`2 * m + 1` and the surface holds the rows, row `m`, the middle one, comes back
byte-identical (a row is `blockSize format * (w >> 2)` bytes). If `w < 0` and `h < 4`, with
one of the three formats, the loop is entered with a negative line size and `swapMemory` is
reached with that size: no surface is returned. -/
theorem flipCompressedTexture_rows (w h : Int) (format : Nat) (s : List Nat)
    (_hw : fitsInt w) (_hh : fitsInt h)
    (hL : fitsInt ((w >>> 2) * (blockSize format : Int)))
    (hO : fitsInt ((h >>> 2 - (1 : Int)) * ((w >>> 2) * (blockSize format : Int)))) :
    ((0 ≤ w ∨ 4 ≤ h) →
        (∃ out, flipCompressedTexture w h format s = some out ∧ out.length = s.length)
        ∧ (h >>> 2 = 0 ∨ h >>> 2 = 1 → flipCompressedTexture w h format s = some s)
        ∧ (∀ m : Nat, h >>> 2 = ((2 * m + 1 : Nat) : Int) →
            (2 * m + 1) * (blockSize format * (w >>> 2).toNat) ≤ s.length →
            ∃ out, flipCompressedTexture w h format s = some out
              ∧ readBytes out (m * (blockSize format * (w >>> 2).toNat))
                  (blockSize format * (w >>> 2).toNat)
                = readBytes s (m * (blockSize format * (w >>> 2).toNat))
                  (blockSize format * (w >>> 2).toNat)))
      ∧ (w < 0 → h < 4 → blockSize format ≠ 0 → flipCompressedTexture w h format s = none) := by
  have h31 : GL_COMPRESSED_RGBA_S3TC_DXT3_EXT ≠ GL_COMPRESSED_RGBA_S3TC_DXT1_EXT := by decide
  have h51 : GL_COMPRESSED_RGBA_S3TC_DXT5_EXT ≠ GL_COMPRESSED_RGBA_S3TC_DXT1_EXT := by decide
  have h53 : GL_COMPRESSED_RGBA_S3TC_DXT5_EXT ≠ GL_COMPRESSED_RGBA_S3TC_DXT3_EXT := by decide
  have hxw := shiftRight_two_eq_div w
  have hyh := shiftRight_two_eq_div h
  have hd1 : (0 ≤ w ∨ 4 ≤ h) → (0 ≤ w >>> 2 ∨ 1 ≤ h >>> 2) := by
    intro hd; omega
  have hd2 : w < 0 → w >>> 2 < 0 := by
    intro hd; omega
  have hd3 : h < 4 → h >>> 2 ≤ 0 := by
    intro hd; omega
  rw [flipCompressedTexture_of_fits w h format s hL hO]
  by_cases f1 : format = GL_COMPRESSED_RGBA_S3TC_DXT1_EXT
  · subst f1
    simp only [blockSize, if_true]
    have key := flipRows_claims flipBlockDXTC1 8 (by decide)
      (fun x mem line => flipBlockDXTC1_length mem line x)
      (fun xb => ⟨_, flipBlockDXTC1_rowLocal xb⟩) (w >>> 2) (h >>> 2) s
    exact ⟨fun hd => key.1 (hd1 hd), fun a b _ => key.2 (hd2 a) (hd3 b)⟩
  by_cases f3 : format = GL_COMPRESSED_RGBA_S3TC_DXT3_EXT
  · subst f3
    simp only [blockSize, if_neg h31, if_true]
    have key := flipRows_claims flipBlockDXTC3 16 (by decide)
      (fun x mem line => flipBlockDXTC3_length mem line x)
      (fun xb => ⟨_, flipBlockDXTC3_rowLocal xb⟩) (w >>> 2) (h >>> 2) s
    exact ⟨fun hd => key.1 (hd1 hd), fun a b _ => key.2 (hd2 a) (hd3 b)⟩
  by_cases f5 : format = GL_COMPRESSED_RGBA_S3TC_DXT5_EXT
  · subst f5
    simp only [blockSize, if_neg h51, if_neg h53, if_true]
    have key := flipRows_claims flipBlockDXTC5 16 (by decide)
      (fun x mem line => flipBlockDXTC5_length mem line x)
      (fun xb => ⟨_, rowLocal_of_blockStep flipBlockDXTC5Loop_blockStep xb⟩)
      (w >>> 2) (h >>> 2) s
    exact ⟨fun hd => key.1 (hd1 hd), fun a b _ => key.2 (hd2 a) (hd3 b)⟩
  · have bz : blockSize format = 0 := by
      simp only [blockSize, if_neg f1, if_neg f3, if_neg f5]
    rw [if_neg f1, if_neg f3, if_neg f5]
    exact ⟨fun _ => ⟨⟨s, rfl, rfl⟩, fun _ => rfl, fun m _ _ => ⟨s, rfl, rfl⟩⟩,
      fun _ _ hb => absurd bz hb⟩

/-- Witness of C23: three rows of one DXT1 block (width 4, height 12), where the rows at
both ends are flipped and change places and the middle row comes back as it was; and two
rows with width `-4` and height 8, where the surface comes back unchanged. -/
theorem flipCompressedTexture_rows_witness :
    flipCompressedTexture 4 12 GL_COMPRESSED_RGBA_S3TC_DXT1_EXT
        [0, 0, 0, 0, 1, 2, 3, 4, 9, 9, 9, 9, 5, 6, 7, 8, 0, 0, 0, 0, 11, 12, 13, 14]
        = some [0, 0, 0, 0, 14, 13, 12, 11, 9, 9, 9, 9, 5, 6, 7, 8, 0, 0, 0, 0, 4, 3, 2, 1]
      ∧ (∃ out, flipCompressedTexture 4 12 GL_COMPRESSED_RGBA_S3TC_DXT1_EXT
            [0, 0, 0, 0, 1, 2, 3, 4, 9, 9, 9, 9, 5, 6, 7, 8, 0, 0, 0, 0, 11, 12, 13, 14]
          = some out
        ∧ readBytes out
            (1 * (blockSize GL_COMPRESSED_RGBA_S3TC_DXT1_EXT * ((4 : Int) >>> 2).toNat))
            (blockSize GL_COMPRESSED_RGBA_S3TC_DXT1_EXT * ((4 : Int) >>> 2).toNat)
          = readBytes
              [0, 0, 0, 0, 1, 2, 3, 4, 9, 9, 9, 9, 5, 6, 7, 8, 0, 0, 0, 0, 11, 12, 13, 14]
              (1 * (blockSize GL_COMPRESSED_RGBA_S3TC_DXT1_EXT * ((4 : Int) >>> 2).toNat))
              (blockSize GL_COMPRESSED_RGBA_S3TC_DXT1_EXT * ((4 : Int) >>> 2).toNat))
      ∧ (∃ out, flipCompressedTexture (-4) 8 GL_COMPRESSED_RGBA_S3TC_DXT1_EXT twoZeroBlocks
          = some out ∧ out.length = twoZeroBlocks.length) :=
  ⟨by decide,
    ((flipCompressedTexture_rows 4 12 GL_COMPRESSED_RGBA_S3TC_DXT1_EXT
      [0, 0, 0, 0, 1, 2, 3, 4, 9, 9, 9, 9, 5, 6, 7, 8, 0, 0, 0, 0, 11, 12, 13, 14]
      (by decide) (by decide) (by decide) (by decide)).1 (by decide)).2.2 1 (by decide)
      (by decide),
    ((flipCompressedTexture_rows (-4) 8 GL_COMPRESSED_RGBA_S3TC_DXT1_EXT twoZeroBlocks
      (by decide) (by decide) (by decide) (by decide)).1 (by decide)).1⟩

/-- C23, counterexample: with width `-4` and height `0` the block counts are `-1` and `0`,
the line size is `-8` and `bottom` starts 8 bytes above `top`, so the loop is entered
although `h >> 2` is 0; its first iteration reaches `swapMemory` with the size `-8`, and
the call does not return the surface. All `int` values involved are in range. -/
theorem flipCompressedTexture_negative_width :
    ((-4 : Int) >>> 2 = -1) ∧ ((0 : Int) >>> 2 = 0)
      ∧ wrapInt ((-4 : Int) >>> 2 * 8) = -8
      ∧ wrapInt (((0 : Int) >>> 2 - (1 : Int)) * wrapInt ((-4 : Int) >>> 2 * 8)) = 8
      ∧ fitsInt ((-4 : Int) >>> 2 * 8)
      ∧ fitsInt (((0 : Int) >>> 2 - (1 : Int)) * ((-4 : Int) >>> 2 * 8))
      ∧ flipCompressedTexture (-4) 0 GL_COMPRESSED_RGBA_S3TC_DXT1_EXT twoZeroBlocks = none
      ∧ flipCompressedTexture (-4) 0 GL_COMPRESSED_RGBA_S3TC_DXT1_EXT twoZeroBlocks
        ≠ some twoZeroBlocks :=
  ⟨by decide, by decide, by decide, by decide, by decide, by decide, by decide, by decide⟩

theorem read24_lt (m : List Nat) (off : Nat) (hv : ∀ b ∈ m, b < 256) :
    read24 m off < 2 ^ 24 := by
  have h0 := getD_lt_of_valid m hv off
  have h1 := getD_lt_of_valid m hv (off + 1)
  have h2 := getD_lt_of_valid m hv (off + 2)
  unfold read24
  omega

theorem read32_mod (m : List Nat) (off : Nat) (hv : ∀ b ∈ m, b < 256) :
    read32 m off % 2 ^ 24 = read24 m off := by
  have h0 := getD_lt_of_valid m hv off
  have h1 := getD_lt_of_valid m hv (off + 1)
  have h2 := getD_lt_of_valid m hv (off + 2)
  unfold read32 read24
  omega

theorem read24_write32 (mem : List Nat) (off v : Nat) (h : off + 4 ≤ mem.length) :
    read24 (write32 mem off v) off = v % 2 ^ 24 := by
  have h0 := write32_getD_at mem off v 0 h (by decide)
  have h1 := write32_getD_at mem off v 1 h (by decide)
  have h2 := write32_getD_at mem off v 2 h (by decide)
  rw [Nat.add_zero] at h0
  simp only [List.getD_cons_zero, List.getD_cons_succ] at h0 h1 h2
  unfold read24
  rw [h0, h1, h2]
  omega

theorem read24_write32_of_ge (mem : List Nat) (off v off' : Nat) (h : off + 4 ≤ mem.length)
    (hlt : off' + 3 ≤ off) : read24 (write32 mem off v) off' = read24 mem off' := by
  unfold read24
  rw [write32_getD_of_lt _ _ _ _ h (by omega), write32_getD_of_lt _ _ _ _ h (by omega),
    write32_getD_of_lt _ _ _ _ h (by omega)]

theorem or_mod_two_pow (a b n : Nat) : (a ||| b) % 2 ^ n = a % 2 ^ n ||| b % 2 ^ n := by
  apply Nat.eq_of_testBit_eq
  intro i
  simp only [Nat.testBit_mod_two_pow, Nat.testBit_or]
  cases decide (i < n) <;> simp

theorem and_high_mod (x : Nat) : (x &&& 0xff000000) % 2 ^ 24 = 0 := by
  have e : (0xff000000 : Nat) = 255 <<< 24 := by decide
  rw [e]
  apply Nat.eq_of_testBit_eq
  intro i
  simp only [Nat.testBit_mod_two_pow, Nat.testBit_and, Nat.testBit_shiftLeft, Nat.zero_testBit]
  rcases Nat.lt_or_ge i 24 with h | h
  · have : ¬ i ≥ 24 := by omega
    simp [this]
  · have : ¬ i < 24 := by omega
    simp [this]

theorem groupIndex_eq (bits k : Nat) : groupIndex bits k = (bits >>> (3 * k)) &&& 7 := by
  unfold groupIndex
  have h : (bits >>> (3 * k)) &&& 7 ≤ 7 := Nat.and_le_right
  exact Nat.mod_eq_of_lt (by omega)

theorem testBit_seven (j : Nat) : (7 : Nat).testBit j = decide (j < 3) := by
  have e : (7 : Nat) = 2 ^ 3 - 1 := by decide
  rw [e, Nat.testBit_two_pow_sub_one]

theorem testBit_fff (j : Nat) : (0xFFF : Nat).testBit j = decide (j < 12) := by
  have e : (0xFFF : Nat) = 2 ^ 12 - 1 := by decide
  rw [e, Nat.testBit_two_pow_sub_one]

/-- The word that `flipDXT5Alpha` assembles from the eight indices of a 24-bit group is the
group with its two 12-bit halves exchanged. -/
theorem swappedRows_eq (x : Nat) (hx : x < 2 ^ 24) : swappedRows x = mirrored x := by
  have hhi : ∀ j, 24 ≤ j → x.testBit j = false := fun j hj =>
    Nat.testBit_lt_two_pow (lt_of_lt_of_le hx (Nat.pow_le_pow_right (by decide) hj))
  apply Nat.eq_of_testBit_eq
  intro i
  simp only [swappedRows, mirrored, groupIndex_eq, Nat.testBit_or, Nat.testBit_shiftLeft,
    Nat.testBit_shiftRight, Nat.testBit_and, testBit_seven, testBit_fff]
  rcases Nat.lt_or_ge i 24 with h | h
  · interval_cases i <;> simp [hhi]
  · have h1 := hhi (12 + i) (by omega)
    have d : ∀ s, s ≤ 21 → decide (i - s < 3) = false := fun s hs => by
      simp only [decide_eq_false_iff_not]; omega
    have d12 : decide (i - 12 < 12) = false := by
      simp only [decide_eq_false_iff_not]; omega
    simp [h1, d, d12]

theorem lor_eq_right_iff (a m : Nat) :
    a ||| m = m ↔ ∀ i, a.testBit i = true → m.testBit i = true := by
  constructor
  · intro h i hi
    have := congrArg (fun x => x.testBit i) h
    simp only [Nat.testBit_or, hi, Bool.true_or] at this
    exact this.symm
  · intro h
    apply Nat.eq_of_testBit_eq
    intro i
    rw [Nat.testBit_or]
    cases ha : a.testBit i
    · simp
    · simp [h i ha]

theorem flipDXT5Alpha_read24_second (mem : List Nat) (block : Nat) (h : block + 9 ≤ mem.length)
    (hv : ∀ b ∈ mem, b < 256) :
    read24 (flipDXT5Alpha mem block) (block + 5) = mirrored (read24 mem (block + 2)) := by
  rw [flipDXT5Alpha_eq mem block h, read24_write32 _ _ _ (by rw [write32_length]; omega),
    or_mod_two_pow, and_high_mod, Nat.zero_or, Nat.mod_eq_of_lt (swappedRows_lt _),
    swappedRows_eq _ (read24_lt mem _ hv)]

theorem flipDXT5Alpha_read24_first (mem : List Nat) (block : Nat) (h : block + 9 ≤ mem.length)
    (hv : ∀ b ∈ mem, b < 256) :
    read24 (flipDXT5Alpha mem block) (block + 2)
      = read24 mem (block + 2) ||| mirrored (read24 mem (block + 5)) := by
  rw [flipDXT5Alpha_eq mem block h,
    read24_write32_of_ge _ _ _ _ (by rw [write32_length]; omega) (by omega),
    read24_write32 _ _ _ (by omega), or_mod_two_pow, read32_mod mem _ hv,
    Nat.mod_eq_of_lt (swappedRows_lt _), swappedRows_eq _ (read24_lt mem _ hv)]

/-- C24: on a buffer of bytes that holds the DXT5 alpha block at `block` and the byte after
it, with `A` the 24-bit little-endian value of bytes 2..4 and `B` that of bytes 5..7 before
the call, `flipDXT5Alpha` leaves bytes 5..7 with the value `(A >> 12) | ((A & 0xFFF) << 12)`
and bytes 2..4 with the value `A | ((B >> 12) | ((B & 0xFFF) << 12))`; so bytes 2..4 hold
the mirrored value of `B` exactly when every bit set in `A` is set in that value. -/
theorem flipDXT5Alpha_groups (mem : List Nat) (block : Nat) (h : block + 9 ≤ mem.length)
    (hv : ∀ b ∈ mem, b < 256) :
    read24 (flipDXT5Alpha mem block) (block + 5)
        = (read24 mem (block + 2) >>> 12) ||| ((read24 mem (block + 2) &&& 0xFFF) <<< 12)
      ∧ read24 (flipDXT5Alpha mem block) (block + 2)
        = read24 mem (block + 2)
          ||| ((read24 mem (block + 5) >>> 12) ||| ((read24 mem (block + 5) &&& 0xFFF) <<< 12))
      ∧ (read24 (flipDXT5Alpha mem block) (block + 2)
          = ((read24 mem (block + 5) >>> 12) ||| ((read24 mem (block + 5) &&& 0xFFF) <<< 12))
        ↔ ∀ i, (read24 mem (block + 2)).testBit i = true →
            ((read24 mem (block + 5) >>> 12)
              ||| ((read24 mem (block + 5) &&& 0xFFF) <<< 12)).testBit i = true) := by
  have h2 := flipDXT5Alpha_read24_first mem block h hv
  refine ⟨flipDXT5Alpha_read24_second mem block h hv, h2, ?_⟩
  rw [h2]
  exact lor_eq_right_iff _ _

/-- Witness of C24: the block with index bytes `209, 88, 31` and `8, 34, 8`, for which
`A = 0x1F58D1` and `B = 0x082208`: bytes 5..7 become `0x8D11F5`, bytes 2..4 become
`0x3FD8D3`, the OR of `A` with `0x208082`. -/
theorem flipDXT5Alpha_groups_witness :
    read24 gridBlock (0 + 2) = 0x1F58D1 ∧ read24 gridBlock (0 + 5) = 0x082208
      ∧ read24 (flipDXT5Alpha gridBlock 0) (0 + 5)
        = (read24 gridBlock (0 + 2) >>> 12) ||| ((read24 gridBlock (0 + 2) &&& 0xFFF) <<< 12)
      ∧ read24 (flipDXT5Alpha gridBlock 0) (0 + 5) = 0x8D11F5
      ∧ read24 (flipDXT5Alpha gridBlock 0) (0 + 2) = 0x3FD8D3 :=
  ⟨by decide, by decide, (flipDXT5Alpha_groups gridBlock 0 (by decide) (by decide)).1,
    by decide, by decide⟩

end DDS

end Lumix
